import Mathlib

/-! FilterGroup: the mixing-group node of the Chromecast ALSA audio mixer,
with the configuration parser and the Governor processing stage.

Shallow embedding of
`src/chromecast/media/cma/backend/alsa/filter_group.cc`; the parser and the
Governor are introduced in their own sections below.

Modelling conventions.

* `float` samples and volumes are rationals: comparison, `std::max` and
  `== 0.0f` behave on them as on finite (non-NaN) floats; sums and products
  are exact.
* `int chunk_size` is a natural number (a frame count); `int` /
  `int64_t` quantities that take part in arithmetic are integers, wrapped to
  64 bits (two's complement) where the source computes in `int64_t`.
* The mixing tree is a tree: a group value holds its children, and a call on
  the parent returns the parent together with its updated children.
* The build is a parameter (`DCHECK_IS_ON`): where the `DCHECK` macros are
  compiled in, a failing `DCHECK` aborts the call (result `none`); where they
  are compiled out the check is skipped. Dereferencing a null bus aborts the
  call in either build.
* `channels_` is the array of channel pointers of `mixed_`; it is assigned
  only in `ResizeBuffersIfNecessary`, together with `mixed_`, so it is read
  off `mixed_` here (`channels_[c]` is channel `c` of `mixed_`).
* A parent reads the channels `c < num_channels_` of its children's buses;
  that read is not bounds-checked, a child with fewer channels than its parent
  is outside the model.
* Every call returns the list of calls it made, in order, next to its
  result, so that statements about what was or was not invoked can be made.
-/

namespace chromecast
namespace media

/-! ## External collaborators -/

/-- An `::media::AudioBus`: `channels` planar channels of `frames` samples.
`data c f` is sample `f` of channel `c`; cells outside `channels × frames` carry
no meaning. -/
structure AudioBus where
  channels : Nat
  frames : Nat
  data : Nat → Nat → ℚ

namespace AudioBus

/-- The factory `AudioBus::Create(channels, frames)`: a fresh bus. The memory is not
initialised; `heap` is whatever the allocator hands out. -/
def Create (heap : Nat → Nat → ℚ) (channels frames : Nat) : AudioBus :=
  { channels := channels, frames := frames, data := heap }

/-- The accessor `bus->channel(c)`: the samples of channel `c`. -/
def channel (b : AudioBus) (c : Nat) : Nat → ℚ := b.data c

/-- Store through the pointer `bus->channel(c)`: replace the samples of
channel `c`. -/
def setChannel (b : AudioBus) (c : Nat) (samples : Nat → ℚ) : AudioBus :=
  { b with data := fun c' f => if c' = c then samples f else b.data c' f }

/-- The method `bus->ZeroFramesPartial(start_frame, frames)`: zero the frames
`[start_frame, start_frame + frames)` of every channel. -/
def ZeroFramesPartial (b : AudioBus) (start_frame frames : Nat) : AudioBus :=
  { b with data := fun c f =>
      if start_frame ≤ f ∧ f < start_frame + frames then 0 else b.data c f }

end AudioBus

/-- Modelled from the spec: `::media::vector_math::FMAC(src, scale, len, dest)`
(media/base/vector_math.h is not part of the sources), the "fused
multiply-accumulate": `dest[i] += src[i] * scale` for `i < len`. -/
def vector_math.FMAC (src : Nat → ℚ) (scale : ℚ) (len : Nat) (dest : Nat → ℚ) :
    Nat → ℚ :=
  fun i => if i < len then dest i + src i * scale else dest i

/-- Modelled from the spec: `StreamMixerAlsa::InputQueue`, the live input
stream (stream_mixer_alsa.h is not part of the sources). A value of this type
is the stream as one mix pass sees it: its device identifier, its scalar
effective volume, and the resampled PCM it delivers. -/
structure InputQueue where
  device_id : String
  EffectiveVolume : ℚ
  resampled : Nat → Nat → ℚ

namespace InputQueue

/-- Modelled from the spec: `GetResampledData(dest, frame_count)` "fetches
resampled PCM for a requested frame count": the first `frames` frames of
every channel of `dest` receive the stream's PCM. -/
def GetResampledData (q : InputQueue) (dest : AudioBus) (frames : Nat) : AudioBus :=
  { dest with data := fun c f => if f < frames then q.resampled c f else dest.data c f }

/-- Modelled from the spec:
`VolumeScaleAccumulate(add_to_existing, src, frame_count, dest)`, the method
"to scale-and-accumulate its samples into a destination buffer", "weighted by
the stream's effective volume": the scaled samples are added to `dest`. The
specification calls the first argument a "first-write flag" ("first stream
overwrites, subsequent streams add"), but `MixAndFilter` zero-fills the
destination and passes `c != 0` for every input, the first one included
(lines 79-85), so the argument does not tell the first stream from the others;
on a zero-filled destination adding and first writing leave the same samples.
What the argument selects inside the method is not described, and the model
does not use it. -/
def VolumeScaleAccumulate (q : InputQueue) (_add_to_existing : Bool)
    (src : Nat → ℚ) (frames : Nat) (dest : Nat → ℚ) : Nat → ℚ :=
  fun f => if f < frames then dest f + q.EffectiveVolume * src f else dest f

end InputQueue

/-- The `PostProcessingPipeline` interface
(post_processing_pipeline.h is not part of the sources), over an arbitrary
pipeline state `σ`, together with the allocator's memory.

`ProcessFrames st data channels frames volume is_silence` is
`ProcessFrames(channels_, chunk_size, last_volume_, is_silence)`: it works in
place on the memory `data` the channel pointers point into, and returns the new
pipeline state, the new memory and the rendering delay in frames.

`DCHECK_IS_ON` is the build configuration: whether the `DCHECK` macros of
base/logging.h are compiled in (debug builds) or compiled out. -/
structure Collaborators (σ : Type) where
  SetSampleRate : σ → Int → σ
  IsRinging : σ → Bool
  ProcessFrames : σ → (Nat → Nat → ℚ) → Nat → Nat → ℚ → Bool → σ × (Nat → Nat → ℚ) × Int
  heap : Nat → Nat → ℚ
  DCHECK_IS_ON : Bool

/-! ## Call log -/

/-- One call made by a `FilterGroup` method. -/
inductive Call where
  /-- Entry of `MixAndFilter(chunk_size)`. -/
  | MixAndFilter (chunk_size : Nat)
  /-- Allocation `AudioBus::Create(channels, frames)` for `mixed_` (`true`) or `temp_`. -/
  | Create (for_mixed : Bool) (channels frames : Nat)
  /-- Zero-fill `mixed_->ZeroFramesPartial(start_frame, frames)`. -/
  | ZeroFramesPartial (start_frame frames : Nat)
  /-- Pull `input->GetResampledData(temp_, frames)` on active input number `input`. -/
  | GetResampledData (input frames : Nat)
  /-- Accumulation `input->VolumeScaleAccumulate(flag, ..)` into channel `channel`. -/
  | VolumeScaleAccumulate (input : Nat) (flag : Bool) (channel : Nat)
  /-- Accumulation `FMAC(group->data()->channel(channel), ..)` reading child number `child`. -/
  | FMAC (child channel : Nat)
  /-- Pipeline run `ProcessFrames(channels_, frames, volume, is_silence)`; `buffer` is the
  content of `mixed_` handed to the pipeline. -/
  | ProcessFrames (buffer : Nat → Nat → ℚ) (frames : Nat) (volume : ℚ) (is_silence : Bool)
  /-- Return of `MixAndFilter` with `volume`. -/
  | Return (volume : ℚ)

/-- Whether the call is a `ProcessFrames`. -/
def Call.isProcessFrames : Call → Bool
  | .ProcessFrames _ _ _ _ => true
  | _ => false

/-- Whether the call is a `ZeroFramesPartial`. -/
def Call.isZeroFramesPartial : Call → Bool
  | .ZeroFramesPartial _ _ => true
  | _ => false

/-- Whether the call is an `AudioBus::Create`. -/
def Call.isCreate : Call → Bool
  | .Create _ _ _ => true
  | _ => false

/-- A logged call with the group that made it: `path` is the position of
that group below the group the method was called on (`[]` is the group itself,
`[i]` its child number `i`, `[i, j]` child `j` of child `i`, ...). -/
structure Event where
  path : List Nat
  call : Call

/-- A call made by the group itself. -/
def Event.own (c : Call) : Event := { path := [], call := c }

/-- An event of child number `i`, seen from the parent. -/
def Event.under (i : Nat) (e : Event) : Event := { e with path := i :: e.path }

/-- The calls of a log that the group itself made. -/
def ownCalls (log : List Event) : List Call :=
  (log.filter (fun e => e.path.isEmpty)).map Event.call

/-- Whether the call is the entry of a `MixAndFilter`. -/
def Call.isMixAndFilter : Call → Bool
  | .MixAndFilter _ => true
  | _ => false

/-- Whether the call is the return of a `MixAndFilter`. -/
def Call.isReturn : Call → Bool
  | .Return _ => true
  | _ => false

/-- The child number and the chunk size, if the event is the entry of the
`MixAndFilter` call of a child of the group the log belongs to. -/
def Event.childEntry (e : Event) : Option (Nat × Nat) :=
  match e.path, e.call with
  | [i], Call.MixAndFilter chunk_size => some (i, chunk_size)
  | _, _ => none

/-! ## Configuration parser

Shallow embedding of
`src/chromecast/media/cma/backend/alsa/post_processing_pipeline_parser.cc`.
A failing `CHECK` is fatal: the call has no result (`none`). The text written
by `LOG(WARNING)` is not modelled. -/

namespace base

/-- Modelled from the spec: a `base::Value` (base/values.h is not part of the
sources), the "JSON-shaped" configuration value. -/
inductive Value where
  | null
  | boolean (b : Bool)
  | integer (i : Int)
  | double (d : ℚ)
  | string (s : String)
  | list (l : List Value)
  | dictionary (d : List (String × Value))

/-- A `base::ListValue`: the elements of a JSON list. -/
abbrev ListValue := List Value

/-- A `base::DictionaryValue`: the key-value pairs of a JSON object. -/
abbrev DictionaryValue := List (String × Value)

/-- The string held by a value, if it is a string: what
`ListValue::GetString(index, &out)` tests on element `index`. -/
def Value.GetAsString : Value → Option String
  | .string s => some s
  | _ => none

/-- The elements of a value, if it is a list. -/
def Value.GetAsList : Value → Option ListValue
  | .list l => some l
  | _ => none

/-- The pairs of a value, if it is a dictionary: what
`ListValue::GetDictionary(index, &out)` tests on element `index`. -/
def Value.GetAsDictionary : Value → Option DictionaryValue
  | .dictionary d => some d
  | _ => none

/-- The conversion `base::DictionaryValue::From(value)`: null for a null
pointer and for a value that is not a dictionary. -/
def DictionaryValue.From (value : Option Value) : Option DictionaryValue :=
  value.bind Value.GetAsDictionary

/-- The lookup `dict->GetList(key, &out)`: the list stored under `key`, if
the key is present and holds a list (the keys used here contain no path
separator). -/
def DictionaryValue.GetList (dict : DictionaryValue) (key : String) : Option ListValue :=
  (dict.lookup key).bind Value.GetAsList

/-- The lookup `dict->GetDictionary(key, &out)`: the dictionary stored under
`key`, if the key is present and holds a dictionary. -/
def DictionaryValue.GetDictionary (dict : DictionaryValue) (key : String) :
    Option DictionaryValue :=
  (dict.lookup key).bind Value.GetAsDictionary

end base

/-- The constant `kPostProcessingPipelineFilePath`. -/
def kPostProcessingPipelineFilePath : String := "/etc/cast_audio.json"

/-- The constant `kOutputStreamsKey`. -/
def kOutputStreamsKey : String := "output_streams"

/-- The constant `kMixPipelineKey`. -/
def kMixPipelineKey : String := "mix"

/-- The constant `kLinearizePipelineKey`. -/
def kLinearizePipelineKey : String := "linearize"

/-- The constant `kProcessorsKey`. -/
def kProcessorsKey : String := "processors"

/-- The constant `kStreamsKey`. -/
def kStreamsKey : String := "streams"

/-- The struct `StreamPipelineDescriptor`: `pipeline` is the list the pointer
`base::ListValue* pipeline` points to. -/
structure StreamPipelineDescriptor where
  pipeline : base.ListValue
  stream_types : Finset String

/-- The file system and the JSON deserialiser the parser calls
(base/files/file_util.h and chromecast/base/serializers.h are not part of the
sources): whether a path exists, and the value a file or a string deserialises
to (null when it is not valid JSON). -/
structure ConfigSource where
  PathExists : String → Bool
  DeserializeJsonFromFile : String → Option base.Value
  DeserializeFromJson : String → Option base.Value

/-- The class `PostProcessingPipelineParser`: its data member `config_dict_`,
null when there is no configuration. -/
structure PostProcessingPipelineParser where
  config_dict_ : Option base.DictionaryValue

namespace PostProcessingPipelineParser

/-- The constructor `PostProcessingPipelineParser(json)` (lines 42-59); `none`
when `CHECK(config_dict_)` fails. -/
def new (src : ConfigSource) (json : String) : Option PostProcessingPipelineParser :=
  if json.isEmpty && !src.PathExists kPostProcessingPipelineFilePath then
    some { config_dict_ := none }
  else
    let config_dict :=
      if json.isEmpty then
        base.DictionaryValue.From (src.DeserializeJsonFromFile kPostProcessingPipelineFilePath)
      else base.DictionaryValue.From (src.DeserializeFromJson json)
    match config_dict with
    | none => none
    | some dict => some { config_dict_ := some dict }

/-- The loop over `streams_list` (lines 84-89) from the element `stream` on;
`none` when `CHECK(streams_list->GetString(..))` or
`CHECK(streams_set.insert(stream_name).second)` fails. -/
def insertStreams : base.ListValue → Finset String → Option (Finset String)
  | [], streams_set => some streams_set
  | stream :: rest, streams_set =>
    match stream.GetAsString with
    | none => none
    | some stream_name =>
      if stream_name ∈ streams_set then none
      else insertStreams rest (insert stream_name streams_set)

/-- The body of the loop over `pipelines_list` (lines 75-91) for one element:
the descriptor appended, `none` when one of the `CHECK`s fails. -/
def describePipeline (element : base.Value) : Option StreamPipelineDescriptor :=
  match element.GetAsDictionary with
  | none => none
  | some pipeline_description_dict =>
    match pipeline_description_dict.GetList kProcessorsKey with
    | none => none
    | some processors_list =>
      match pipeline_description_dict.GetList kStreamsKey with
      | none => none
      | some streams_list =>
        match insertStreams streams_list ∅ with
        | none => none
        | some streams_set =>
          some { pipeline := processors_list, stream_types := streams_set }

/-- The loop over `pipelines_list` (lines 74-92) from the element `i` on,
`descriptors` being the vector built so far. -/
def describePipelines :
    base.ListValue → List StreamPipelineDescriptor → Option (List StreamPipelineDescriptor)
  | [], descriptors => some descriptors
  | element :: rest, descriptors =>
    match describePipeline element with
    | none => none
    | some descriptor => describePipelines rest (descriptors ++ [descriptor])

/-- The method `GetStreamPipelines` (lines 63-94); `none` when a `CHECK`
fails. -/
def GetStreamPipelines (p : PostProcessingPipelineParser) :
    Option (List StreamPipelineDescriptor) :=
  match p.config_dict_ with
  | none => some []
  | some config_dict =>
    match config_dict.GetList kOutputStreamsKey with
    | none => some []
    | some pipelines_list => describePipelines pipelines_list []

/-- The method `GetFilePath` (lines 96-98). -/
def GetFilePath (_p : PostProcessingPipelineParser) : String :=
  kPostProcessingPipelineFilePath

/-- The method `GetPipelineByKey` (lines 108-121): `some none` is the null
pointer (pass-through), `none` a failed `CHECK`. -/
def GetPipelineByKey (p : PostProcessingPipelineParser) (key : String) :
    Option (Option base.ListValue) :=
  match p.config_dict_ with
  | none => some none
  | some config_dict =>
    match config_dict.GetDictionary key with
    | none => some none
    | some stream_dict =>
      match stream_dict.GetList kProcessorsKey with
      | none => none
      | some out_list => some (some out_list)

/-- The method `GetMixPipeline` (lines 100-102). -/
def GetMixPipeline (p : PostProcessingPipelineParser) : Option (Option base.ListValue) :=
  p.GetPipelineByKey kMixPipelineKey

/-- The method `GetLinearizePipeline` (lines 104-106). -/
def GetLinearizePipeline (p : PostProcessingPipelineParser) :
    Option (Option base.ListValue) :=
  p.GetPipelineByKey kLinearizePipelineKey

end PostProcessingPipelineParser

namespace PostProcessingPipelineParser

/-- An entry of `"output_streams"` that is well formed: a dictionary whose
`"processors"` key holds the list `processors` and whose `"streams"` key holds
the list of the strings `names`. -/
def WellFormedEntry (element : base.Value) (processors : base.ListValue)
    (names : List String) : Prop :=
  ∃ dict, element.GetAsDictionary = some dict ∧
    base.DictionaryValue.GetList dict kProcessorsKey = some processors ∧
    base.DictionaryValue.GetList dict kStreamsKey = some (names.map base.Value.string)

end PostProcessingPipelineParser

/-! ## Configuration parser: example instances -/

/-- A source without a default configuration file. -/
def exampleNoFile : ConfigSource :=
  { PathExists := fun _ => false
    DeserializeJsonFromFile := fun _ => none
    DeserializeFromJson := fun _ => none }

/-- A source whose default file and every JSON string deserialise to `v`. -/
def exampleSourceOf (v : base.Value) : ConfigSource :=
  { PathExists := fun _ => true
    DeserializeJsonFromFile := fun _ => some v
    DeserializeFromJson := fun _ => some v }

/-- A configuration object whose `"mix"` object has no `"processors"` key. -/
def exampleMixWithoutProcessors : base.DictionaryValue :=
  [(kMixPipelineKey, base.Value.dictionary [])]

/-- A configuration object whose only `"output_streams"` entry has a
`"processors"` list and no `"streams"` key. -/
def exampleEntryWithoutStreams : base.DictionaryValue :=
  [(kOutputStreamsKey,
    base.Value.list [base.Value.dictionary [(kProcessorsKey, base.Value.list [])]])]

/-- A configuration object whose only `"output_streams"` entry lists the
stream type `"a"` twice. -/
def exampleDuplicateStreams : base.DictionaryValue :=
  [(kOutputStreamsKey,
    base.Value.list [base.Value.dictionary
      [(kProcessorsKey, base.Value.list []),
       (kStreamsKey, base.Value.list
         [base.Value.string "a", base.Value.string "b", base.Value.string "a"])]])]

/-- A configuration object with two well-formed `"output_streams"` entries. -/
def exampleTwoEntries : base.DictionaryValue :=
  [(kOutputStreamsKey,
    base.Value.list
      [base.Value.dictionary
        [(kStreamsKey, base.Value.list [base.Value.string "a", base.Value.string "b"]),
         (kProcessorsKey, base.Value.list [base.Value.string "p", base.Value.string "q"])],
       base.Value.dictionary
        [(kProcessorsKey, base.Value.list []),
         (kStreamsKey, base.Value.list [base.Value.string "c"])]])]

/-! ## Governor

The dynamic-range clamp. `post_processors/governor.cc` and `governor.h` are not
part of the sources: the class is modelled from the specification (§4.3), the
test fixture is embedded from `post_processors/governor_unittest.cc`. A buffer
of channel pointers is a function from channel and frame to the sample; `float`
is `ℚ`, so `EXPECT_FLOAT_EQ` is equality. -/

/-- Modelled from the spec: the class `Governor`. `onset_volume_` and
`clamp_multiplier_` are the configuration, `gain_` is the "current applied
gain", `slew_time_ms_` the "transition time in milliseconds". -/
structure Governor where
  onset_volume_ : ℚ
  clamp_multiplier_ : ℚ
  channels_ : Nat
  slew_time_ms_ : Nat
  sample_rate_ : Nat
  gain_ : ℚ

namespace Governor

/-- Modelled from the spec: the constructor `Governor(config, channels)`, the
configuration string given by the two numbers it holds. The gain starts at 1.0
(no attenuation); the transition time the constructor sets is not given by the
specification and is the parameter `slew_time_ms`. -/
def new (onset_volume clamp_multiplier : ℚ) (channels slew_time_ms : Nat) : Governor :=
  { onset_volume_ := onset_volume
    clamp_multiplier_ := clamp_multiplier
    channels_ := channels
    slew_time_ms_ := slew_time_ms
    sample_rate_ := 0
    gain_ := 1 }

/-- Modelled from the spec: the method `SetSlewTimeMsForTest`. -/
def SetSlewTimeMsForTest (g : Governor) (slew_time_ms : Nat) : Governor :=
  { g with slew_time_ms_ := slew_time_ms }

/-- Modelled from the spec: the method `SetSampleRate`. -/
def SetSampleRate (g : Governor) (sample_rate : Nat) : Governor :=
  { g with sample_rate_ := sample_rate }

/-- Modelled from the spec: the target gain, "strictly below → target 1.0; at
or above → target = clamp multiplier". -/
def targetGain (g : Governor) (volume : ℚ) : ℚ :=
  if volume < g.onset_volume_ then 1 else g.clamp_multiplier_

/-- Modelled from the spec: the "per-frame slew step" of a linear ramp that
covers the full scale in the transition time. -/
def slewStep (g : Governor) : ℚ :=
  1 / ((g.slew_time_ms_ : ℚ) * (g.sample_rate_ : ℚ) / 1000)

/-- Modelled from the spec: the gain moved from `gain` toward `target` by at
most `distance`. -/
def slewToward (gain target distance : ℚ) : ℚ :=
  if gain < target then min target (gain + distance) else max target (gain - distance)

/-- Modelled from the spec: the gain used for frame `i`, "the slew position
after i frames of ramping"; "slew time 0 means instantaneous" switching. -/
def gainAt (g : Governor) (target : ℚ) (i : Nat) : ℚ :=
  if g.slew_time_ms_ = 0 then target
  else slewToward g.gain_ target ((i : ℚ) * g.slewStep)

/-- Modelled from the spec: the method `ProcessFrames(channels, frames,
volume)`, which multiplies "every sample in every channel by the per-frame
interpolated gain" and keeps the gain reached; the result is the governor, the
buffer and the returned delay in frames. The specification does not state
the delay the stage reports: the model returns 0, the value the unit test
expects (governor_unittest.cc, line 102), so that the fixture can be embedded;
nothing about the delay is derived from it. -/
def ProcessFrames (g : Governor) (data : Nat → Nat → ℚ) (frames : Nat) (volume : ℚ) :
    Governor × (Nat → Nat → ℚ) × Int :=
  let target := g.targetGain volume
  ({ g with gain_ := g.gainAt target frames },
   fun c f => if c < g.channels_ ∧ f < frames then data c f * g.gainAt target f else data c f,
   0)

/-- Modelled from the spec: the method `IsRinging`, "false". -/
def IsRinging (_g : Governor) : Bool := false

end Governor

/-- The constant `kNumChannels` of the unit test. -/
def kNumChannels : Nat := 2

/-- The constant `kDefaultClamp` of the unit test, `0.6f`. -/
def kDefaultClamp : ℚ := 3 / 5

/-- The constant `kNumFrames` of the unit test. -/
def kNumFrames : Nat := 100

/-- The constant `kSampleRate` of the unit test. -/
def kSampleRate : Nat := 44100

/-- The value `std::numeric_limits<float>::epsilon()`. -/
def epsilon : ℚ := 1 / 2 ^ 23

/-- The function `ScaleData` of the unit test (lines 59-65); `size` is
`data.size()`, the number of channel pointers. -/
def ScaleData (size : Nat) (data : Nat → Nat → ℚ) (frames : Nat) (scale : ℚ) :
    Nat → Nat → ℚ :=
  fun ch f => if ch < size ∧ f < frames then data ch f * scale else data ch f

/-- The function `CompareData` of the unit test (lines 67-77), both vectors
having `size` channel pointers: whether every expectation holds. -/
def CompareData (size : Nat) (expected actual : Nat → Nat → ℚ) (frames : Nat) : Bool :=
  (List.range size).all fun ch =>
    (List.range frames).all fun f => decide (expected ch f = actual ch f)

/-- The fixture `GovernorTest` of the unit test (lines 81-114); `data_` and
`expected_` are the channels of `data_bus_` and `expected_bus_`, and `passed`
records whether every expectation so far held. -/
structure GovernorTest where
  clamp_ : ℚ
  onset_volume_ : ℚ
  governor_ : Governor
  data_ : Nat → Nat → ℚ
  expected_ : Nat → Nat → ℚ
  passed : Bool

namespace GovernorTest

/-- The method `SetUp` (lines 85-97) for the test parameter `param`; `sine` is
the buffer `GetSineData` returns and `slew_time_ms` the transition time the
constructor sets. -/
def SetUp (param : ℚ) (sine : Nat → Nat → ℚ) (slew_time_ms : Nat) : GovernorTest :=
  { clamp_ := kDefaultClamp
    onset_volume_ := param
    governor_ :=
      ((Governor.new param kDefaultClamp kNumChannels slew_time_ms).SetSlewTimeMsForTest
        0).SetSampleRate kSampleRate
    data_ := sine
    expected_ := sine
    passed := true }

/-- The method `CompareBuffers` (line 99). -/
def CompareBuffers (t : GovernorTest) : GovernorTest :=
  { t with passed := t.passed && CompareData kNumChannels t.expected_ t.data_ kNumFrames }

/-- The method `ProcessFrames` of the fixture (lines 101-103). -/
def ProcessFrames (t : GovernorTest) (volume : ℚ) : GovernorTest :=
  let r := t.governor_.ProcessFrames t.data_ kNumFrames volume
  { t with governor_ := r.1, data_ := r.2.1, passed := t.passed && decide (r.2.2 = 0) }

/-- The call `ScaleData(expected_, kNumFrames, clamp_)` of the tests. -/
def scaleExpected (t : GovernorTest) : GovernorTest :=
  { t with expected_ := ScaleData kNumChannels t.expected_ kNumFrames t.clamp_ }

/-- The test `ZeroVolume` (lines 117-123): whether it passes. -/
def ZeroVolume (t : GovernorTest) : Bool :=
  let t := t.ProcessFrames 0
  let t := if t.onset_volume_ ≤ 0 then t.scaleExpected else t
  t.CompareBuffers.passed

/-- The test `EpsilonBelowOnset` (lines 125-129): whether it passes. -/
def EpsilonBelowOnset (t : GovernorTest) : Bool :=
  let volume := t.onset_volume_ - epsilon
  let t := t.ProcessFrames volume
  t.CompareBuffers.passed

/-- The test `EpsilonAboveOnset` (lines 131-136): whether it passes. -/
def EpsilonAboveOnset (t : GovernorTest) : Bool :=
  let volume := t.onset_volume_ + epsilon
  let t := t.ProcessFrames volume
  let t := t.scaleExpected
  t.CompareBuffers.passed

/-- The test `MaxVolume` (lines 138-144): whether it passes. -/
def MaxVolume (t : GovernorTest) : Bool :=
  let t := t.ProcessFrames 1
  let t := if t.onset_volume_ ≤ 1 then t.scaleExpected else t
  t.CompareBuffers.passed

end GovernorTest

/-- A governor with onset volume 1, clamp multiplier 3/5, two channels, slew
time 0 and gain 1. -/
def exampleGovernor : Governor :=
  (Governor.new 1 (3 / 5) 2 0).SetSampleRate 44100

/-- A buffer whose sample at channel `c`, frame `f` is `c + f + 1`. -/
def exampleBuffer : Nat → Nat → ℚ := fun c f => (c : ℚ) + (f : ℚ) + 1

/-- A governor with onset volume 11/10, clamp multiplier 1/2 and slew time
150 ms at 1000 Hz, after 150 frames processed at volume 2: its gain has come
down to 1/2. -/
def exampleClamped : Governor :=
  (((Governor.new (11 / 10) (1 / 2) 2 150).SetSampleRate 1000).ProcessFrames
    exampleBuffer 150 2).1

/-! ## FilterGroup -/

/-- The data members of `FilterGroup` other than `mixed_inputs_` (and
`channels_`, see above). -/
structure FilterGroupState (σ : Type) where
  num_channels_ : Nat
  name_ : String
  device_ids_ : Finset String
  output_samples_per_second_ : Int
  post_processing_pipeline_ : σ
  active_inputs_ : List InputQueue
  last_volume_ : ℚ
  frames_zeroed_ : Nat
  delay_frames_ : Int
  mixed_ : Option AudioBus
  temp_ : Option AudioBus

/-- A `FilterGroup` with the groups it mixes (`mixed_inputs_`). -/
inductive FilterGroup (σ : Type) where
  | mk (state : FilterGroupState σ) (mixed_inputs_ : List (FilterGroup σ))

namespace FilterGroup

variable {σ : Type}

/-- The data members of the group. -/
def state : FilterGroup σ → FilterGroupState σ
  | .mk s _ => s

/-- The child groups. -/
def mixed_inputs_ : FilterGroup σ → List (FilterGroup σ)
  | .mk _ cs => cs

/-- The accessor `last_volume()`. -/
def last_volume (g : FilterGroup σ) : ℚ := g.state.last_volume_

/-- The accessor `data()`: the bus `mixed_` (null before the first resize). -/
def data (g : FilterGroup σ) : Option AudioBus := g.state.mixed_

/-- The constructor `FilterGroup::FilterGroup` (lines 18-30). `pipeline` is
what `PostProcessingPipeline::Create(name_, filter_list, num_channels_)`
returns. The members the initialiser list leaves out get their default member
initialisers from filter_group.h, which is not part of the sources: they are
taken to start out zero, null or empty. -/
def new (num_channels : Nat) (name : String) (pipeline : σ)
    (device_ids : Finset String) (mixed_inputs : List (FilterGroup σ)) :
    FilterGroup σ :=
  .mk { num_channels_ := num_channels
        name_ := name
        device_ids_ := device_ids
        output_samples_per_second_ := 0
        post_processing_pipeline_ := pipeline
        active_inputs_ := []
        last_volume_ := 0
        frames_zeroed_ := 0
        delay_frames_ := 0
        mixed_ := none
        temp_ := none } mixed_inputs

/-- The method `FilterGroup::Initialize` (lines 34-37). -/
def Initialize (W : Collaborators σ) (g : FilterGroup σ)
    (output_samples_per_second : Int) : FilterGroup σ :=
  .mk { g.state with
        output_samples_per_second_ := output_samples_per_second
        post_processing_pipeline_ :=
          W.SetSampleRate g.state.post_processing_pipeline_ output_samples_per_second }
    g.mixed_inputs_

/-- The method `FilterGroup::CanProcessInput` (lines 39-41). The method is not `const`:
it returns its result and the group after the call. -/
def CanProcessInput (g : FilterGroup σ) (input : InputQueue) : Bool × FilterGroup σ :=
  (!(decide (input.device_id ∉ g.state.device_ids_)), g)

/-- The method `FilterGroup::AddActiveInput` (lines 43-45). -/
def AddActiveInput (g : FilterGroup σ) (input : InputQueue) : FilterGroup σ :=
  .mk { g.state with active_inputs_ := g.state.active_inputs_ ++ [input] } g.mixed_inputs_

/-- The method `FilterGroup::ClearActiveInputs` (lines 119-121). -/
def ClearActiveInputs (g : FilterGroup σ) : FilterGroup σ :=
  .mk { g.state with active_inputs_ := [] } g.mixed_inputs_

/-- The macro `DCHECK_NE(a, b)` (base/logging.h is not part of the sources),
with the build as a parameter: where the `DCHECK` macros are compiled in
(`dcheck_is_on`) a check with `a = b` aborts the call, which is the guard the
specification asks for ("fail fast, not silently wrong"); where they are
compiled out the statement does nothing. The result tells whether execution
goes on. -/
def DCHECK_NE (dcheck_is_on : Bool) (a b : Int) : Bool := !dcheck_is_on || decide (a ≠ b)

/-- The test `!bus || bus->frames() < chunk_size` of
`ResizeBuffersIfNecessary`. -/
def tooSmall (bus : Option AudioBus) (chunk_size : Nat) : Bool :=
  match bus with
  | none => true
  | some b => decide (b.frames < chunk_size)

/-- The method `FilterGroup::ResizeBuffersIfNecessary` (lines 123-133), on the
data members; returns the allocations made. -/
def ResizeBuffersIfNecessary (W : Collaborators σ) (s : FilterGroupState σ)
    (chunk_size : Nat) : List Call × FilterGroupState σ :=
  let r : List Call × FilterGroupState σ :=
    if tooSmall s.mixed_ chunk_size then
      ([Call.Create true s.num_channels_ chunk_size],
       { s with mixed_ := some (AudioBus.Create W.heap s.num_channels_ chunk_size) })
    else ([], s)
  if tooSmall r.2.temp_ chunk_size then
    (r.1 ++ [Call.Create false s.num_channels_ chunk_size],
     { r.2 with temp_ := some (AudioBus.Create W.heap s.num_channels_ chunk_size) })
  else r

/-- The loop `for (int c = 0; c < num_channels_; ++c)` writing through
`channels_[c]`: channel `c` of `mixed` becomes `body c` of its old samples. -/
def forChannels (num_channels : Nat) (body : Nat → (Nat → ℚ) → (Nat → ℚ))
    (mixed : AudioBus) : AudioBus :=
  (List.range num_channels).foldl (fun m c => m.setChannel c (body c (m.channel c))) mixed

/-- The loop "Mix InputQueues" (lines 80-88) from active input number `i` on:
returns the calls made, `mixed_`, `temp_` and the running `volume`. The check
`DCHECK(channels_[c])` passes, `mixed_` not being null here. -/
def mixInputQueues (num_channels chunk_size : Nat) :
    List InputQueue → Nat → AudioBus → AudioBus → ℚ → List Call × AudioBus × AudioBus × ℚ
  | [], _, mixed, temp, volume => ([], mixed, temp, volume)
  | input :: rest, i, mixed, temp, volume =>
    let temp1 := input.GetResampledData temp chunk_size
    let mixed1 := forChannels num_channels
      (fun c dest => input.VolumeScaleAccumulate (c != 0) (temp1.channel c) chunk_size dest)
      mixed
    let r := mixInputQueues num_channels chunk_size rest (i + 1) mixed1 temp1
      (max volume input.EffectiveVolume)
    (Call.GetResampledData i chunk_size ::
       (List.range num_channels).map (fun c => Call.VolumeScaleAccumulate i (c != 0) c) ++ r.1,
     r.2)

/-- The inner loop of "Mix FilterGroups" (lines 93-96) for one child whose
bus is `src`: dereferencing a null `data()` aborts. -/
def fmacChannels (num_channels chunk_size : Nat) (src : Option AudioBus)
    (mixed : AudioBus) : Option AudioBus :=
  (List.range num_channels).foldlM
    (fun m c => src.map (fun d =>
      m.setChannel c (vector_math.FMAC (d.channel c) 1 chunk_size (m.channel c))))
    mixed

/-- The loop "Mix FilterGroups" (lines 91-98) from child number `i` on:
returns the calls made and `mixed_` (`none` if the loop aborted). -/
def mixFilterGroups (num_channels chunk_size : Nat) :
    List (FilterGroup σ) → Nat → AudioBus → List Call × Option AudioBus
  | [], _, mixed => ([], some mixed)
  | group :: rest, i, mixed =>
    if group.last_volume > 0 then
      match fmacChannels num_channels chunk_size group.data mixed with
      | none => ([], none)
      | some mixed1 =>
        let r := mixFilterGroups num_channels chunk_size rest (i + 1) mixed1
        ((List.range num_channels).map (fun c => Call.FMAC i c) ++ r.1, r.2)
    else mixFilterGroups num_channels chunk_size rest (i + 1) mixed

/-- The test of the silence early return (lines 66-67), `volume` being the
running maximum of what the children returned. -/
def isSilent (W : Collaborators σ) (s : FilterGroupState σ) (volume : ℚ) : Bool :=
  s.active_inputs_.isEmpty && decide (volume = 0) &&
    !W.IsRinging s.post_processing_pipeline_

/-- The maximum of `v` and the effective volumes of the inputs `qs`: the
variable `volume` after the loop over the active inputs. -/
def maxVolume (v : ℚ) (qs : List InputQueue) : ℚ :=
  (qs.map InputQueue.EffectiveVolume).foldl max v

/-- Lines 100-111 of `MixAndFilter`: `mixed2` is the combined buffer, `temp1`
the scratch buffer and `volume` the maximum volume seen. Returns the calls
made, the new data members and the returned volume. -/
def runPipeline (W : Collaborators σ) (s : FilterGroupState σ) (mixed2 temp1 : AudioBus)
    (volume : ℚ) (chunk_size : Nat) : List Call × FilterGroupState σ × ℚ :=
  let is_silence := decide (volume = 0)
  let last_volume := if is_silence then s.last_volume_ else volume
  let p := W.ProcessFrames s.post_processing_pipeline_ mixed2.data s.num_channels_
    chunk_size last_volume is_silence
  ([Call.ProcessFrames mixed2.data chunk_size last_volume is_silence, Call.Return last_volume],
   { s with mixed_ := some { mixed2 with data := p.2.1 }
            temp_ := some temp1
            last_volume_ := last_volume
            post_processing_pipeline_ := p.1
            delay_frames_ := p.2.2 },
   last_volume)

/-- Lines 66-111 of `MixAndFilter`: what the group does once its children
have been mixed. `s` is the group after `ResizeBuffersIfNecessary`,
`children` are the children after their own `MixAndFilter`, `volume` is the
running maximum of what they returned. Returns the calls made and, unless
aborted, the new data members and the returned volume. -/
def mixOwn (W : Collaborators σ) (s : FilterGroupState σ)
    (children : List (FilterGroup σ)) (volume : ℚ) (chunk_size : Nat) :
    List Call × Option (FilterGroupState σ × ℚ) :=
  match s.mixed_, s.temp_ with
  | some mixed, some temp =>
    if isSilent W s volume then
      if s.frames_zeroed_ < chunk_size then
        ([Call.ZeroFramesPartial 0 chunk_size, Call.Return 0],
         some ({ s with mixed_ := some (mixed.ZeroFramesPartial 0 chunk_size)
                        frames_zeroed_ := chunk_size }, 0))
      else ([Call.Return 0], some (s, 0))
    else
      let inputs := mixInputQueues s.num_channels_ chunk_size s.active_inputs_ 0
        (mixed.ZeroFramesPartial 0 chunk_size) temp volume
      let groups := mixFilterGroups s.num_channels_ chunk_size children 0 inputs.2.1
      match groups.2 with
      | none => (Call.ZeroFramesPartial 0 chunk_size :: inputs.1 ++ groups.1, none)
      | some mixed2 =>
        let r := runPipeline W { s with frames_zeroed_ := 0 } mixed2 inputs.2.2.1
          inputs.2.2.2 chunk_size
        (Call.ZeroFramesPartial 0 chunk_size :: inputs.1 ++ groups.1 ++ r.1, some r.2)
  | _, _ => ([], none)

mutual

/-- The method `FilterGroup::MixAndFilter` (lines 47-112): returns the log of
the calls made and, unless a check failed, the group after the call with the
returned volume. -/
def MixAndFilter (W : Collaborators σ) :
    FilterGroup σ → Nat → List Event × Option (FilterGroup σ × ℚ)
  | .mk s children, chunk_size =>
    if DCHECK_NE W.DCHECK_IS_ON s.output_samples_per_second_ 0 then
      let resized := ResizeBuffersIfNecessary W s chunk_size
      let entry := Event.own (Call.MixAndFilter chunk_size) :: resized.1.map Event.own
      match mixChildren W children chunk_size 0 0 with
      | (log, none) => (entry ++ log, none)
      | (log, some (children1, volume)) =>
        match mixOwn W resized.2 children1 volume chunk_size with
        | (calls, none) => (entry ++ log ++ calls.map Event.own, none)
        | (calls, some (s1, result)) =>
          (entry ++ log ++ calls.map Event.own, some (.mk s1 children1, result))
    else ([Event.own (Call.MixAndFilter chunk_size)], none)

/-- The loop "Recursively mix inputs" (lines 55-57) from child number `i` on,
with running maximum `volume`: returns the log, and unless a child aborted,
the children after their calls and the final `volume`. -/
def mixChildren (W : Collaborators σ) :
    List (FilterGroup σ) → Nat → Nat → ℚ → List Event × Option (List (FilterGroup σ) × ℚ)
  | [], _, _, volume => ([], some ([], volume))
  | filter_group :: rest, chunk_size, i, volume =>
    match MixAndFilter W filter_group chunk_size with
    | (log, none) => (log.map (Event.under i), none)
    | (log, some (filter_group1, returned)) =>
      match mixChildren W rest chunk_size (i + 1) (max volume returned) with
      | (log1, none) => (log.map (Event.under i) ++ log1, none)
      | (log1, some (rest1, volume1)) =>
        (log.map (Event.under i) ++ log1, some (filter_group1 :: rest1, volume1))

end

/-- Wrap an integer to the range of `int64_t` (two's complement). -/
def wrapInt64 (x : Int) : Int := (x + 2 ^ 63) % 2 ^ 64 - 2 ^ 63

/-- The constant `base::Time::kMicrosecondsPerSecond`. -/
def kMicrosecondsPerSecond : Int := 1000000

/-- The method `FilterGroup::GetRenderingDelayMicroseconds` (lines 114-117), in
`int64_t` arithmetic (product and quotient wrapped to 64 bits) with truncating
division; dividing by a zero sample rate has no result. -/
def GetRenderingDelayMicroseconds (g : FilterGroup σ) : Option Int :=
  if g.state.output_samples_per_second_ = 0 then none
  else some (wrapInt64 (Int.tdiv (wrapInt64 (g.state.delay_frames_ * kMicrosecondsPerSecond))
    g.state.output_samples_per_second_))

/-- Soundness of the zero cache `frames_zeroed_`: the counter does not exceed
the capacity of `mixed_`, and the frames it counts are zero. -/
def ZeroCacheSound (s : FilterGroupState σ) : Prop :=
  match s.mixed_ with
  | none => s.frames_zeroed_ = 0
  | some m => s.frames_zeroed_ ≤ m.frames ∧
      ∀ c f, c < m.channels → f < s.frames_zeroed_ → m.data c f = 0

/-- The output buffer of `g` holds at least `C` frames and the first `C` frames
of every channel are zero. -/
def OutputZero (g : FilterGroup σ) (C : Nat) : Prop :=
  ∃ m, g.data = some m ∧ C ≤ m.frames ∧ ∀ c f, c < m.channels → f < C → m.data c f = 0

/-- The sum of the volume-scaled samples of the inputs `qs` at channel `c`,
frame `f`. -/
def scaledSum (qs : List InputQueue) (c f : Nat) : ℚ :=
  (qs.map (fun q => q.EffectiveVolume * q.resampled c f)).sum

/-- Sample `f` of channel `c` of the output buffer of `g` (0 if there is no
buffer). -/
def outputSample (g : FilterGroup σ) (c f : Nat) : ℚ :=
  match g.data with
  | some d => d.data c f
  | none => 0

/-- The sum, at channel `c` and frame `f`, of the output samples of the groups
of `cs` whose last volume is positive. -/
def childrenSum (cs : List (FilterGroup σ)) (c f : Nat) : ℚ :=
  ((cs.filter (fun g => decide (g.last_volume > 0))).map (fun g => outputSample g c f)).sum

/-- What lines 76-98 leave at channel `c`, frame `f` of `mixed_` (for `c`
below the channel count and `f` below the chunk size), in closed form: the sum
of the scaled samples of all active inputs plus the samples of the children
whose last volume is positive. -/
def preFilterSample (inputs : List InputQueue) (children : List (FilterGroup σ))
    (c f : Nat) : ℚ :=
  scaledSum inputs c f + childrenSum children c f

/-- The states a group can be in: those the constructor yields, followed by
any sequence of `Initialize`, `AddActiveInput`, `ClearActiveInputs` and
returning `MixAndFilter` calls on the group. Nothing is required of the
children, which other callers may have changed between two calls. -/
inductive Reachable (W : Collaborators σ) : FilterGroup σ → Prop where
  | new (num_channels : Nat) (name : String) (pipeline : σ) (device_ids : Finset String)
      (mixed_inputs : List (FilterGroup σ)) :
      Reachable W (FilterGroup.new num_channels name pipeline device_ids mixed_inputs)
  | Initialize (g : FilterGroup σ) (rate : Int) :
      Reachable W g → Reachable W (Initialize W g rate)
  | AddActiveInput (g : FilterGroup σ) (input : InputQueue) :
      Reachable W g → Reachable W (AddActiveInput g input)
  | ClearActiveInputs (g : FilterGroup σ) :
      Reachable W g → Reachable W (ClearActiveInputs g)
  | MixAndFilter (g g1 : FilterGroup σ) (C : Nat) (l : List Event) (r : ℚ) :
      Reachable W g → MixAndFilter W g C = (l, some (g1, r)) → Reachable W g1
  | children (g : FilterGroup σ) (cs : List (FilterGroup σ)) :
      Reachable W g → Reachable W (FilterGroup.mk g.state cs)

/-- The history of a group as far as the rendering delay goes:
`DelayRate W g d r` holds when `r` is the sample rate most recently bound by
`Initialize` (0 if there was none) and `d` is the delay the pipeline returned
in the last `MixAndFilter` call of the group that ran the pipeline (0 if there
was none). -/
inductive DelayRate (W : Collaborators σ) : FilterGroup σ → Int → Int → Prop where
  | new (num_channels : Nat) (name : String) (pipeline : σ) (device_ids : Finset String)
      (mixed_inputs : List (FilterGroup σ)) :
      DelayRate W (FilterGroup.new num_channels name pipeline device_ids mixed_inputs) 0 0
  | Initialize (g : FilterGroup σ) (d r rate : Int) :
      DelayRate W g d r → DelayRate W (Initialize W g rate) d rate
  | AddActiveInput (g : FilterGroup σ) (d r : Int) (input : InputQueue) :
      DelayRate W g d r → DelayRate W (AddActiveInput g input) d r
  | ClearActiveInputs (g : FilterGroup σ) (d r : Int) :
      DelayRate W g d r → DelayRate W (ClearActiveInputs g) d r
  | children (g : FilterGroup σ) (d r : Int) (cs : List (FilterGroup σ)) :
      DelayRate W g d r → DelayRate W (FilterGroup.mk g.state cs) d r
  | processed (g g1 : FilterGroup σ) (d r : Int) (C : Nat) (l : List Event) (ret : ℚ)
      (buf : Nat → Nat → ℚ) (frames : Nat) (vol : ℚ) (sil : Bool) :
      DelayRate W g d r → MixAndFilter W g C = (l, some (g1, ret)) →
      (ownCalls l).filter Call.isProcessFrames = [Call.ProcessFrames buf frames vol sil] →
      DelayRate W g1 (W.ProcessFrames g.state.post_processing_pipeline_ buf
        g.state.num_channels_ frames vol sil).2.2 r
  | skipped (g g1 : FilterGroup σ) (d r : Int) (C : Nat) (l : List Event) (ret : ℚ) :
      DelayRate W g d r → MixAndFilter W g C = (l, some (g1, ret)) →
      (ownCalls l).filter Call.isProcessFrames = [] →
      DelayRate W g1 d r

/-- A group that returned a volume `≤ 0` returns a volume `≤ 0` again when
called once more with the same chunk size. -/
def StaysSilent (W : Collaborators σ) (g : FilterGroup σ) : Prop :=
  ∀ (C : Nat) (l : List Event) (g1 : FilterGroup σ) (r : ℚ),
    MixAndFilter W g C = (l, some (g1, r)) → r ≤ 0 →
    ∃ l' g2 r', MixAndFilter W g1 C = (l', some (g2, r')) ∧ r' ≤ 0

/-- Children whose loop ended with running maximum 0 end with running maximum
0 again when mixed once more with the same chunk size. -/
def StaySilent (W : Collaborators σ) (cs : List (FilterGroup σ)) : Prop :=
  ∀ (C i : Nat) (log : List Event) (cs1 : List (FilterGroup σ)),
    mixChildren W cs C i 0 = (log, some (cs1, 0)) →
    ∀ j, ∃ log' cs2, mixChildren W cs1 C j 0 = (log', some (cs2, 0))

/-- The groups constructed with the device-id set `ids`: what the constructor
yields for `ids`, followed by any sequence of calls of the methods of the
group (and of changes to its children). -/
inductive ConstructedWith (W : Collaborators σ) (ids : Finset String) :
    FilterGroup σ → Prop where
  | new (num_channels : Nat) (name : String) (pipeline : σ)
      (mixed_inputs : List (FilterGroup σ)) :
      ConstructedWith W ids (FilterGroup.new num_channels name pipeline ids mixed_inputs)
  | Initialize (g : FilterGroup σ) (rate : Int) :
      ConstructedWith W ids g → ConstructedWith W ids (Initialize W g rate)
  | CanProcessInput (g : FilterGroup σ) (input : InputQueue) :
      ConstructedWith W ids g → ConstructedWith W ids (CanProcessInput g input).2
  | AddActiveInput (g : FilterGroup σ) (input : InputQueue) :
      ConstructedWith W ids g → ConstructedWith W ids (AddActiveInput g input)
  | ClearActiveInputs (g : FilterGroup σ) :
      ConstructedWith W ids g → ConstructedWith W ids (ClearActiveInputs g)
  | MixAndFilter (g g1 : FilterGroup σ) (C : Nat) (l : List Event) (r : ℚ) :
      ConstructedWith W ids g → MixAndFilter W g C = (l, some (g1, r)) →
      ConstructedWith W ids g1
  | children (g : FilterGroup σ) (cs : List (FilterGroup σ)) :
      ConstructedWith W ids g → ConstructedWith W ids (FilterGroup.mk g.state cs)

/-- The frame capacity of a bus pointer: `frames()` of the bus, 0 for a null
pointer. -/
def capacity (bus : Option AudioBus) : Nat :=
  match bus with
  | none => 0
  | some b => b.frames

/-- The chunk sizes a group has been mixed with: `MixedWith W g Cs` holds
when `g` results from the constructor followed by any sequence of method
calls in which the returning `MixAndFilter` calls had the chunk sizes `Cs`, in
this order. -/
inductive MixedWith (W : Collaborators σ) : FilterGroup σ → List Nat → Prop where
  | new (num_channels : Nat) (name : String) (pipeline : σ) (device_ids : Finset String)
      (mixed_inputs : List (FilterGroup σ)) :
      MixedWith W (FilterGroup.new num_channels name pipeline device_ids mixed_inputs) []
  | Initialize (g : FilterGroup σ) (Cs : List Nat) (rate : Int) :
      MixedWith W g Cs → MixedWith W (Initialize W g rate) Cs
  | CanProcessInput (g : FilterGroup σ) (Cs : List Nat) (input : InputQueue) :
      MixedWith W g Cs → MixedWith W (CanProcessInput g input).2 Cs
  | AddActiveInput (g : FilterGroup σ) (Cs : List Nat) (input : InputQueue) :
      MixedWith W g Cs → MixedWith W (AddActiveInput g input) Cs
  | ClearActiveInputs (g : FilterGroup σ) (Cs : List Nat) :
      MixedWith W g Cs → MixedWith W (ClearActiveInputs g) Cs
  | children (g : FilterGroup σ) (Cs : List Nat) (cs : List (FilterGroup σ)) :
      MixedWith W g Cs → MixedWith W (FilterGroup.mk g.state cs) Cs
  | MixAndFilter (g g1 : FilterGroup σ) (Cs : List Nat) (C : Nat) (l : List Event) (r : ℚ) :
      MixedWith W g Cs → MixAndFilter W g C = (l, some (g1, r)) →
      MixedWith W g1 (Cs ++ [C])

/-- The array `channels_` as a view of `mixed_`: entry `c` is the pointer
`mixed_->channel(c)`, null while there is no bus. -/
def channels_ (s : FilterGroupState σ) : List (Option (Nat → ℚ)) :=
  (List.range s.num_channels_).map (fun c => s.mixed_.map (fun b => b.channel c))

/-- The history of a group as far as its last volume goes:
`VolumeHistory W g b` holds when `g` results from the constructor followed by
any sequence of method calls, and `b` tells whether some returning
`MixAndFilter` call of that sequence left a non-zero last volume. -/
inductive VolumeHistory (W : Collaborators σ) : FilterGroup σ → Bool → Prop where
  | new (num_channels : Nat) (name : String) (pipeline : σ) (device_ids : Finset String)
      (mixed_inputs : List (FilterGroup σ)) :
      VolumeHistory W (FilterGroup.new num_channels name pipeline device_ids mixed_inputs) false
  | Initialize (g : FilterGroup σ) (b : Bool) (rate : Int) :
      VolumeHistory W g b → VolumeHistory W (Initialize W g rate) b
  | CanProcessInput (g : FilterGroup σ) (b : Bool) (input : InputQueue) :
      VolumeHistory W g b → VolumeHistory W (CanProcessInput g input).2 b
  | AddActiveInput (g : FilterGroup σ) (b : Bool) (input : InputQueue) :
      VolumeHistory W g b → VolumeHistory W (AddActiveInput g input) b
  | ClearActiveInputs (g : FilterGroup σ) (b : Bool) :
      VolumeHistory W g b → VolumeHistory W (ClearActiveInputs g) b
  | children (g : FilterGroup σ) (b : Bool) (cs : List (FilterGroup σ)) :
      VolumeHistory W g b → VolumeHistory W (FilterGroup.mk g.state cs) b
  | MixAndFilter (g g1 : FilterGroup σ) (b : Bool) (C : Nat) (l : List Event) (r : ℚ) :
      VolumeHistory W g b → MixAndFilter W g C = (l, some (g1, r)) →
      VolumeHistory W g1 (b || decide (g1.last_volume ≠ 0))

/-- The logs of the calls `MixAndFilter(C)` on the groups `cs`, one complete
log after the other in list order, seen from the parent whose children from
number `i` on they are. -/
def childLogs (W : Collaborators σ) : List (FilterGroup σ) → Nat → Nat → List Event
  | [], _, _ => []
  | child :: rest, C, i =>
    (MixAndFilter W child C).1.map (Event.under i) ++ childLogs W rest C (i + 1)

mutual

/-- Whether `Initialize` has bound a non-zero sample rate in every group of
the tree. -/
def Initialized : FilterGroup σ → Bool
  | .mk s children => decide (s.output_samples_per_second_ ≠ 0) && AllInitialized children

/-- Whether every tree of the list is initialised. -/
def AllInitialized : List (FilterGroup σ) → Bool
  | [] => true
  | g :: rest => Initialized g && AllInitialized rest

end

mutual

/-- Every group of the tree has a last volume that is 0 or satisfies `P`, and
only active inputs whose effective volume satisfies `P`. -/
def VolumesIn (P : ℚ → Prop) : FilterGroup σ → Prop
  | .mk s children =>
    (s.last_volume_ = 0 ∨ P s.last_volume_) ∧
    (∀ q ∈ s.active_inputs_, P q.EffectiveVolume) ∧ AllVolumesIn P children

/-- Every tree of the list satisfies `VolumesIn P`. -/
def AllVolumesIn (P : ℚ → Prop) : List (FilterGroup σ) → Prop
  | [] => True
  | g :: rest => VolumesIn P g ∧ AllVolumesIn P rest

end

/-- The trees in whose history every input that was active, in any group of
the tree and in any callback so far, had an effective volume satisfying `P`:
trees built by the constructor over such trees, followed by any sequence of
method calls on the group, the children being such trees throughout. -/
inductive InputsWithin (W : Collaborators σ) (P : ℚ → Prop) : FilterGroup σ → Prop where
  | new (num_channels : Nat) (name : String) (pipeline : σ) (device_ids : Finset String)
      (mixed_inputs : List (FilterGroup σ)) :
      (∀ c ∈ mixed_inputs, InputsWithin W P c) →
      InputsWithin W P (FilterGroup.new num_channels name pipeline device_ids mixed_inputs)
  | Initialize (g : FilterGroup σ) (rate : Int) :
      InputsWithin W P g → InputsWithin W P (Initialize W g rate)
  | CanProcessInput (g : FilterGroup σ) (input : InputQueue) :
      InputsWithin W P g → InputsWithin W P (CanProcessInput g input).2
  | AddActiveInput (g : FilterGroup σ) (input : InputQueue) :
      InputsWithin W P g → P input.EffectiveVolume →
      InputsWithin W P (AddActiveInput g input)
  | ClearActiveInputs (g : FilterGroup σ) :
      InputsWithin W P g → InputsWithin W P (ClearActiveInputs g)
  | children (g : FilterGroup σ) (cs : List (FilterGroup σ)) :
      InputsWithin W P g → (∀ c ∈ cs, InputsWithin W P c) →
      InputsWithin W P (FilterGroup.mk g.state cs)
  | MixAndFilter (g g1 : FilterGroup σ) (C : Nat) (l : List Event) (r : ℚ) :
      InputsWithin W P g → MixAndFilter W g C = (l, some (g1, r)) → InputsWithin W P g1

/-! ## Example instances -/

/-- An example pipeline: its state is the number of silent callbacks it still
rings for; it leaves the samples alone and reports a delay of 480 frames. -/
def exampleWorld : Collaborators Nat :=
  { SetSampleRate := fun st _ => st
    IsRinging := fun st => decide (0 < st)
    ProcessFrames := fun st data _ _ _ is_silence =>
      (if is_silence then st - 1 else st, data, 480)
    heap := fun _ _ => 99
    DCHECK_IS_ON := true }

/-- The example pipeline in a build without `DCHECK`. -/
def exampleRelease : Collaborators Nat := { exampleWorld with DCHECK_IS_ON := false }

/-- An example input stream on device "a" at full volume. -/
def exampleInputA : InputQueue :=
  { device_id := "a", EffectiveVolume := 1, resampled := fun c f => (c + 1) * 10 + f }

/-- An example input stream on device "b" at full volume. -/
def exampleInputB : InputQueue :=
  { device_id := "b", EffectiveVolume := 1, resampled := fun c f => (c + 1) * 100 + f }

/-- An example leaf group: two channels, device "a", 48 kHz, pipeline ringing
for `ring` more silent callbacks. -/
def exampleLeaf (ring : Nat) : FilterGroup Nat :=
  Initialize exampleWorld (FilterGroup.new 2 "leaf" ring {"a"} []) 48000

/-- An example parent group over children `cs`: two channels, no device. -/
def exampleParent (cs : List (FilterGroup Nat)) : FilterGroup Nat :=
  Initialize exampleWorld (FilterGroup.new 2 "mix" 0 ∅ cs) 48000

/-- An example group that has been active: the example leaf with a pipeline
ringing for two more callbacks and last volume 1. -/
def exampleRinging : FilterGroup Nat :=
  .mk { (exampleLeaf 2).state with last_volume_ := 1 } []

/-- The example leaf with the example input A active. -/
def exampleActive : FilterGroup Nat := (exampleLeaf 0).AddActiveInput exampleInputA

/-- A constructed group that was never initialised, over one example leaf. -/
def exampleUninitialized : FilterGroup Nat :=
  FilterGroup.new 2 "mix" 0 ∅ [exampleLeaf 0]

/-- An example group that has been active and is paused: the example leaf
after one call with the example input A active (chunk size 3), its inputs
then cleared. Its last volume is 1 and its pipeline is not ringing. -/
def examplePaused : FilterGroup Nat :=
  match (MixAndFilter exampleWorld exampleActive 3).2 with
  | some (g1, _) => g1.ClearActiveInputs
  | none => exampleActive

/-- The example leaf after one silent call with chunk size 3: its output
buffer holds 3 frames, zero-filled over the allocator's content, and the
counter `frames_zeroed_` is 3. -/
def exampleZeroed : FilterGroup Nat :=
  match (MixAndFilter exampleWorld (exampleLeaf 0) 3).2 with
  | some (g1, _) => g1
  | none => exampleLeaf 0

/-- The example parent with the example input A active, over the children
`cs`. -/
def exampleMixer (cs : List (FilterGroup Nat)) : FilterGroup Nat :=
  (exampleParent cs).AddActiveInput exampleInputA

/-! ## Theorems -/

theorem DCHECK_NE_of_ne (dcheck_is_on : Bool) (a : Int) (h : a ≠ 0) :
    DCHECK_NE dcheck_is_on a 0 = true := by
  simp [DCHECK_NE, h]

theorem tooSmall_Create (heap : Nat → Nat → ℚ) (n C : Nat) :
    tooSmall (some (AudioBus.Create heap n C)) C = false := by
  simp [tooSmall, AudioBus.Create]

theorem Resize_mixed (W : Collaborators σ) (s : FilterGroupState σ) (C : Nat) :
    (ResizeBuffersIfNecessary W s C).2.mixed_ =
      if tooSmall s.mixed_ C then some (AudioBus.Create W.heap s.num_channels_ C) else s.mixed_ := by
  unfold ResizeBuffersIfNecessary
  by_cases h1 : tooSmall s.mixed_ C <;> by_cases h2 : tooSmall s.temp_ C <;> simp [h1, h2]

theorem Resize_temp (W : Collaborators σ) (s : FilterGroupState σ) (C : Nat) :
    (ResizeBuffersIfNecessary W s C).2.temp_ =
      if tooSmall s.temp_ C then some (AudioBus.Create W.heap s.num_channels_ C) else s.temp_ := by
  unfold ResizeBuffersIfNecessary
  by_cases h1 : tooSmall s.mixed_ C <;> by_cases h2 : tooSmall s.temp_ C <;> simp [h1, h2]

theorem Resize_frame (W : Collaborators σ) (s : FilterGroupState σ) (C : Nat) :
    (ResizeBuffersIfNecessary W s C).2 =
      { s with mixed_ := (ResizeBuffersIfNecessary W s C).2.mixed_
               temp_ := (ResizeBuffersIfNecessary W s C).2.temp_ } := by
  unfold ResizeBuffersIfNecessary
  by_cases h1 : tooSmall s.mixed_ C <;> by_cases h2 : tooSmall s.temp_ C <;> simp [h1, h2]

theorem exists_of_not_tooSmall {b : Option AudioBus} {C : Nat} (h : tooSmall b C = false) :
    ∃ m, b = some m ∧ C ≤ m.frames := by
  cases b with
  | none => simp [tooSmall] at h
  | some m => exact ⟨m, rfl, by simpa [tooSmall] using h⟩

theorem Resize_mixed_some (W : Collaborators σ) (s : FilterGroupState σ) (C : Nat) :
    ∃ m, (ResizeBuffersIfNecessary W s C).2.mixed_ = some m ∧ C ≤ m.frames := by
  rw [Resize_mixed]
  by_cases h : tooSmall s.mixed_ C
  · simp [h, AudioBus.Create]
  · simp only [h]; exact exists_of_not_tooSmall (by simpa using h)

theorem Resize_temp_some (W : Collaborators σ) (s : FilterGroupState σ) (C : Nat) :
    ∃ m, (ResizeBuffersIfNecessary W s C).2.temp_ = some m ∧ C ≤ m.frames := by
  rw [Resize_temp]
  by_cases h : tooSmall s.temp_ C
  · simp [h, AudioBus.Create]
  · simp only [h]; exact exists_of_not_tooSmall (by simpa using h)


theorem mixOwn_silent (W : Collaborators σ) (s : FilterGroupState σ)
    (cs : List (FilterGroup σ)) (C : Nat) (m t : AudioBus)
    (hm : s.mixed_ = some m) (ht : s.temp_ = some t)
    (hin : s.active_inputs_ = [])
    (hring : W.IsRinging s.post_processing_pipeline_ = false) :
    mixOwn W s cs 0 C =
      if s.frames_zeroed_ < C then
        ([Call.ZeroFramesPartial 0 C, Call.Return 0],
         some ({ s with mixed_ := some (m.ZeroFramesPartial 0 C), frames_zeroed_ := C }, 0))
      else ([Call.Return 0], some (s, 0)) := by
  unfold mixOwn
  simp [hm, ht, hin, hring, isSilent]

theorem MixAndFilter_unfold (W : Collaborators σ) (g : FilterGroup σ) (C : Nat)
    (hrate : DCHECK_NE W.DCHECK_IS_ON g.state.output_samples_per_second_ 0 = true)
    (log : List Event) (cs1 : List (FilterGroup σ)) (v : ℚ)
    (hk : mixChildren W g.mixed_inputs_ C 0 0 = (log, some (cs1, v))) :
    MixAndFilter W g C =
      (Event.own (Call.MixAndFilter C) ::
          (ResizeBuffersIfNecessary W g.state C).1.map Event.own ++ log ++
          (mixOwn W (ResizeBuffersIfNecessary W g.state C).2 cs1 v C).1.map Event.own,
       (mixOwn W (ResizeBuffersIfNecessary W g.state C).2 cs1 v C).2.map
         (fun r => (FilterGroup.mk r.1 cs1, r.2))) := by
  cases g with
  | mk s cs =>
    simp only [state, mixed_inputs_] at hrate hk ⊢
    simp only [MixAndFilter, hrate, if_true, hk]
    cases h : mixOwn W (ResizeBuffersIfNecessary W s C).2 cs1 v C with
    | mk calls r =>
      cases r with
      | none => simp
      | some r => simp


theorem silent_call (W : Collaborators σ) (g : FilterGroup σ) (C : Nat) (hC : 0 < C)
    (hrate : g.state.output_samples_per_second_ ≠ 0)
    (hin : g.state.active_inputs_ = [])
    (hring : W.IsRinging g.state.post_processing_pipeline_ = false)
    (hzero : ZeroCacheSound g.state)
    (log : List Event) (cs1 : List (FilterGroup σ))
    (hk : mixChildren W g.mixed_inputs_ C 0 0 = (log, some (cs1, 0))) :
    ∃ l g1, MixAndFilter W g C = (l, some (g1, 0)) ∧ OutputZero g1 C ∧
      g1.mixed_inputs_ = cs1 ∧
      g1.state.output_samples_per_second_ = g.state.output_samples_per_second_ ∧
      g1.state.active_inputs_ = g.state.active_inputs_ ∧
      g1.state.post_processing_pipeline_ = g.state.post_processing_pipeline_ ∧
      g1.state.last_volume_ = g.state.last_volume_ ∧
      g1.state.delay_frames_ = g.state.delay_frames_ ∧
      ZeroCacheSound g1.state := by
  have hrate := DCHECK_NE_of_ne W.DCHECK_IS_ON _ hrate
  obtain ⟨m, hm, hmC⟩ := Resize_mixed_some W g.state C
  obtain ⟨t, ht, -⟩ := Resize_temp_some W g.state C
  have hfr := Resize_frame W g.state C
  have hin1 : (ResizeBuffersIfNecessary W g.state C).2.active_inputs_ = [] := by
    rw [hfr]; exact hin
  have hring1 : W.IsRinging (ResizeBuffersIfNecessary W g.state C).2.post_processing_pipeline_
      = false := by
    rw [hfr]; exact hring
  have hfz : (ResizeBuffersIfNecessary W g.state C).2.frames_zeroed_ = g.state.frames_zeroed_ := by
    rw [hfr]
  rw [MixAndFilter_unfold W g C hrate log cs1 0 hk,
    mixOwn_silent W _ cs1 C m t hm ht hin1 hring1, hfz]
  by_cases hlt : g.state.frames_zeroed_ < C
  · refine ⟨_, _, by simp only [hlt, if_true, Option.map_some']; rfl, ?_⟩
    refine ⟨⟨m.ZeroFramesPartial 0 C, rfl, hmC, ?_⟩, rfl, ?_, ?_, ?_, ?_, ?_, ?_⟩
    · intro c f _ hf
      simp [AudioBus.ZeroFramesPartial, hf]
    · show (ResizeBuffersIfNecessary W g.state C).2.output_samples_per_second_ = _
      rw [hfr]
    · show (ResizeBuffersIfNecessary W g.state C).2.active_inputs_ = _
      rw [hfr]
    · show (ResizeBuffersIfNecessary W g.state C).2.post_processing_pipeline_ = _
      rw [hfr]
    · show (ResizeBuffersIfNecessary W g.state C).2.last_volume_ = _
      rw [hfr]
    · show (ResizeBuffersIfNecessary W g.state C).2.delay_frames_ = _
      rw [hfr]
    · show ZeroCacheSound _
      simp only [ZeroCacheSound, state]
      refine ⟨hmC, ?_⟩
      intro c f _ hf
      simp [AudioBus.ZeroFramesPartial, hf]
  · have hnot : tooSmall g.state.mixed_ C = false := by
      cases hb : g.state.mixed_ with
      | none =>
        simp only [ZeroCacheSound, hb] at hzero
        omega
      | some b =>
        simp only [ZeroCacheSound, hb] at hzero
        simp only [tooSmall, decide_eq_false_iff_not]
        omega
    have hmm : g.state.mixed_ = some m := by
      rw [Resize_mixed, hnot] at hm
      simpa using hm
    have hz : ∀ c f, c < m.channels → f < C → m.data c f = 0 := by
      simp only [ZeroCacheSound, hmm] at hzero
      intro c f hc hf
      exact hzero.2 c f hc (by omega)
    refine ⟨_, _, by simp only [hlt, if_false, Option.map_some']; rfl, ?_⟩
    refine ⟨⟨m, hm, hmC, hz⟩, rfl, ?_, ?_, ?_, ?_, ?_, ?_⟩
    · show (ResizeBuffersIfNecessary W g.state C).2.output_samples_per_second_ = _
      rw [hfr]
    · show (ResizeBuffersIfNecessary W g.state C).2.active_inputs_ = _
      rw [hfr]
    · show (ResizeBuffersIfNecessary W g.state C).2.post_processing_pipeline_ = _
      rw [hfr]
    · show (ResizeBuffersIfNecessary W g.state C).2.last_volume_ = _
      rw [hfr]
    · show (ResizeBuffersIfNecessary W g.state C).2.delay_frames_ = _
      rw [hfr]
    · show ZeroCacheSound (ResizeBuffersIfNecessary W g.state C).2
      simp only [ZeroCacheSound, hm, hfz]
      simp only [ZeroCacheSound, hmm] at hzero
      exact hzero

theorem forChannels_succ (n : Nat) (body : Nat → (Nat → ℚ) → (Nat → ℚ)) (b : AudioBus) :
    forChannels (n + 1) body b =
      (forChannels n body b).setChannel n (body n ((forChannels n body b).channel n)) := by
  simp [forChannels, List.range_succ, List.foldl_append]

theorem forChannels_data (n : Nat) (body : Nat → (Nat → ℚ) → (Nat → ℚ)) (b : AudioBus) :
    (forChannels n body b).data = fun c f => if c < n then body c (b.data c) f else b.data c f := by
  induction n with
  | zero => simp [forChannels]
  | succ n ih =>
    rw [forChannels_succ]
    funext c f
    simp only [AudioBus.setChannel, AudioBus.channel, ih]
    by_cases h : c = n
    · subst h; simp
    · have : (c < n + 1) = (c < n) := by
        apply propext; omega
      simp [h, this]

theorem forChannels_dims (n : Nat) (body : Nat → (Nat → ℚ) → (Nat → ℚ)) (b : AudioBus) :
    (forChannels n body b).channels = b.channels ∧ (forChannels n body b).frames = b.frames := by
  induction n with
  | zero => simp [forChannels]
  | succ n ih =>
    rw [forChannels_succ]
    simpa [AudioBus.setChannel] using ih

theorem fmacChannels_some (n C : Nat) (d mixed : AudioBus) :
    fmacChannels n C (some d) mixed =
      some (forChannels n (fun c dest => vector_math.FMAC (d.channel c) 1 C dest) mixed) := by
  unfold fmacChannels forChannels
  generalize List.range n = l
  induction l generalizing mixed with
  | nil => rfl
  | cons c l ih =>
    simp only [List.foldlM, Option.map_some', List.foldl_cons, Option.bind_eq_bind,
      Option.some_bind]
    exact ih _

theorem fmacChannels_none (n C : Nat) (mixed : AudioBus) :
    fmacChannels n C none mixed = if n = 0 then some mixed else none := by
  cases n with
  | zero => simp [fmacChannels]
  | succ n => 
    unfold fmacChannels
    rw [List.range_succ_eq_map]
    simp [List.foldlM]

/-! ### The call log -/

theorem ownCalls_nil : ownCalls [] = [] := rfl

theorem ownCalls_append (l1 l2 : List Event) :
    ownCalls (l1 ++ l2) = ownCalls l1 ++ ownCalls l2 := by
  simp [ownCalls]

theorem ownCalls_cons_own (c : Call) (l : List Event) :
    ownCalls (Event.own c :: l) = c :: ownCalls l := by
  simp [ownCalls, Event.own]

theorem ownCalls_map_own (cs : List Call) : ownCalls (cs.map Event.own) = cs := by
  induction cs with
  | nil => rfl
  | cons c cs ih => rw [List.map_cons, ownCalls_cons_own, ih]

theorem ownCalls_map_under (i : Nat) (l : List Event) :
    ownCalls (l.map (Event.under i)) = [] := by
  induction l with
  | nil => rfl
  | cons e l ih =>
    simp only [ownCalls, List.map_cons] at ih ⊢
    simp [Event.under, List.filter_cons]

theorem ownCalls_mixChildren (W : Collaborators σ) (cs : List (FilterGroup σ)) (C i : Nat)
    (v : ℚ) : ownCalls (mixChildren W cs C i v).1 = [] := by
  induction cs generalizing i v with
  | nil => simp [mixChildren, ownCalls]
  | cons g rest ih =>
    simp only [mixChildren]
    cases hg : MixAndFilter W g C with
    | mk log r =>
      cases r with
      | none => simp [ownCalls_map_under]
      | some r =>
        obtain ⟨g1, ret⟩ := r
        have := ih (i + 1) (max v ret)
        cases hr : mixChildren W rest C (i + 1) (max v ret) with
        | mk log1 r1 =>
          rw [hr] at this
          cases r1 with
          | none => simpa [hr, ownCalls_append, ownCalls_map_under] using this
          | some r1 => simpa [hr, ownCalls_append, ownCalls_map_under] using this

theorem MixAndFilter_ownCalls (W : Collaborators σ) (g : FilterGroup σ) (C : Nat)
    (hrate : DCHECK_NE W.DCHECK_IS_ON g.state.output_samples_per_second_ 0 = true)
    (log : List Event) (cs1 : List (FilterGroup σ)) (v : ℚ)
    (hk : mixChildren W g.mixed_inputs_ C 0 0 = (log, some (cs1, v))) :
    ownCalls (MixAndFilter W g C).1 =
      Call.MixAndFilter C :: (ResizeBuffersIfNecessary W g.state C).1 ++
        (mixOwn W (ResizeBuffersIfNecessary W g.state C).2 cs1 v C).1 := by
  have hl : ownCalls log = [] := by
    have := ownCalls_mixChildren W g.mixed_inputs_ C 0 0
    rwa [hk] at this
  rw [MixAndFilter_unfold W g C hrate log cs1 v hk]
  simp only [List.cons_append, ownCalls_cons_own, ownCalls_append, ownCalls_map_own, hl,
    List.append_nil]

/-! ### The loop over the active inputs -/

theorem mixInputQueues_volume (n C : Nat) (qs : List InputQueue) (i : Nat)
    (mixed temp : AudioBus) (v : ℚ) :
    (mixInputQueues n C qs i mixed temp v).2.2.2 = maxVolume v qs := by
  induction qs generalizing i mixed temp v with
  | nil => rfl
  | cons q qs ih => simp only [mixInputQueues, maxVolume, List.map_cons, List.foldl_cons, ih]

theorem mixInputQueues_calls (n C : Nat) (qs : List InputQueue) (i : Nat)
    (mixed temp : AudioBus) (v : ℚ) (c : Call)
    (hc : c ∈ (mixInputQueues n C qs i mixed temp v).1) :
    c.isProcessFrames = false ∧ c.isZeroFramesPartial = false ∧ c.isCreate = false := by
  induction qs generalizing i mixed temp v with
  | nil => simp [mixInputQueues] at hc
  | cons q qs ih =>
    simp only [mixInputQueues, List.mem_cons, List.mem_append, List.mem_map] at hc
    rcases hc with (rfl | ⟨k, -, rfl⟩) | h
    · exact ⟨rfl, rfl, rfl⟩
    · exact ⟨rfl, rfl, rfl⟩
    · exact ih _ _ _ _ h

theorem mixInputQueues_mixed_dims (n C : Nat) (qs : List InputQueue) (i : Nat)
    (mixed temp : AudioBus) (v : ℚ) :
    (mixInputQueues n C qs i mixed temp v).2.1.channels = mixed.channels ∧
    (mixInputQueues n C qs i mixed temp v).2.1.frames = mixed.frames := by
  induction qs generalizing i mixed temp v with
  | nil => exact ⟨rfl, rfl⟩
  | cons q qs ih =>
    simp only [mixInputQueues]
    rw [(ih _ _ _ _).1, (ih _ _ _ _).2]
    exact forChannels_dims _ _ _

theorem mixInputQueues_nil (n C i : Nat) (mixed temp : AudioBus) (v : ℚ) :
    mixInputQueues n C [] i mixed temp v = ([], mixed, temp, v) := rfl

/-- On every channel the loop adds every input's scaled samples. -/
theorem mixInputQueues_data_add (n C : Nat) (qs : List InputQueue) (i : Nat)
    (mixed temp : AudioBus) (v : ℚ) (c f : Nat) (hc : c < n) (hf : f < C) :
    (mixInputQueues n C qs i mixed temp v).2.1.data c f = mixed.data c f + scaledSum qs c f := by
  induction qs generalizing i mixed temp v with
  | nil => simp [mixInputQueues, scaledSum]
  | cons q qs ih =>
    simp only [mixInputQueues]
    rw [ih, forChannels_data]
    simp [scaledSum, hc, hf, InputQueue.VolumeScaleAccumulate, InputQueue.GetResampledData,
      AudioBus.channel, add_assoc]

/-- Outside the first `C` frames of the first `n` channels the loop leaves
`mixed_` alone. -/
theorem mixInputQueues_data_outside (n C : Nat) (qs : List InputQueue) (i : Nat)
    (mixed temp : AudioBus) (v : ℚ) (c f : Nat) (h : ¬ (c < n ∧ f < C)) :
    (mixInputQueues n C qs i mixed temp v).2.1.data c f = mixed.data c f := by
  induction qs generalizing i mixed temp v with
  | nil => rfl
  | cons q qs ih =>
    simp only [mixInputQueues]
    rw [ih, forChannels_data]
    by_cases hc : c < n
    · have hf : ¬ f < C := fun hf => h ⟨hc, hf⟩
      simp [hc, hf, InputQueue.VolumeScaleAccumulate]
    · simp [hc]

/-! ### The loop over the child groups -/

theorem mixFilterGroups_calls (n C : Nat) (cs : List (FilterGroup σ)) (i : Nat)
    (mixed : AudioBus) (c : Call) (hc : c ∈ (mixFilterGroups n C cs i mixed).1) :
    c.isProcessFrames = false ∧ c.isZeroFramesPartial = false ∧ c.isCreate = false := by
  induction cs generalizing i mixed with
  | nil => simp [mixFilterGroups] at hc
  | cons g cs ih =>
    simp only [mixFilterGroups] at hc
    split at hc
    · split at hc
      · simp at hc
      · simp only [List.mem_append, List.mem_map] at hc
        rcases hc with ⟨k, -, rfl⟩ | h
        · exact ⟨rfl, rfl, rfl⟩
        · exact ih _ _ h
    · exact ih _ _ hc

/-- When every child has an output buffer the loop completes, keeps the
dimensions of `mixed_`, adds to the first `C` frames of the first `n` channels
the samples of every child whose last volume is positive, and leaves the
other cells alone. -/
theorem mixFilterGroups_some (n C : Nat) (cs : List (FilterGroup σ)) (i : Nat)
    (mixed : AudioBus) (hd : ∀ g ∈ cs, ∃ d, g.data = some d) :
    ∃ m2, (mixFilterGroups n C cs i mixed).2 = some m2 ∧
      m2.channels = mixed.channels ∧ m2.frames = mixed.frames ∧
      ∀ c f, m2.data c f =
        if c < n ∧ f < C then mixed.data c f + childrenSum cs c f else mixed.data c f := by
  induction cs generalizing i mixed with
  | nil => exact ⟨mixed, rfl, rfl, rfl, by simp [childrenSum]⟩
  | cons g cs ih =>
    have hd' : ∀ g ∈ cs, ∃ d, g.data = some d := fun x hx => hd x (List.mem_cons_of_mem _ hx)
    obtain ⟨d, hgd⟩ := hd g (List.mem_cons_self _ _)
    simp only [mixFilterGroups]
    by_cases hv : g.last_volume > 0
    · simp only [hv, if_true, hgd, fmacChannels_some]
      obtain ⟨m2, h2, hch, hfr, hdata⟩ := ih (i + 1)
        (forChannels n (fun c dest => vector_math.FMAC (d.channel c) 1 C dest) mixed) hd'
      refine ⟨m2, h2, ?_, ?_, ?_⟩
      · rw [hch]; exact (forChannels_dims _ _ _).1
      · rw [hfr]; exact (forChannels_dims _ _ _).2
      · intro c f
        rw [hdata, forChannels_data]
        by_cases hcf : c < n ∧ f < C
        · simp [hcf, hcf.1, hcf.2, childrenSum, List.filter_cons, hv, outputSample, hgd,
            vector_math.FMAC, AudioBus.channel, add_assoc]
        · simp only [hcf, if_false]
          by_cases hc : c < n
          · have hf : ¬ f < C := fun hf => hcf ⟨hc, hf⟩
            simp [hc, hf, vector_math.FMAC]
          · simp [hc]
    · simp only [hv, if_false]
      obtain ⟨m2, h2, hch, hfr, hdata⟩ := ih (i + 1) mixed hd'
      refine ⟨m2, h2, hch, hfr, ?_⟩
      intro c f
      rw [hdata]
      simp [childrenSum, List.filter_cons, hv]

/-! ### Every mixed group has an output buffer -/

theorem mixOwn_data (W : Collaborators σ) (s : FilterGroupState σ)
    (cs : List (FilterGroup σ)) (v : ℚ) (C : Nat) (calls : List Call)
    (s1 : FilterGroupState σ) (r : ℚ) (h : mixOwn W s cs v C = (calls, some (s1, r))) :
    ∃ d, s1.mixed_ = some d := by
  unfold mixOwn at h
  split at h
  · split at h
    · split at h
      · simp only [Prod.mk.injEq, Option.some.injEq] at h
        obtain ⟨-, rfl, -⟩ := h
        exact ⟨_, rfl⟩
      · simp only [Prod.mk.injEq, Option.some.injEq] at h
        obtain ⟨-, rfl, -⟩ := h
        exact ⟨_, by assumption⟩
    · dsimp only at h
      split at h
      · simp at h
      · simp only [Prod.mk.injEq, Option.some.injEq] at h
        obtain ⟨-, rfl, -⟩ := h
        exact ⟨_, rfl⟩
  · simp at h

theorem MixAndFilter_data (W : Collaborators σ) (g : FilterGroup σ) (C : Nat)
    (l : List Event) (g1 : FilterGroup σ) (r : ℚ)
    (h : MixAndFilter W g C = (l, some (g1, r))) : ∃ d, g1.data = some d := by
  cases g with
  | mk s cs =>
    simp only [MixAndFilter] at h
    split at h
    · split at h
      · simp at h
      · split at h
        · simp at h
        · rename_i hown
          simp only [Prod.mk.injEq, Option.some.injEq] at h
          obtain ⟨-, rfl, -⟩ := h
          exact mixOwn_data W _ _ _ _ _ _ _ hown
    · simp at h

theorem mixChildren_data (W : Collaborators σ) (cs : List (FilterGroup σ)) (C i : Nat) (v : ℚ)
    (l : List Event) (cs1 : List (FilterGroup σ)) (v1 : ℚ)
    (h : mixChildren W cs C i v = (l, some (cs1, v1))) :
    ∀ g ∈ cs1, ∃ d, g.data = some d := by
  induction cs generalizing i v l cs1 v1 with
  | nil =>
    simp only [mixChildren, Prod.mk.injEq, Option.some.injEq] at h
    obtain ⟨-, rfl, -⟩ := h
    simp
  | cons g rest ih =>
    simp only [mixChildren] at h
    split at h
    · simp at h
    · rename_i hg
      split at h
      · simp at h
      · rename_i hrest
        simp only [Prod.mk.injEq, Option.some.injEq] at h
        obtain ⟨-, rfl, -⟩ := h
        intro x hx
        rcases List.mem_cons.1 hx with rfl | hx
        · exact MixAndFilter_data W _ _ _ _ _ hg
        · exact ih _ _ _ _ _ hrest x hx

/-! ### The group's own work -/

/-- The path of `mixOwn` that does not take the silence early return. -/
theorem mixOwn_mix (W : Collaborators σ) (s : FilterGroupState σ)
    (cs : List (FilterGroup σ)) (v : ℚ) (C : Nat) (mixed temp : AudioBus)
    (hm : s.mixed_ = some mixed) (ht : s.temp_ = some temp)
    (hns : isSilent W s v = false)
    (hd : ∀ g ∈ cs, ∃ d, g.data = some d) :
    ∃ m2 calls,
      (mixFilterGroups s.num_channels_ C cs 0
        (mixInputQueues s.num_channels_ C s.active_inputs_ 0
          (mixed.ZeroFramesPartial 0 C) temp v).2.1).2 = some m2 ∧
      (∀ c ∈ calls, c.isProcessFrames = false ∧ c.isZeroFramesPartial = false ∧
        c.isCreate = false) ∧
      mixOwn W s cs v C =
        (Call.ZeroFramesPartial 0 C :: calls ++
          (runPipeline W { s with frames_zeroed_ := 0 } m2
            (mixInputQueues s.num_channels_ C s.active_inputs_ 0
              (mixed.ZeroFramesPartial 0 C) temp v).2.2.1
            (maxVolume v s.active_inputs_) C).1,
         some (runPipeline W { s with frames_zeroed_ := 0 } m2
            (mixInputQueues s.num_channels_ C s.active_inputs_ 0
              (mixed.ZeroFramesPartial 0 C) temp v).2.2.1
            (maxVolume v s.active_inputs_) C).2) := by
  obtain ⟨m2, h2, -⟩ := mixFilterGroups_some s.num_channels_ C cs 0
    (mixInputQueues s.num_channels_ C s.active_inputs_ 0
      (mixed.ZeroFramesPartial 0 C) temp v).2.1 hd
  refine ⟨m2, (mixInputQueues s.num_channels_ C s.active_inputs_ 0
      (mixed.ZeroFramesPartial 0 C) temp v).1 ++
    (mixFilterGroups s.num_channels_ C cs 0
      (mixInputQueues s.num_channels_ C s.active_inputs_ 0
        (mixed.ZeroFramesPartial 0 C) temp v).2.1).1, h2, ?_, ?_⟩
  · intro c hc
    rcases List.mem_append.1 hc with h | h
    · exact mixInputQueues_calls _ _ _ _ _ _ _ c h
    · exact mixFilterGroups_calls _ _ _ _ _ c h
  · unfold mixOwn
    simp only [hm, ht, hns, h2, mixInputQueues_volume]
    simp

theorem runPipeline_calls (W : Collaborators σ) (s : FilterGroupState σ)
    (m2 t1 : AudioBus) (v : ℚ) (C : Nat) :
    (runPipeline W s m2 t1 v C).1 =
      [Call.ProcessFrames m2.data C (if v = 0 then s.last_volume_ else v) (decide (v = 0)),
       Call.Return (if v = 0 then s.last_volume_ else v)] := by
  simp [runPipeline]

theorem runPipeline_volume (W : Collaborators σ) (s : FilterGroupState σ)
    (m2 t1 : AudioBus) (v : ℚ) (C : Nat) :
    (runPipeline W s m2 t1 v C).2.2 = (if v = 0 then s.last_volume_ else v) ∧
    (runPipeline W s m2 t1 v C).2.1.last_volume_ = (if v = 0 then s.last_volume_ else v) := by
  simp [runPipeline]

theorem Resize_calls (W : Collaborators σ) (s : FilterGroupState σ) (C : Nat) (c : Call)
    (hc : c ∈ (ResizeBuffersIfNecessary W s C).1) :
    c.isCreate = true ∧ c.isProcessFrames = false ∧ c.isZeroFramesPartial = false := by
  unfold ResizeBuffersIfNecessary at hc
  by_cases h1 : tooSmall s.mixed_ C <;> by_cases h2 : tooSmall s.temp_ C <;>
    simp [h1, h2] at hc
  · rcases hc with rfl | rfl <;> exact ⟨rfl, rfl, rfl⟩
  · subst hc; exact ⟨rfl, rfl, rfl⟩
  · subst hc; exact ⟨rfl, rfl, rfl⟩

theorem mixInputQueues_data_closed (n C : Nat) (qs : List InputQueue) (i : Nat)
    (mixed temp : AudioBus) (v : ℚ) (c f : Nat) (hc : c < n) (hf : f < C) :
    (mixInputQueues n C qs i (mixed.ZeroFramesPartial 0 C) temp v).2.1.data c f =
      scaledSum qs c f := by
  rw [mixInputQueues_data_add n C qs i _ temp v c f hc hf]
  simp [AudioBus.ZeroFramesPartial, hf]

/-- One `MixAndFilter` call that does not take the silence early return, in
full: the result, the calls of the group itself, the new data members and the
buffer handed to the pipeline. -/
theorem MixAndFilter_mix (W : Collaborators σ) (g : FilterGroup σ) (C : Nat)
    (hrate : DCHECK_NE W.DCHECK_IS_ON g.state.output_samples_per_second_ 0 = true)
    (log : List Event) (cs1 : List (FilterGroup σ)) (vc : ℚ)
    (hk : mixChildren W g.mixed_inputs_ C 0 0 = (log, some (cs1, vc)))
    (hns : isSilent W g.state vc = false) :
    ∃ (l : List Event) (m2 t1 : AudioBus) (A calls : List Call) (s1 : FilterGroupState σ),
      MixAndFilter W g C = (l, some (FilterGroup.mk s1 cs1,
        if maxVolume vc g.state.active_inputs_ = 0 then g.state.last_volume_
        else maxVolume vc g.state.active_inputs_)) ∧
      ownCalls l = Call.MixAndFilter C :: A ++ Call.ZeroFramesPartial 0 C :: calls ++
        [Call.ProcessFrames m2.data C
            (if maxVolume vc g.state.active_inputs_ = 0 then g.state.last_volume_
             else maxVolume vc g.state.active_inputs_)
            (decide (maxVolume vc g.state.active_inputs_ = 0)),
         Call.Return (if maxVolume vc g.state.active_inputs_ = 0 then g.state.last_volume_
             else maxVolume vc g.state.active_inputs_)] ∧
      (∀ c ∈ A, c.isCreate = true ∧ c.isProcessFrames = false ∧
        c.isZeroFramesPartial = false) ∧
      (∀ c ∈ calls, c.isProcessFrames = false ∧ c.isZeroFramesPartial = false ∧
        c.isCreate = false) ∧
      s1 = (runPipeline W { g.state with frames_zeroed_ := 0 } m2 t1
        (maxVolume vc g.state.active_inputs_) C).2.1 ∧
      C ≤ m2.frames ∧
      (∀ c f, c < g.state.num_channels_ → f < C →
        m2.data c f = preFilterSample g.state.active_inputs_ cs1 c f) := by
  obtain ⟨m, hm, hmC⟩ := Resize_mixed_some W g.state C
  obtain ⟨t, ht, -⟩ := Resize_temp_some W g.state C
  have hs1 : (ResizeBuffersIfNecessary W g.state C).2 =
      { g.state with mixed_ := some m, temp_ := some t } := by
    rw [Resize_frame W g.state C, hm, ht]
  have hd := mixChildren_data W _ _ _ _ _ _ _ hk
  obtain ⟨m2, calls, h2, hcalls, hown⟩ :=
    mixOwn_mix W { g.state with mixed_ := some m, temp_ := some t } cs1 vc C m t rfl rfl hns hd
  obtain ⟨m2', h2', hch, hfrm, hdata⟩ := mixFilterGroups_some g.state.num_channels_ C cs1 0
    (mixInputQueues g.state.num_channels_ C g.state.active_inputs_ 0
      (m.ZeroFramesPartial 0 C) t vc).2.1 hd
  have hmm : m2' = m2 := Option.some.inj (h2'.symm.trans h2)
  subst hmm
  have hMF := MixAndFilter_unfold W g C hrate log cs1 vc hk
  have hOC := MixAndFilter_ownCalls W g C hrate log cs1 vc hk
  rw [hs1, hown] at hMF hOC
  refine ⟨(MixAndFilter W g C).1, m2', (mixInputQueues g.state.num_channels_ C
      g.state.active_inputs_ 0 (m.ZeroFramesPartial 0 C) t vc).2.2.1,
    (ResizeBuffersIfNecessary W g.state C).1, calls,
    (runPipeline W { g.state with frames_zeroed_ := 0 } m2'
      (mixInputQueues g.state.num_channels_ C g.state.active_inputs_ 0
        (m.ZeroFramesPartial 0 C) t vc).2.2.1 (maxVolume vc g.state.active_inputs_) C).2.1,
    ?_, ?_, Resize_calls W g.state C, hcalls, rfl, ?_, ?_⟩
  · rw [hMF]
    simp [runPipeline]
  · rw [hOC]
    simp [runPipeline]
  · rw [hfrm, (mixInputQueues_mixed_dims _ _ _ _ _ _ _).2]
    exact hmC
  · intro c f hc hf
    rw [hdata, mixInputQueues_data_closed _ _ _ _ _ _ _ c f hc hf]
    simp [hc, hf, preFilterSample]

theorem isSilent_iff (W : Collaborators σ) (s : FilterGroupState σ) (v : ℚ) :
    isSilent W s v = true ↔
      s.active_inputs_ = [] ∧ v = 0 ∧ W.IsRinging s.post_processing_pipeline_ = false := by
  simp [isSilent, List.isEmpty_iff, and_assoc]

/-- One `MixAndFilter` call that takes the silence early return, in full. -/
theorem MixAndFilter_silent (W : Collaborators σ) (g : FilterGroup σ) (C : Nat)
    (hrate : DCHECK_NE W.DCHECK_IS_ON g.state.output_samples_per_second_ 0 = true)
    (log : List Event) (cs1 : List (FilterGroup σ)) (vc : ℚ)
    (hk : mixChildren W g.mixed_inputs_ C 0 0 = (log, some (cs1, vc)))
    (hs : isSilent W g.state vc = true) :
    ∃ (l : List Event) (m t : AudioBus) (A : List Call),
      (ResizeBuffersIfNecessary W g.state C).2 =
        { g.state with mixed_ := some m, temp_ := some t } ∧
      C ≤ m.frames ∧
      MixAndFilter W g C = (l, some (FilterGroup.mk
        (if g.state.frames_zeroed_ < C then
          { g.state with mixed_ := some (m.ZeroFramesPartial 0 C), temp_ := some t,
                         frames_zeroed_ := C }
         else { g.state with mixed_ := some m, temp_ := some t }) cs1, 0)) ∧
      ownCalls l = Call.MixAndFilter C :: A ++
        (if g.state.frames_zeroed_ < C then [Call.ZeroFramesPartial 0 C, Call.Return 0]
         else [Call.Return 0]) ∧
      (∀ c ∈ A, c.isCreate = true ∧ c.isProcessFrames = false ∧
        c.isZeroFramesPartial = false) := by
  obtain ⟨m, hm, hmC⟩ := Resize_mixed_some W g.state C
  obtain ⟨t, ht, -⟩ := Resize_temp_some W g.state C
  have hs1 : (ResizeBuffersIfNecessary W g.state C).2 =
      { g.state with mixed_ := some m, temp_ := some t } := by
    rw [Resize_frame W g.state C, hm, ht]
  obtain ⟨hin, hv, hring⟩ := (isSilent_iff W g.state vc).1 hs
  subst hv
  have hown := mixOwn_silent W { g.state with mixed_ := some m, temp_ := some t } cs1 C m t
    rfl rfl hin hring
  have hMF := MixAndFilter_unfold W g C hrate log cs1 0 hk
  have hOC := MixAndFilter_ownCalls W g C hrate log cs1 0 hk
  rw [hs1, hown] at hMF hOC
  refine ⟨(MixAndFilter W g C).1, m, t, (ResizeBuffersIfNecessary W g.state C).1, hs1, hmC,
    ?_, ?_, Resize_calls W g.state C⟩
  · rw [hMF]
    by_cases h : g.state.frames_zeroed_ < C <;> simp [h]
  · rw [hOC]
    by_cases h : g.state.frames_zeroed_ < C <;> simp [h]

theorem filter_isProcessFrames_mix (C : Nat) (A calls : List Call) (pf r : Call)
    (hA : ∀ c ∈ A, c.isCreate = true ∧ c.isProcessFrames = false ∧
      c.isZeroFramesPartial = false)
    (hcalls : ∀ c ∈ calls, c.isProcessFrames = false ∧ c.isZeroFramesPartial = false ∧
      c.isCreate = false)
    (hpf : pf.isProcessFrames = true) (hr : r.isProcessFrames = false) :
    (Call.MixAndFilter C :: A ++ Call.ZeroFramesPartial 0 C :: calls ++ [pf, r]).filter
      Call.isProcessFrames = [pf] := by
  have h1 : A.filter Call.isProcessFrames = [] :=
    List.filter_eq_nil_iff.2 (fun c hc => by simp [(hA c hc).2.1])
  have h2 : calls.filter Call.isProcessFrames = [] :=
    List.filter_eq_nil_iff.2 (fun c hc => by simp [(hcalls c hc).1])
  have h3 : [pf, r].filter Call.isProcessFrames = [pf] := by
    simp [List.filter_cons, hpf, hr]
  rw [List.filter_append, List.filter_append, h3, List.filter_cons, List.filter_cons, h1, h2]
  simp [Call.isProcessFrames]

/-- A `MixAndFilter` call that returns has passed the sample-rate check and
has mixed all its children. -/
theorem MixAndFilter_children (W : Collaborators σ) (g : FilterGroup σ) (C : Nat)
    (l : List Event) (g1 : FilterGroup σ) (r : ℚ)
    (h : MixAndFilter W g C = (l, some (g1, r))) :
    DCHECK_NE W.DCHECK_IS_ON g.state.output_samples_per_second_ 0 = true ∧
    ∃ log vc, mixChildren W g.mixed_inputs_ C 0 0 = (log, some (g1.mixed_inputs_, vc)) := by
  cases g with
  | mk s cs =>
    simp only [MixAndFilter] at h
    split at h
    · rename_i hchk
      refine ⟨hchk, ?_⟩
      split at h
      · simp at h
      · rename_i log cs1 vc hkids
        split at h
        · simp at h
        · simp only [Prod.mk.injEq, Option.some.injEq] at h
          obtain ⟨-, rfl, -⟩ := h
          exact ⟨log, vc, hkids⟩
    · simp at h

/-- What a returning `MixAndFilter` call returns: 0 with the last volume
untouched (silence early return), or the new last volume. -/
theorem MixAndFilter_last_volume (W : Collaborators σ) (g : FilterGroup σ) (C : Nat)
    (l : List Event) (g1 : FilterGroup σ) (r : ℚ)
    (h : MixAndFilter W g C = (l, some (g1, r))) :
    (r = 0 ∧ g1.last_volume = g.last_volume) ∨ g1.last_volume = r := by
  obtain ⟨hrate, log, vc, hk⟩ := MixAndFilter_children W g C l g1 r h
  by_cases hs : isSilent W g.state vc = true
  · obtain ⟨l', m, t, A, -, -, hMF, -, -⟩ := MixAndFilter_silent W g C hrate log _ vc hk hs
    rw [h] at hMF
    simp only [Prod.mk.injEq, Option.some.injEq] at hMF
    obtain ⟨-, hg, hr⟩ := hMF
    left
    refine ⟨hr, ?_⟩
    rw [hg]
    show FilterGroupState.last_volume_ (if g.state.frames_zeroed_ < C then _ else _) = _
    split <;> rfl
  · have hns : isSilent W g.state vc = false := by simpa using hs
    obtain ⟨l', m2, t1, A, calls, s1, hMF, -, -, -, hs1, -, -⟩ :=
      MixAndFilter_mix W g C hrate log _ vc hk hns
    rw [h] at hMF
    simp only [Prod.mk.injEq, Option.some.injEq] at hMF
    obtain ⟨-, hg, hr⟩ := hMF
    right
    rw [hg, hr]
    show s1.last_volume_ = _
    rw [hs1]
    exact (runPipeline_volume W _ _ _ _ _).2

theorem mixChildren_pair (W : Collaborators σ) (x y x1 y1 : FilterGroup σ) (C : Nat)
    (lx ly : List Event) (rx ry : ℚ)
    (hx : MixAndFilter W x C = (lx, some (x1, rx)))
    (hy : MixAndFilter W y C = (ly, some (y1, ry))) :
    mixChildren W [x, y] C 0 0 =
      (lx.map (Event.under 0) ++ (ly.map (Event.under 1) ++ []),
       some ([x1, y1], max (max 0 rx) ry)) := by
  simp [mixChildren, hx, hy]

theorem wrapInt64_of_range (x : Int) (h1 : -2 ^ 63 ≤ x) (h2 : x < 2 ^ 63) : wrapInt64 x = x := by
  unfold wrapInt64
  omega

theorem tdiv_in_range (x r : Int) (h1 : -2 ^ 63 < x) (h2 : x < 2 ^ 63) :
    -2 ^ 63 ≤ Int.tdiv x r ∧ Int.tdiv x r < 2 ^ 63 := by
  have h : (Int.tdiv x r).natAbs ≤ x.natAbs := by
    rw [Int.natAbs_tdiv]
    exact Nat.div_le_self _ _
  omega

/-- The rendering delay of a group in a given state, in `int64_t` arithmetic,
and exactly when the product does not overflow. -/
theorem GetRenderingDelayMicroseconds_eq (g : FilterGroup σ)
    (hr : g.state.output_samples_per_second_ ≠ 0) :
    GetRenderingDelayMicroseconds g =
      some (wrapInt64 (Int.tdiv (wrapInt64 (g.state.delay_frames_ * 1000000))
        g.state.output_samples_per_second_)) ∧
    (-2 ^ 63 < g.state.delay_frames_ * 1000000 → g.state.delay_frames_ * 1000000 < 2 ^ 63 →
      GetRenderingDelayMicroseconds g =
        some (Int.tdiv (g.state.delay_frames_ * 1000000) g.state.output_samples_per_second_)) := by
  refine ⟨by simp [GetRenderingDelayMicroseconds, hr, kMicrosecondsPerSecond], ?_⟩
  intro h1 h2
  have hw := wrapInt64_of_range _ (le_of_lt h1) h2
  have ht := tdiv_in_range _ g.state.output_samples_per_second_ h1 h2
  simp only [GetRenderingDelayMicroseconds, hr, if_false, kMicrosecondsPerSecond, hw,
    wrapInt64_of_range _ ht.1 ht.2]

theorem filter_isProcessFrames_silent (C : Nat) (A : List Call) (b : Prop) [Decidable b]
    (hA : ∀ c ∈ A, c.isCreate = true ∧ c.isProcessFrames = false ∧
      c.isZeroFramesPartial = false) :
    (Call.MixAndFilter C :: A ++
      (if b then [Call.ZeroFramesPartial 0 C, Call.Return 0] else [Call.Return 0])).filter
      Call.isProcessFrames = [] := by
  have h1 : A.filter Call.isProcessFrames = [] :=
    List.filter_eq_nil_iff.2 (fun c hc => by simp [(hA c hc).2.1])
  rw [List.filter_append, List.filter_cons, h1]
  by_cases h : b <;> simp [h, Call.isProcessFrames, List.filter_cons]

theorem Resize_mixed_keep (W : Collaborators σ) (s : FilterGroupState σ) (C : Nat)
    (m : AudioBus) (hm : s.mixed_ = some m) (hC : C ≤ m.frames) :
    (ResizeBuffersIfNecessary W s C).2.mixed_ = some m := by
  rw [Resize_mixed, hm]
  simp [tooSmall, hC]

theorem filter_isZeroFramesPartial_silent (C : Nat) (A : List Call)
    (hA : ∀ c ∈ A, c.isCreate = true ∧ c.isProcessFrames = false ∧
      c.isZeroFramesPartial = false) :
    (Call.MixAndFilter C :: A ++ [Call.Return 0]).filter Call.isZeroFramesPartial = [] := by
  have h1 : A.filter Call.isZeroFramesPartial = [] :=
    List.filter_eq_nil_iff.2 (fun c hc => by simp [(hA c hc).2.2])
  rw [List.filter_append, List.filter_cons, h1]
  simp [Call.isZeroFramesPartial, List.filter_cons]

/-- The loop over the children in terms of what each child returns: when
child number `k` returns `results[k]`, the loop yields the children after
their calls and the maximum of the start value and the returned volumes. -/
theorem mixChildren_of_results (W : Collaborators σ) (C : Nat)
    (cs : List (FilterGroup σ)) (results : List (FilterGroup σ × ℚ))
    (h : List.Forall₂ (fun child res => ∃ lg, MixAndFilter W child C = (lg, some res))
      cs results) (i : Nat) (v : ℚ) :
    ∃ log, mixChildren W cs C i v =
      (log, some (results.map Prod.fst, (results.map Prod.snd).foldl max v)) := by
  induction h generalizing i v with
  | nil => exact ⟨[], rfl⟩
  | @cons child res cs' results' hhead _ ih =>
    obtain ⟨lg, hlg⟩ := hhead
    obtain ⟨log, hlog⟩ := ih (i + 1) (max v res.2)
    refine ⟨lg.map (Event.under i) ++ log, ?_⟩
    obtain ⟨g1, r⟩ := res
    simp only [mixChildren, hlg, hlog, List.map_cons, List.foldl_cons]

/-! ### Reachable states -/

theorem state_mk (s : FilterGroupState σ) (cs : List (FilterGroup σ)) :
    (FilterGroup.mk s cs).state = s := rfl

/-- A returning `MixAndFilter` call keeps the zero cache sound. -/
theorem MixAndFilter_ZeroCacheSound (W : Collaborators σ) (g : FilterGroup σ) (C : Nat)
    (l : List Event) (g1 : FilterGroup σ) (r : ℚ)
    (h : MixAndFilter W g C = (l, some (g1, r))) (hz : ZeroCacheSound g.state) :
    ZeroCacheSound g1.state := by
  obtain ⟨hrate, log, vc, hk⟩ := MixAndFilter_children W g C l g1 r h
  by_cases hs : isSilent W g.state vc = true
  · obtain ⟨l', m, t, A, hres, hmC, hMF, -, -⟩ := MixAndFilter_silent W g C hrate log _ vc hk hs
    rw [h] at hMF
    simp only [Prod.mk.injEq, Option.some.injEq] at hMF
    obtain ⟨-, hg, -⟩ := hMF
    by_cases hlt : g.state.frames_zeroed_ < C
    · simp only [hlt, if_true] at hg
      have hst : g1.state = _ := congrArg FilterGroup.state hg
      rw [hst]
      simp only [state_mk, ZeroCacheSound]
      refine ⟨hmC, ?_⟩
      intro c f _ hf
      simp [AudioBus.ZeroFramesPartial, hf]
    · simp only [hlt, if_false] at hg
      have hst : g1.state = _ := congrArg FilterGroup.state hg
      rw [hst]
      simp only [state_mk, ZeroCacheSound]
      have hm : (ResizeBuffersIfNecessary W g.state C).2.mixed_ = some m :=
        congrArg FilterGroupState.mixed_ hres
      rw [Resize_mixed] at hm
      cases hb : g.state.mixed_ with
      | none =>
        simp only [ZeroCacheSound, hb] at hz
        refine ⟨by omega, ?_⟩
        intro c f _ hf
        omega
      | some b =>
        simp only [ZeroCacheSound, hb] at hz
        have hnot : tooSmall g.state.mixed_ C = false := by
          simp only [hb, tooSmall, decide_eq_false_iff_not]
          omega
        rw [hnot, hb] at hm
        simp only [Bool.false_eq_true, if_false, Option.some.injEq] at hm
        subst hm
        exact hz
  · have hns : isSilent W g.state vc = false := by simpa using hs
    obtain ⟨l', m2, t1, A, calls, s1, hMF, -, -, -, hs1, -, -⟩ :=
      MixAndFilter_mix W g C hrate log _ vc hk hns
    rw [h] at hMF
    simp only [Prod.mk.injEq, Option.some.injEq] at hMF
    obtain ⟨-, hg, -⟩ := hMF
    have hst : g1.state = s1 := congrArg FilterGroup.state hg
    rw [hst, hs1]
    simp only [ZeroCacheSound, runPipeline]
    refine ⟨Nat.zero_le _, ?_⟩
    intro c f _ hf
    omega

/-- In every reachable state the zero cache is sound. -/
theorem Reachable.zeroCacheSound (W : Collaborators σ) (g : FilterGroup σ)
    (h : Reachable W g) : ZeroCacheSound g.state := by
  induction h with
  | new n name p ids cs => simp [ZeroCacheSound, FilterGroup.new, state]
  | Initialize g rate _ ih => exact ih
  | AddActiveInput g input _ ih => exact ih
  | ClearActiveInputs g _ ih => exact ih
  | MixAndFilter g g1 C l r _ hmix ih => exact MixAndFilter_ZeroCacheSound W g C l g1 r hmix ih
  | children g cs _ ih => exact ih

/-- What a returning `MixAndFilter` call does to the sample rate and to the
delay: the rate stays; the delay becomes what the pipeline returned if the
pipeline was run, and stays if it was not. -/
theorem MixAndFilter_delay (W : Collaborators σ) (g : FilterGroup σ) (C : Nat)
    (l : List Event) (g1 : FilterGroup σ) (ret : ℚ)
    (hmix : MixAndFilter W g C = (l, some (g1, ret))) :
    g1.state.output_samples_per_second_ = g.state.output_samples_per_second_ ∧
    ((ownCalls l).filter Call.isProcessFrames = [] →
      g1.state.delay_frames_ = g.state.delay_frames_) ∧
    (∀ buf frames vol sil,
      (ownCalls l).filter Call.isProcessFrames = [Call.ProcessFrames buf frames vol sil] →
      g1.state.delay_frames_ = (W.ProcessFrames g.state.post_processing_pipeline_ buf
        g.state.num_channels_ frames vol sil).2.2) := by
  obtain ⟨hrate, log, vc, hk⟩ := MixAndFilter_children W _ C l g1 ret hmix
  by_cases hs : isSilent W g.state vc = true
  · obtain ⟨l', m, t, A, -, -, hMF, hOC, hA⟩ :=
      MixAndFilter_silent W _ C hrate log _ vc hk hs
    rw [hmix] at hMF
    simp only [Prod.mk.injEq, Option.some.injEq] at hMF
    obtain ⟨rfl, hg, -⟩ := hMF
    have hst : g1.state = _ := congrArg FilterGroup.state hg
    rw [hst, state_mk]
    refine ⟨?_, fun _ => ?_, fun buf frames vol sil hpf => ?_⟩
    · split <;> rfl
    · split <;> rfl
    · rw [hOC, filter_isProcessFrames_silent C A _ hA] at hpf
      simp at hpf
  · have hns : isSilent W g.state vc = false := by simpa using hs
    obtain ⟨l', m2, t1, A, calls, s1, hMF, hOC, hA, hcalls, hs1, -, -⟩ :=
      MixAndFilter_mix W _ C hrate log _ vc hk hns
    rw [hmix] at hMF
    simp only [Prod.mk.injEq, Option.some.injEq] at hMF
    obtain ⟨rfl, hg, -⟩ := hMF
    have hst : g1.state = s1 := congrArg FilterGroup.state hg
    have hpf' := filter_isProcessFrames_mix C A calls (Call.ProcessFrames m2.data C
        (if maxVolume vc g.state.active_inputs_ = 0 then g.state.last_volume_
         else maxVolume vc g.state.active_inputs_)
        (decide (maxVolume vc g.state.active_inputs_ = 0)))
      (Call.Return (if maxVolume vc g.state.active_inputs_ = 0 then g.state.last_volume_
         else maxVolume vc g.state.active_inputs_)) hA hcalls rfl rfl
    rw [hOC, hpf']
    refine ⟨by rw [hst, hs1]; rfl, fun h => by simp at h, fun buf frames vol sil hpf => ?_⟩
    simp only [List.cons.injEq, Call.ProcessFrames.injEq, and_true] at hpf
    obtain ⟨hb, hf, hv, hsil⟩ := hpf
    rw [← hb, ← hf, ← hv, ← hsil, hst, hs1]
    simp only [runPipeline, decide_eq_true_eq]

/-- The two indices of `DelayRate` are the data members `delay_frames_` and
`output_samples_per_second_`. -/
theorem DelayRate.members (W : Collaborators σ) (g : FilterGroup σ) (d r : Int)
    (h : DelayRate W g d r) :
    g.state.delay_frames_ = d ∧ g.state.output_samples_per_second_ = r := by
  induction h with
  | new n name p ids cs => exact ⟨rfl, rfl⟩
  | Initialize g d r rate _ ih => exact ⟨ih.1, rfl⟩
  | AddActiveInput g d r input _ ih => exact ih
  | ClearActiveInputs g d r _ ih => exact ih
  | children g d r cs _ ih => exact ih
  | processed g g1 d r C l ret buf frames vol sil _ hmix hpf ih =>
    obtain ⟨h1, -, h3⟩ := MixAndFilter_delay W g C l g1 ret hmix
    exact ⟨h3 buf frames vol sil hpf, h1.trans ih.2⟩
  | skipped g g1 d r C l ret _ hmix hpf ih =>
    obtain ⟨h1, h2, -⟩ := MixAndFilter_delay W g C l g1 ret hmix
    exact ⟨(h2 hpf).trans ih.1, h1.trans ih.2⟩

/-- The running maximum never decreases over the loop over the children. -/
theorem mixChildren_ge (W : Collaborators σ) (cs : List (FilterGroup σ)) (C i : Nat) (v : ℚ)
    (log : List Event) (cs1 : List (FilterGroup σ)) (v1 : ℚ)
    (h : mixChildren W cs C i v = (log, some (cs1, v1))) : v ≤ v1 := by
  induction cs generalizing i v log cs1 v1 with
  | nil =>
    simp only [mixChildren, Prod.mk.injEq, Option.some.injEq] at h
    exact le_of_eq h.2.2
  | cons g rest ih =>
    simp only [mixChildren] at h
    split at h
    · simp at h
    · split at h
      · simp at h
      · rename_i hrest
        simp only [Prod.mk.injEq, Option.some.injEq] at h
        obtain ⟨-, -, rfl⟩ := h
        exact le_trans (le_max_left _ _) (ih _ _ _ _ _ hrest)

theorem maxVolume_ge (v : ℚ) (qs : List InputQueue) : v ≤ maxVolume v qs := by
  induction qs generalizing v with
  | nil => exact le_refl _
  | cons q qs ih =>
    simp only [maxVolume, List.map_cons, List.foldl_cons]
    exact le_trans (le_max_left _ _) (ih _)

theorem staySilent_cons (W : Collaborators σ) (g : FilterGroup σ)
    (rest : List (FilterGroup σ)) (hg : StaysSilent W g) (hrest : StaySilent W rest) :
    StaySilent W (g :: rest) := by
  intro C i log cs1 h j
  simp only [mixChildren] at h
  split at h
  · simp at h
  · rename_i lg g1 r hmix
    split at h
    · simp at h
    · rename_i lr rest1 v1 hr
      simp only [Prod.mk.injEq, Option.some.injEq] at h
      obtain ⟨-, rfl, rfl⟩ := h
      have hle := mixChildren_ge W rest C (i + 1) _ lr rest1 _ hr
      have hr0 : r ≤ 0 := le_trans (le_max_right 0 r) hle
      have hmax : max (0 : ℚ) r = 0 := max_eq_left hr0
      rw [hmax] at hr
      obtain ⟨l', g2, r', hmix', hr'⟩ := hg C lg g1 r hmix hr0
      obtain ⟨log', cs2, hrest'⟩ := hrest C (i + 1) lr rest1 hr (j + 1)
      refine ⟨l'.map (Event.under j) ++ log', g2 :: cs2, ?_⟩
      simp only [mixChildren, hmix', max_eq_left hr', hrest']

theorem staysSilent_mk (W : Collaborators σ) (s : FilterGroupState σ)
    (cs : List (FilterGroup σ)) (hcs : StaySilent W cs) :
    StaysSilent W (FilterGroup.mk s cs) := by
  intro C l g1 r hmix hr
  obtain ⟨hrate, log, vc, hk⟩ := MixAndFilter_children W _ C l g1 r hmix
  have hvc0 : 0 ≤ vc := mixChildren_ge W _ C 0 0 log _ vc hk
  by_cases hs : isSilent W (FilterGroup.mk s cs).state vc = true
  · -- the first call took the early return: so does the second
    obtain ⟨l', m, t, A, -, -, hMF, -, -⟩ := MixAndFilter_silent W _ C hrate log _ vc hk hs
    obtain ⟨hin, hv, hring⟩ := (isSilent_iff W _ vc).1 hs
    subst hv
    rw [hmix] at hMF
    simp only [Prod.mk.injEq, Option.some.injEq] at hMF
    obtain ⟨-, hg, -⟩ := hMF
    have hst : g1.state = _ := congrArg FilterGroup.state hg
    rw [state_mk] at hst
    have hrate1 : DCHECK_NE W.DCHECK_IS_ON g1.state.output_samples_per_second_ 0 = true := by
      rw [hst]; split <;> exact hrate
    have hsil1 : isSilent W g1.state 0 = true := by
      rw [isSilent_iff, hst]
      refine ⟨?_, rfl, ?_⟩
      · split <;> exact hin
      · split <;> exact hring
    obtain ⟨log', cs2, hk'⟩ := hcs C 0 log _ hk 0
    obtain ⟨l2, m', t', A', -, -, hMF2, -, -⟩ :=
      MixAndFilter_silent W g1 C hrate1 log' cs2 0 hk' hsil1
    exact ⟨l2, _, 0, hMF2, le_refl _⟩
  · -- the first call ran the pipeline and returned the old last volume
    have hns : isSilent W (FilterGroup.mk s cs).state vc = false := by simpa using hs
    obtain ⟨l', m2, t1, A, calls, s1, hMF, -, -, -, hs1, -, -⟩ :=
      MixAndFilter_mix W _ C hrate log _ vc hk hns
    rw [hmix] at hMF
    simp only [Prod.mk.injEq, Option.some.injEq] at hMF
    obtain ⟨-, hg, hret⟩ := hMF
    have hst : g1.state = s1 := congrArg FilterGroup.state hg
    rw [state_mk] at hret hs1
    have hm0 : maxVolume vc s.active_inputs_ = 0 := by
      by_contra hne
      rw [if_neg hne] at hret
      have := maxVolume_ge vc s.active_inputs_
      have hpos : 0 < maxVolume vc s.active_inputs_ :=
        lt_of_le_of_ne (le_trans hvc0 this) (Ne.symm hne)
      rw [hret] at hr
      exact absurd hr (not_le.2 hpos)
    have hvc : vc = 0 := le_antisymm (hm0 ▸ maxVolume_ge vc s.active_inputs_) hvc0
    subst hvc
    rw [if_pos hm0] at hret
    have hrate1 : DCHECK_NE W.DCHECK_IS_ON g1.state.output_samples_per_second_ 0 = true := by
      rw [hst, hs1]; exact hrate
    have hin1 : g1.state.active_inputs_ = s.active_inputs_ := by
      rw [hst, hs1]; rfl
    have hlast1 : g1.state.last_volume_ = r := by
      rw [hst, hs1, (runPipeline_volume W _ _ _ _ _).2, if_pos hm0, hret]
    obtain ⟨log', cs2, hk'⟩ := hcs C 0 log _ hk 0
    by_cases hs2 : isSilent W g1.state 0 = true
    · obtain ⟨l2, m', t', A', -, -, hMF2, -, -⟩ :=
        MixAndFilter_silent W g1 C hrate1 log' cs2 0 hk' hs2
      exact ⟨l2, _, 0, hMF2, le_refl _⟩
    · have hns2 : isSilent W g1.state 0 = false := by simpa using hs2
      obtain ⟨l2, m2', t1', A', calls', s2, hMF2, -, -, -, -, -, -⟩ :=
        MixAndFilter_mix W g1 C hrate1 log' cs2 0 hk' hns2
      rw [hin1, if_pos hm0, hlast1] at hMF2
      exact ⟨l2, _, r, hMF2, hr⟩

mutual

/-- Every group stays silent once it has been silent. -/
theorem staysSilent (W : Collaborators σ) : ∀ g : FilterGroup σ, StaysSilent W g
  | .mk s cs => staysSilent_mk W s cs (staySilent W cs)

/-- Every list of children stays silent once it has been silent. -/
theorem staySilent (W : Collaborators σ) : ∀ cs : List (FilterGroup σ), StaySilent W cs
  | [] => fun C i log cs1 h j => by
    simp only [mixChildren, Prod.mk.injEq, Option.some.injEq] at h
    obtain ⟨-, rfl, -⟩ := h
    exact ⟨[], [], rfl⟩
  | g :: rest => staySilent_cons W g rest (staysSilent W g) (staySilent W rest)

end

/-- A returning `MixAndFilter` call leaves the device-id set alone. -/
theorem MixAndFilter_device_ids (W : Collaborators σ) (g : FilterGroup σ) (C : Nat)
    (l : List Event) (g1 : FilterGroup σ) (r : ℚ)
    (hmix : MixAndFilter W g C = (l, some (g1, r))) :
    g1.state.device_ids_ = g.state.device_ids_ := by
  obtain ⟨hrate, log, vc, hk⟩ := MixAndFilter_children W _ C l g1 r hmix
  by_cases hs : isSilent W g.state vc = true
  · obtain ⟨l', m, t, A, -, -, hMF, -, -⟩ := MixAndFilter_silent W _ C hrate log _ vc hk hs
    rw [hmix] at hMF
    simp only [Prod.mk.injEq, Option.some.injEq] at hMF
    obtain ⟨-, hg, -⟩ := hMF
    have hst : g1.state = _ := congrArg FilterGroup.state hg
    rw [hst, state_mk]
    split <;> rfl
  · have hns : isSilent W g.state vc = false := by simpa using hs
    obtain ⟨l', m2, t1, A, calls, s1, hMF, -, -, -, hs1, -, -⟩ :=
      MixAndFilter_mix W _ C hrate log _ vc hk hns
    rw [hmix] at hMF
    simp only [Prod.mk.injEq, Option.some.injEq] at hMF
    obtain ⟨-, hg, -⟩ := hMF
    have hst : g1.state = s1 := congrArg FilterGroup.state hg
    rw [hst, hs1]
    rfl

/-- No method changes the device-id set a group was constructed with. -/
theorem ConstructedWith.device_ids (W : Collaborators σ) (ids : Finset String)
    (g : FilterGroup σ) (h : ConstructedWith W ids g) : g.state.device_ids_ = ids := by
  induction h with
  | new n name p cs => rfl
  | Initialize g rate _ ih => exact ih
  | CanProcessInput g input _ ih => exact ih
  | AddActiveInput g input _ ih => exact ih
  | ClearActiveInputs g _ ih => exact ih
  | MixAndFilter g g1 C l r _ hmix ih => exact (MixAndFilter_device_ids W g C l g1 r hmix).trans ih
  | children g cs _ ih => exact ih

/-- When every child returns 0, the loop over the children ends with running
maximum 0. -/
theorem mixChildren_of_silent (W : Collaborators σ) (C : Nat)
    (cs cs1 : List (FilterGroup σ))
    (h : List.Forall₂ (fun child child1 => ∃ lg, MixAndFilter W child C = (lg, some (child1, 0)))
      cs cs1) (i : Nat) :
    ∃ log, mixChildren W cs C i 0 = (log, some (cs1, 0)) := by
  induction h generalizing i with
  | nil => exact ⟨[], rfl⟩
  | @cons child child1 cs' cs1' hhead _ ih =>
    obtain ⟨lg, hlg⟩ := hhead
    obtain ⟨log, hlog⟩ := ih (i + 1)
    refine ⟨lg.map (Event.under i) ++ log, ?_⟩
    simp only [mixChildren, hlg, max_self, hlog]

theorem capacity_Resize (W : Collaborators σ) (s : FilterGroupState σ) (C : Nat) :
    capacity (ResizeBuffersIfNecessary W s C).2.mixed_ = max (capacity s.mixed_) C ∧
    capacity (ResizeBuffersIfNecessary W s C).2.temp_ = max (capacity s.temp_) C := by
  rw [Resize_mixed, Resize_temp]
  constructor
  · cases h : s.mixed_ with
    | none => simp [tooSmall, capacity, AudioBus.Create]
    | some m =>
      by_cases hlt : m.frames < C
      · simp [tooSmall, capacity, AudioBus.Create, hlt, le_of_lt hlt]
      · simp [tooSmall, capacity, hlt, not_lt.1 hlt]
  · cases h : s.temp_ with
    | none => simp [tooSmall, capacity, AudioBus.Create]
    | some m =>
      by_cases hlt : m.frames < C
      · simp [tooSmall, capacity, AudioBus.Create, hlt, le_of_lt hlt]
      · simp [tooSmall, capacity, hlt, not_lt.1 hlt]

theorem mixInputQueues_temp_dims (n C : Nat) (qs : List InputQueue) (i : Nat)
    (mixed temp : AudioBus) (v : ℚ) :
    (mixInputQueues n C qs i mixed temp v).2.2.1.channels = temp.channels ∧
    (mixInputQueues n C qs i mixed temp v).2.2.1.frames = temp.frames := by
  induction qs generalizing i mixed temp v with
  | nil => exact ⟨rfl, rfl⟩
  | cons q qs ih =>
    simp only [mixInputQueues]
    rw [(ih _ _ _ _).1, (ih _ _ _ _).2]
    exact ⟨rfl, rfl⟩

theorem fmacChannels_dims (n C : Nat) (src : Option AudioBus) (mixed m2 : AudioBus)
    (h : fmacChannels n C src mixed = some m2) :
    m2.channels = mixed.channels ∧ m2.frames = mixed.frames := by
  cases src with
  | none =>
    rw [fmacChannels_none] at h
    split at h
    · simp only [Option.some.injEq] at h
      subst h
      exact ⟨rfl, rfl⟩
    · simp at h
  | some d =>
    rw [fmacChannels_some] at h
    simp only [Option.some.injEq] at h
    subst h
    exact forChannels_dims _ _ _

theorem mixFilterGroups_dims (n C : Nat) (cs : List (FilterGroup σ)) (i : Nat)
    (mixed m2 : AudioBus) (h : (mixFilterGroups n C cs i mixed).2 = some m2) :
    m2.channels = mixed.channels ∧ m2.frames = mixed.frames := by
  induction cs generalizing i mixed with
  | nil =>
    simp only [mixFilterGroups, Option.some.injEq] at h
    subst h
    exact ⟨rfl, rfl⟩
  | cons g cs ih =>
    simp only [mixFilterGroups] at h
    split at h
    · split at h
      · simp at h
      · rename_i m1 hf
        obtain ⟨h1, h2⟩ := ih _ _ h
        obtain ⟨h3, h4⟩ := fmacChannels_dims n C g.data mixed m1 hf
        exact ⟨h1.trans h3, h2.trans h4⟩
    · exact ih _ _ h

/-- The group's own work keeps the capacity of both buffers. -/
theorem mixOwn_capacity (W : Collaborators σ) (s : FilterGroupState σ)
    (cs : List (FilterGroup σ)) (v : ℚ) (C : Nat) (calls : List Call)
    (s1 : FilterGroupState σ) (r : ℚ) (h : mixOwn W s cs v C = (calls, some (s1, r))) :
    capacity s1.mixed_ = capacity s.mixed_ ∧ capacity s1.temp_ = capacity s.temp_ := by
  unfold mixOwn at h
  split at h
  · rename_i mixed temp hm ht
    split at h
    · split at h
      · simp only [Prod.mk.injEq, Option.some.injEq] at h
        obtain ⟨-, rfl, -⟩ := h
        simp [capacity, hm, ht, AudioBus.ZeroFramesPartial]
      · simp only [Prod.mk.injEq, Option.some.injEq] at h
        obtain ⟨-, rfl, -⟩ := h
        exact ⟨rfl, rfl⟩
    · dsimp only at h
      split at h
      · simp at h
      · rename_i m2 hg
        simp only [Prod.mk.injEq, Option.some.injEq] at h
        obtain ⟨-, rfl, -⟩ := h
        have h1 := (mixFilterGroups_dims _ _ _ _ _ _ hg).2
        rw [(mixInputQueues_mixed_dims _ _ _ _ _ _ _).2] at h1
        have h2 := (mixInputQueues_temp_dims s.num_channels_ C s.active_inputs_ 0
          (mixed.ZeroFramesPartial 0 C) temp v).2
        simp only [runPipeline, capacity, hm, ht]
        exact ⟨h1, h2⟩
  · simp at h

/-- A returning `MixAndFilter(C)` call leaves both buffers with the larger of
their old capacity and `C`. -/
theorem MixAndFilter_capacity (W : Collaborators σ) (g : FilterGroup σ) (C : Nat)
    (l : List Event) (g1 : FilterGroup σ) (r : ℚ)
    (hmix : MixAndFilter W g C = (l, some (g1, r))) :
    capacity g1.state.mixed_ = max (capacity g.state.mixed_) C ∧
    capacity g1.state.temp_ = max (capacity g.state.temp_) C := by
  obtain ⟨hrate, log, vc, hk⟩ := MixAndFilter_children W g C l g1 r hmix
  have hun := MixAndFilter_unfold W g C hrate log _ vc hk
  rw [hmix] at hun
  simp only [Prod.mk.injEq] at hun
  obtain ⟨-, hres⟩ := hun
  cases hown : mixOwn W (ResizeBuffersIfNecessary W g.state C).2 g1.mixed_inputs_ vc C with
  | mk calls res =>
    rw [hown] at hres
    cases res with
    | none => simp at hres
    | some sr =>
      obtain ⟨s1, r1⟩ := sr
      simp only [Option.map_some', Option.some.injEq, Prod.mk.injEq] at hres
      obtain ⟨hg, -⟩ := hres
      have hst : g1.state = s1 := (congrArg FilterGroup.state hg).trans rfl
      obtain ⟨h1, h2⟩ := mixOwn_capacity W _ _ _ _ _ _ _ hown
      obtain ⟨h3, h4⟩ := capacity_Resize W g.state C
      rw [hst, h1, h2, h3, h4]
      exact ⟨rfl, rfl⟩

theorem foldl_max_append (Cs : List Nat) (C : Nat) :
    (Cs ++ [C]).foldl max 0 = max (Cs.foldl max 0) C := by
  simp [List.foldl_append]

/-- After the chunk sizes `Cs`, both buffers hold exactly the largest of them
(0 frames, no buffer, before the first call). -/
theorem MixedWith.capacity_eq (W : Collaborators σ) (g : FilterGroup σ) (Cs : List Nat)
    (h : MixedWith W g Cs) :
    capacity g.state.mixed_ = Cs.foldl max 0 ∧ capacity g.state.temp_ = Cs.foldl max 0 := by
  induction h with
  | new n name p ids cs => exact ⟨rfl, rfl⟩
  | Initialize g Cs rate _ ih => exact ih
  | CanProcessInput g Cs input _ ih => exact ih
  | AddActiveInput g Cs input _ ih => exact ih
  | ClearActiveInputs g Cs _ ih => exact ih
  | children g Cs cs _ ih => exact ih
  | MixAndFilter g g1 Cs C l r _ hmix ih =>
    obtain ⟨h1, h2⟩ := MixAndFilter_capacity W g C l g1 r hmix
    rw [foldl_max_append, h1, h2, ih.1, ih.2]
    exact ⟨rfl, rfl⟩

theorem le_foldl_max (Cs : List Nat) (a : Nat) :
    a ≤ Cs.foldl max a ∧ ∀ C ∈ Cs, C ≤ Cs.foldl max a := by
  induction Cs generalizing a with
  | nil => simp
  | cons x xs ih =>
    simp only [List.foldl_cons, List.mem_cons, forall_eq_or_imp]
    refine ⟨le_trans (le_max_left a x) (ih _).1, le_trans (le_max_right a x) (ih _).1, ?_⟩
    exact (ih _).2


/-- A returning `MixAndFilter` call leaves the group with both buffers. -/
theorem MixAndFilter_buffers (W : Collaborators σ) (g : FilterGroup σ) (C : Nat)
    (l : List Event) (g1 : FilterGroup σ) (r : ℚ)
    (hmix : MixAndFilter W g C = (l, some (g1, r))) :
    ∃ m t, g1.state.mixed_ = some m ∧ g1.state.temp_ = some t := by
  obtain ⟨hrate, log, vc, hk⟩ := MixAndFilter_children W g C l g1 r hmix
  by_cases hs : isSilent W g.state vc = true
  · obtain ⟨l', m, t, A, -, -, hMF, -, -⟩ := MixAndFilter_silent W g C hrate log _ vc hk hs
    rw [hmix] at hMF
    simp only [Prod.mk.injEq, Option.some.injEq] at hMF
    obtain ⟨-, hg, -⟩ := hMF
    have hst : g1.state = _ := congrArg FilterGroup.state hg
    rw [hst, state_mk]
    split
    · exact ⟨_, _, rfl, rfl⟩
    · exact ⟨_, _, rfl, rfl⟩
  · have hns : isSilent W g.state vc = false := by simpa using hs
    obtain ⟨l', m2, t1, A, calls, s1, hMF, -, -, -, hs1, -, -⟩ :=
      MixAndFilter_mix W g C hrate log _ vc hk hns
    rw [hmix] at hMF
    simp only [Prod.mk.injEq, Option.some.injEq] at hMF
    obtain ⟨-, hg, -⟩ := hMF
    have hst : g1.state = s1 := congrArg FilterGroup.state hg
    rw [hst, hs1]
    exact ⟨_, _, rfl, rfl⟩

/-- Once a group has been mixed it has both buffers. -/
theorem MixedWith.buffers (W : Collaborators σ) (g : FilterGroup σ) (Cs : List Nat)
    (h : MixedWith W g Cs) (hne : Cs ≠ []) :
    ∃ m t, g.state.mixed_ = some m ∧ g.state.temp_ = some t := by
  induction h with
  | new n name p ids cs => exact absurd rfl hne
  | Initialize g Cs rate _ ih => exact ih hne
  | CanProcessInput g Cs input _ ih => exact ih hne
  | AddActiveInput g Cs input _ ih => exact ih hne
  | ClearActiveInputs g Cs _ ih => exact ih hne
  | children g Cs cs _ ih => exact ih hne
  | MixAndFilter g g1 Cs C l r _ hmix _ => exact MixAndFilter_buffers W g C l g1 r hmix

theorem mixOwn_calls_no_create (W : Collaborators σ) (s : FilterGroupState σ)
    (cs : List (FilterGroup σ)) (v : ℚ) (C : Nat) (c : Call)
    (hc : c ∈ (mixOwn W s cs v C).1) : c.isCreate = false := by
  unfold mixOwn at hc
  split at hc
  · split at hc
    · split at hc
      · simp only [List.mem_cons, List.mem_singleton, List.not_mem_nil, or_false] at hc
        rcases hc with rfl | rfl <;> rfl
      · simp only [List.mem_singleton] at hc
        subst hc; rfl
    · dsimp only at hc
      split at hc
      · simp only [List.cons_append, List.mem_cons, List.mem_append] at hc
        rcases hc with rfl | h | h
        · rfl
        · exact (mixInputQueues_calls _ _ _ _ _ _ _ c h).2.2
        · exact (mixFilterGroups_calls _ _ _ _ _ c h).2.2
      · simp only [List.cons_append, List.mem_cons, List.mem_append, runPipeline,
          List.mem_singleton, List.not_mem_nil, or_false] at hc
        rcases hc with rfl | (h | h) | rfl | rfl
        · rfl
        · exact (mixInputQueues_calls _ _ _ _ _ _ _ c h).2.2
        · exact (mixFilterGroups_calls _ _ _ _ _ c h).2.2
        · rfl
        · rfl
  · simp at hc

/-- A returning `MixAndFilter` call, by cases: either it took the silence
early return, or it ran the pipeline once. -/
theorem MixAndFilter_cases (W : Collaborators σ) (g : FilterGroup σ) (C : Nat)
    (l : List Event) (g1 : FilterGroup σ) (r : ℚ)
    (hmix : MixAndFilter W g C = (l, some (g1, r))) :
    DCHECK_NE W.DCHECK_IS_ON g.state.output_samples_per_second_ 0 = true ∧
    g1.state.output_samples_per_second_ = g.state.output_samples_per_second_ ∧
    g1.state.active_inputs_ = g.state.active_inputs_ ∧
    g1.state.num_channels_ = g.state.num_channels_ ∧
    ∃ log vc, mixChildren W g.mixed_inputs_ C 0 0 = (log, some (g1.mixed_inputs_, vc)) ∧
      0 ≤ vc ∧
      ((isSilent W g.state vc = true ∧ r = 0 ∧
          (ownCalls l).filter Call.isProcessFrames = [] ∧
          g1.state.last_volume_ = g.state.last_volume_ ∧
          g1.state.delay_frames_ = g.state.delay_frames_ ∧
          g1.state.post_processing_pipeline_ = g.state.post_processing_pipeline_ ∧
          C ≤ g1.state.frames_zeroed_) ∨
       (isSilent W g.state vc = false ∧ ∃ m2 : AudioBus,
          (ownCalls l).filter Call.isProcessFrames =
            [Call.ProcessFrames m2.data C r
              (decide (maxVolume vc g.state.active_inputs_ = 0))] ∧
          r = (if maxVolume vc g.state.active_inputs_ = 0 then g.state.last_volume_
               else maxVolume vc g.state.active_inputs_) ∧
          g1.state.last_volume_ = r ∧
          g1.state.delay_frames_ =
            (W.ProcessFrames g.state.post_processing_pipeline_ m2.data g.state.num_channels_
              C r (decide (maxVolume vc g.state.active_inputs_ = 0))).2.2 ∧
          g1.state.frames_zeroed_ = 0 ∧
          C ≤ m2.frames ∧
          (∀ c f, c < g.state.num_channels_ → f < C →
            m2.data c f = preFilterSample g.state.active_inputs_ g1.mixed_inputs_ c f))) := by
  obtain ⟨hrate, log, vc, hk⟩ := MixAndFilter_children W g C l g1 r hmix
  have hvc : 0 ≤ vc := mixChildren_ge W _ C 0 0 log _ vc hk
  by_cases hs : isSilent W g.state vc = true
  · obtain ⟨l', m, t, A, -, -, hMF, hOC, hA⟩ := MixAndFilter_silent W g C hrate log _ vc hk hs
    rw [hmix] at hMF
    simp only [Prod.mk.injEq, Option.some.injEq] at hMF
    obtain ⟨rfl, hg, hr⟩ := hMF
    have hst : g1.state = _ := congrArg FilterGroup.state hg
    rw [state_mk] at hst
    refine ⟨hrate, ?_, ?_, ?_, log, vc, hk, hvc, Or.inl ⟨hs, hr, ?_, ?_, ?_, ?_, ?_⟩⟩
    · rw [hst]; split <;> rfl
    · rw [hst]; split <;> rfl
    · rw [hst]; split <;> rfl
    · rw [hOC]; exact filter_isProcessFrames_silent C A _ hA
    · rw [hst]; split <;> rfl
    · rw [hst]; split <;> rfl
    · rw [hst]; split <;> rfl
    · rw [hst]
      split
      · exact le_refl _
      · show C ≤ g.state.frames_zeroed_
        omega
  · have hns : isSilent W g.state vc = false := by simpa using hs
    obtain ⟨l', m2, t1, A, calls, s1, hMF, hOC, hA, hcalls, hs1, hm2, hdata⟩ :=
      MixAndFilter_mix W g C hrate log _ vc hk hns
    rw [hmix] at hMF
    simp only [Prod.mk.injEq, Option.some.injEq] at hMF
    obtain ⟨rfl, hg, hr⟩ := hMF
    have hst : g1.state = s1 := congrArg FilterGroup.state hg
    rw [hs1] at hst
    refine ⟨hrate, ?_, ?_, ?_, log, vc, hk, hvc, Or.inr ⟨hns, m2, ?_, hr, ?_, ?_, ?_, hm2, hdata⟩⟩
    · rw [hst]; rfl
    · rw [hst]; rfl
    · rw [hst]; rfl
    · rw [hOC, hr]
      exact filter_isProcessFrames_mix C A calls _ _ hA hcalls rfl rfl
    · rw [hst, (runPipeline_volume W _ _ _ _ _).2, hr]
    · rw [hst, hr]
      simp [runPipeline]
    · rw [hst]; rfl

/-- A returning `MixAndFilter` call keeps a last volume that is not negative
so, and keeps a positive one positive. -/
theorem MixAndFilter_last_volume_sign (W : Collaborators σ) (g : FilterGroup σ) (C : Nat)
    (l : List Event) (g1 : FilterGroup σ) (r : ℚ)
    (hmix : MixAndFilter W g C = (l, some (g1, r))) (h0 : 0 ≤ g.last_volume) :
    0 ≤ g1.last_volume ∧ 0 ≤ r ∧ (0 < g.last_volume → 0 < g1.last_volume) ∧
    ((ownCalls l).filter Call.isProcessFrames ≠ [] → r = g1.last_volume) := by
  obtain ⟨-, -, -, -, log, vc, hk, hvc, h | h⟩ := MixAndFilter_cases W g C l g1 r hmix
  · obtain ⟨-, hr, hpf, hlast, -⟩ := h
    refine ⟨?_, by rw [hr], ?_, fun hne => absurd hpf hne⟩
    · show 0 ≤ g1.state.last_volume_
      rw [hlast]; exact h0
    · intro hp
      show 0 < g1.state.last_volume_
      rw [hlast]; exact hp
  · obtain ⟨-, m2, -, hr, hlast, -⟩ := h
    have hm : 0 ≤ maxVolume vc g.state.active_inputs_ :=
      le_trans hvc (maxVolume_ge vc g.state.active_inputs_)
    have hr0 : 0 ≤ r := by
      rw [hr]; split
      · exact h0
      · exact hm
    refine ⟨?_, hr0, ?_, fun _ => hlast.symm⟩
    · show 0 ≤ g1.state.last_volume_
      rw [hlast]; exact hr0
    · intro hp
      show 0 < g1.state.last_volume_
      rw [hlast, hr]
      split
      · exact hp
      · exact lt_of_le_of_ne hm (Ne.symm ‹_›)

theorem VolumeHistory.sound (W : Collaborators σ) (g : FilterGroup σ) (b : Bool)
    (h : VolumeHistory W g b) : 0 ≤ g.last_volume ∧ (b = true ↔ 0 < g.last_volume) := by
  induction h with
  | new n name p ids cs => simp [FilterGroup.new, last_volume, state]
  | Initialize g b rate _ ih => exact ih
  | CanProcessInput g b input _ ih => exact ih
  | AddActiveInput g b input _ ih => exact ih
  | ClearActiveInputs g b _ ih => exact ih
  | children g b cs _ ih => exact ih
  | MixAndFilter g g1 b C l r _ hmix ih =>
    obtain ⟨h1, -, hpos, -⟩ := MixAndFilter_last_volume_sign W g C l g1 r hmix ih.1
    refine ⟨h1, ?_⟩
    simp only [Bool.or_eq_true, decide_eq_true_eq]
    constructor
    · rintro (hb | hne)
      · exact hpos (ih.2.1 hb)
      · exact lt_of_le_of_ne h1 (Ne.symm hne)
    · intro hp
      exact Or.inr (ne_of_gt hp)

theorem Reachable.last_volume_nonneg (W : Collaborators σ) (g : FilterGroup σ)
    (h : Reachable W g) : 0 ≤ g.last_volume := by
  induction h with
  | new n name p ids cs => simp [FilterGroup.new, last_volume, state]
  | Initialize g rate _ ih => exact ih
  | AddActiveInput g input _ ih => exact ih
  | ClearActiveInputs g _ ih => exact ih
  | MixAndFilter g g1 C l r _ hmix ih =>
    exact (MixAndFilter_last_volume_sign W g C l g1 r hmix ih).1
  | children g cs _ ih => exact ih


theorem le_foldl_max_rat (vs : List ℚ) (a : ℚ) :
    a ≤ vs.foldl max a ∧ ∀ v ∈ vs, v ≤ vs.foldl max a := by
  induction vs generalizing a with
  | nil => simp
  | cons x xs ih =>
    simp only [List.foldl_cons, List.mem_cons, forall_eq_or_imp]
    exact ⟨le_trans (le_max_left a x) (ih (max a x)).1,
      le_trans (le_max_right a x) (ih (max a x)).1, (ih (max a x)).2⟩

theorem foldl_max_eq_zero_iff (vs : List ℚ) (h : ∀ v ∈ vs, 0 ≤ v) :
    vs.foldl max 0 = 0 ↔ ∀ v ∈ vs, v = 0 := by
  constructor
  · intro h0 v hv
    have := (le_foldl_max_rat vs 0).2 v hv
    rw [h0] at this
    exact le_antisymm this (h v hv)
  · intro hall
    clear h
    induction vs with
    | nil => rfl
    | cons x xs ih =>
      have hx : x = 0 := hall x (List.mem_cons_self _ _)
      subst hx
      simp only [List.foldl_cons, max_self]
      exact ih (fun v hv => hall v (List.mem_cons_of_mem _ hv))


theorem mixFilterGroups_FMAC (n C : Nat) (cs : List (FilterGroup σ)) (i0 : Nat)
    (mixed : AudioBus) (hd : ∀ g ∈ cs, ∃ d, g.data = some d)
    (i : Nat) (child : FilterGroup σ) (hi : cs[i]? = some child)
    (hlv : 0 < child.last_volume) (c : Nat) (hc : c < n) :
    Call.FMAC (i0 + i) c ∈ (mixFilterGroups n C cs i0 mixed).1 := by
  induction cs generalizing i0 i mixed with
  | nil => simp at hi
  | cons g cs ih =>
    have hd' : ∀ g ∈ cs, ∃ d, g.data = some d := fun x hx => hd x (List.mem_cons_of_mem _ hx)
    obtain ⟨d, hgd⟩ := hd g (List.mem_cons_self _ _)
    simp only [mixFilterGroups]
    cases i with
    | zero =>
      simp only [List.getElem?_cons_zero, Option.some.injEq] at hi
      subst hi
      have hv : g.last_volume > 0 := hlv
      simp only [hv, if_true, hgd, fmacChannels_some, List.mem_append, List.mem_map,
        List.mem_range]
      exact Or.inl ⟨c, hc, rfl⟩
    | succ k =>
      simp only [List.getElem?_cons_succ] at hi
      have hidx : i0 + (k + 1) = (i0 + 1) + k := by omega
      rw [hidx]
      by_cases hv : g.last_volume > 0
      · simp only [hv, if_true, hgd, fmacChannels_some, List.mem_append]
        exact Or.inr (ih (i0 + 1) _ hd' k hi)
      · simp only [hv, if_false]
        exact ih (i0 + 1) _ hd' k hi

/-- A returning `MixAndFilter` call that runs the pipeline logs an `FMAC` call
on every channel for each child whose last volume is positive. -/
theorem MixAndFilter_FMAC (W : Collaborators σ) (g : FilterGroup σ) (C : Nat)
    (l : List Event) (g1 : FilterGroup σ) (r : ℚ)
    (hmix : MixAndFilter W g C = (l, some (g1, r)))
    (hpf : (ownCalls l).filter Call.isProcessFrames ≠ [])
    (i : Nat) (child : FilterGroup σ) (hi : g1.mixed_inputs_[i]? = some child)
    (hlv : 0 < child.last_volume) (c : Nat) (hc : c < g.state.num_channels_) :
    Call.FMAC i c ∈ ownCalls l := by
  obtain ⟨hrate, -, -, -, log, vc, hk, -, h | h⟩ := MixAndFilter_cases W g C l g1 r hmix
  · exact absurd h.2.2.1 hpf
  · obtain ⟨hns, -⟩ := h
    obtain ⟨m, hm, -⟩ := Resize_mixed_some W g.state C
    obtain ⟨t, ht, -⟩ := Resize_temp_some W g.state C
    have hs1 : (ResizeBuffersIfNecessary W g.state C).2 =
        { g.state with mixed_ := some m, temp_ := some t } := by
      rw [Resize_frame W g.state C, hm, ht]
    have hd := mixChildren_data W _ _ _ _ _ _ _ hk
    have hOC := MixAndFilter_ownCalls W g C hrate log _ vc hk
    rw [hmix, hs1] at hOC
    obtain ⟨m2, h2, -⟩ := mixFilterGroups_some g.state.num_channels_ C g1.mixed_inputs_ 0
      (mixInputQueues g.state.num_channels_ C g.state.active_inputs_ 0
        (m.ZeroFramesPartial 0 C) t vc).2.1 hd
    have hF := mixFilterGroups_FMAC g.state.num_channels_ C g1.mixed_inputs_ 0
      (mixInputQueues g.state.num_channels_ C g.state.active_inputs_ 0
        (m.ZeroFramesPartial 0 C) t vc).2.1 hd i child hi hlv c hc
    rw [Nat.zero_add] at hF
    have hns' : isSilent W { g.state with mixed_ := some m, temp_ := some t } vc = false := hns
    have hmem : Call.FMAC i c ∈
        (mixOwn W { g.state with mixed_ := some m, temp_ := some t } g1.mixed_inputs_ vc C).1 := by
      unfold mixOwn
      simp only [hns', h2, Bool.false_eq_true, if_false, List.mem_cons, List.mem_append,
        List.cons_append]
      exact Or.inr (Or.inl (Or.inr hF))
    rw [show ownCalls l = _ from hOC]
    simp only [List.mem_cons, List.mem_append, List.cons_append]
    exact Or.inr (Or.inr hmem)

/-- A returning `MixAndFilter` call that takes the silence early return on a
group whose zero cache is sound leaves the first `C` frames of the output
buffer zero. -/
theorem shortCircuit_OutputZero (W : Collaborators σ) (g : FilterGroup σ) (C : Nat)
    (l : List Event) (g1 : FilterGroup σ) (r : ℚ)
    (hmix : MixAndFilter W g C = (l, some (g1, r))) (hz : ZeroCacheSound g.state)
    (hpf : (ownCalls l).filter Call.isProcessFrames = []) : OutputZero g1 C := by
  have hz1 := MixAndFilter_ZeroCacheSound W g C l g1 r hmix hz
  obtain ⟨d, hd⟩ := MixAndFilter_data W g C l g1 r hmix
  obtain ⟨-, -, -, -, log, vc, hk, -, h | h⟩ := MixAndFilter_cases W g C l g1 r hmix
  · obtain ⟨-, -, -, -, -, -, hfz⟩ := h
    have hd' : g1.state.mixed_ = some d := hd
    simp only [ZeroCacheSound, hd'] at hz1
    exact ⟨d, hd, le_trans hfz hz1.1, fun c f hc hf => hz1.2 c f hc (lt_of_lt_of_le hf hfz)⟩
  · obtain ⟨-, m2, hcall, -⟩ := h
    rw [hcall] at hpf
    cases hpf

/-- The own calls of a returning `MixAndFilter` call that takes the silence
early return. -/
theorem shortCircuit_ownCalls (W : Collaborators σ) (g : FilterGroup σ) (C : Nat)
    (l : List Event) (g1 : FilterGroup σ) (r : ℚ)
    (hmix : MixAndFilter W g C = (l, some (g1, r)))
    (hpf : (ownCalls l).filter Call.isProcessFrames = []) :
    ∃ A : List Call, (∀ c ∈ A, c.isCreate = true) ∧
      (A = [] ↔ (tooSmall g.state.mixed_ C = false ∧ tooSmall g.state.temp_ C = false)) ∧
      ownCalls l = Call.MixAndFilter C :: A ++
        (if g.state.frames_zeroed_ < C then [Call.ZeroFramesPartial 0 C, Call.Return 0]
         else [Call.Return 0]) := by
  obtain ⟨hrate, -, -, -, log, vc, hk, -, h | h⟩ := MixAndFilter_cases W g C l g1 r hmix
  · obtain ⟨hs, -⟩ := h
    obtain ⟨m, hm, -⟩ := Resize_mixed_some W g.state C
    obtain ⟨t, ht, -⟩ := Resize_temp_some W g.state C
    have hs1 : (ResizeBuffersIfNecessary W g.state C).2 =
        { g.state with mixed_ := some m, temp_ := some t } := by
      rw [Resize_frame W g.state C, hm, ht]
    have hOC := MixAndFilter_ownCalls W g C hrate log _ vc hk
    obtain ⟨hin, hv, hring⟩ := (isSilent_iff W _ vc).1 hs
    subst hv
    rw [hmix, hs1, mixOwn_silent W { g.state with mixed_ := some m, temp_ := some t } _ C m t
      rfl rfl hin hring] at hOC
    refine ⟨(ResizeBuffersIfNecessary W g.state C).1,
      fun c hc => (Resize_calls W g.state C c hc).1, ?_, ?_⟩
    · unfold ResizeBuffersIfNecessary
      cases h1 : tooSmall g.state.mixed_ C <;> cases h2 : tooSmall g.state.temp_ C <;> simp [h2]
    · rw [hOC]
      split <;> rfl
  · obtain ⟨-, m2, hcall, -⟩ := h
    rw [hcall] at hpf
    cases hpf

theorem mixChildren_returns (W : Collaborators σ) (cs : List (FilterGroup σ)) (C i : Nat)
    (v : ℚ) (log : List Event) (cs1 : List (FilterGroup σ)) (v1 : ℚ)
    (h : mixChildren W cs C i v = (log, some (cs1, v1))) :
    log = childLogs W cs C i ∧
    List.Forall₂ (fun child child1 => ∃ lg r, MixAndFilter W child C = (lg, some (child1, r)))
      cs cs1 := by
  induction cs generalizing i v log cs1 v1 with
  | nil =>
    simp only [mixChildren, Prod.mk.injEq, Option.some.injEq] at h
    obtain ⟨rfl, rfl, -⟩ := h
    exact ⟨rfl, List.Forall₂.nil⟩
  | cons g rest ih =>
    simp only [mixChildren] at h
    split at h
    · simp at h
    · rename_i lg g1 r hg
      split at h
      · simp at h
      · rename_i lrest rest1 v2 hrest
        simp only [Prod.mk.injEq, Option.some.injEq] at h
        obtain ⟨rfl, rfl, -⟩ := h
        obtain ⟨hl, hf⟩ := ih _ _ _ _ _ hrest
        refine ⟨?_, List.Forall₂.cons ⟨lg, r, hg⟩ hf⟩
        simp only [childLogs, hg, hl]

theorem mixInputQueues_calls_work (n C : Nat) (qs : List InputQueue) (i : Nat)
    (mixed temp : AudioBus) (v : ℚ) (c : Call)
    (hc : c ∈ (mixInputQueues n C qs i mixed temp v).1) :
    c.isMixAndFilter = false ∧ c.isCreate = false ∧ c.isReturn = false := by
  induction qs generalizing i mixed temp v with
  | nil => simp [mixInputQueues] at hc
  | cons q qs ih =>
    simp only [mixInputQueues, List.mem_cons, List.mem_append, List.mem_map] at hc
    rcases hc with (rfl | ⟨k, -, rfl⟩) | h
    · exact ⟨rfl, rfl, rfl⟩
    · exact ⟨rfl, rfl, rfl⟩
    · exact ih _ _ _ _ h

theorem mixFilterGroups_calls_work (n C : Nat) (cs : List (FilterGroup σ)) (i : Nat)
    (mixed : AudioBus) (c : Call) (hc : c ∈ (mixFilterGroups n C cs i mixed).1) :
    c.isMixAndFilter = false ∧ c.isCreate = false ∧ c.isReturn = false := by
  induction cs generalizing i mixed with
  | nil => simp [mixFilterGroups] at hc
  | cons g cs ih =>
    simp only [mixFilterGroups] at hc
    split at hc
    · split at hc
      · simp at hc
      · simp only [List.mem_append, List.mem_map] at hc
        rcases hc with ⟨k, -, rfl⟩ | h
        · exact ⟨rfl, rfl, rfl⟩
        · exact ih _ _ h
    · exact ih _ _ hc

/-- The calls of the group's own work, when it returns: some calls that are
neither an entry, nor an allocation, nor a return, and then the return. -/
theorem mixOwn_shape (W : Collaborators σ) (s : FilterGroupState σ)
    (cs : List (FilterGroup σ)) (v : ℚ) (C : Nat) (calls : List Call)
    (s1 : FilterGroupState σ) (r : ℚ) (h : mixOwn W s cs v C = (calls, some (s1, r))) :
    ∃ body, calls = body ++ [Call.Return r] ∧
      ∀ c ∈ body, c.isMixAndFilter = false ∧ c.isCreate = false ∧ c.isReturn = false := by
  cases hm : s.mixed_ with
  | none => simp [mixOwn, hm] at h
  | some mixed =>
    cases ht : s.temp_ with
    | none => simp [mixOwn, hm, ht] at h
    | some temp =>
      by_cases hs : isSilent W s v = true
      · by_cases hlt : s.frames_zeroed_ < C
        · simp only [mixOwn, hm, ht, hs, hlt, if_true, Prod.mk.injEq, Option.some.injEq] at h
          obtain ⟨rfl, -, rfl⟩ := h
          refine ⟨[Call.ZeroFramesPartial 0 C], rfl, ?_⟩
          intro c hc
          simp only [List.mem_singleton] at hc
          subst hc
          exact ⟨rfl, rfl, rfl⟩
        · simp only [mixOwn, hm, ht, hs, hlt, if_true, if_false, Prod.mk.injEq,
            Option.some.injEq] at h
          obtain ⟨rfl, -, rfl⟩ := h
          exact ⟨[], rfl, by simp⟩
      · have hns : isSilent W s v = false := by simpa using hs
        cases hg : (mixFilterGroups s.num_channels_ C cs 0
            (mixInputQueues s.num_channels_ C s.active_inputs_ 0
              (mixed.ZeroFramesPartial 0 C) temp v).2.1).2 with
        | none => simp [mixOwn, hm, ht, hns, hg] at h
        | some m2 =>
          simp only [mixOwn, hm, ht, hns, hg, Bool.false_eq_true, if_false, Prod.mk.injEq,
            Option.some.injEq] at h
          obtain ⟨hcalls, hres⟩ := h
          have hr := congrArg Prod.snd hres
          simp only [(runPipeline_volume W _ _ _ _ _).1] at hr
          rw [runPipeline_calls, hr] at hcalls
          refine ⟨Call.ZeroFramesPartial 0 C :: (mixInputQueues s.num_channels_ C
              s.active_inputs_ 0 (mixed.ZeroFramesPartial 0 C) temp v).1 ++
            (mixFilterGroups s.num_channels_ C cs 0 (mixInputQueues s.num_channels_ C
              s.active_inputs_ 0 (mixed.ZeroFramesPartial 0 C) temp v).2.1).1 ++
            [Call.ProcessFrames m2.data C r (decide ((mixInputQueues s.num_channels_ C
              s.active_inputs_ 0 (mixed.ZeroFramesPartial 0 C) temp v).2.2.2 = 0))], ?_, ?_⟩
          · rw [← hcalls]
            simp
          · intro c hc
            simp only [List.cons_append, List.mem_cons, List.mem_append, List.mem_singleton,
              List.not_mem_nil, or_false] at hc
            rcases hc with rfl | (h | h) | rfl
            · exact ⟨rfl, rfl, rfl⟩
            · exact mixInputQueues_calls_work _ _ _ _ _ _ _ c h
            · exact mixFilterGroups_calls_work _ _ _ _ _ c h
            · exact ⟨rfl, rfl, rfl⟩

/-- The log of a returning `MixAndFilter` call: the entry, the allocations,
the complete logs of the children, the group's own work, the return. -/
theorem MixAndFilter_log (W : Collaborators σ) (g : FilterGroup σ) (C : Nat)
    (l : List Event) (g1 : FilterGroup σ) (r : ℚ)
    (hmix : MixAndFilter W g C = (l, some (g1, r))) :
    ∃ A body : List Call,
      l = Event.own (Call.MixAndFilter C) :: A.map Event.own ++
        childLogs W g.mixed_inputs_ C 0 ++ (body ++ [Call.Return r]).map Event.own ∧
      (∀ c ∈ A, c.isCreate = true) ∧
      (∀ c ∈ body, c.isMixAndFilter = false ∧ c.isCreate = false ∧ c.isReturn = false) := by
  obtain ⟨hrate, log, vc, hk⟩ := MixAndFilter_children W g C l g1 r hmix
  have hun := MixAndFilter_unfold W g C hrate log _ vc hk
  rw [hmix] at hun
  simp only [Prod.mk.injEq] at hun
  obtain ⟨hl, hres⟩ := hun
  cases hown : mixOwn W (ResizeBuffersIfNecessary W g.state C).2 g1.mixed_inputs_ vc C with
  | mk calls res =>
    rw [hown] at hl hres
    cases res with
    | none => simp at hres
    | some sr =>
      obtain ⟨s1, r'⟩ := sr
      simp only [Option.map_some', Option.some.injEq, Prod.mk.injEq] at hres
      obtain ⟨-, hr⟩ := hres
      subst hr
      obtain ⟨body, hbody, hflags⟩ := mixOwn_shape W _ _ _ _ _ _ _ hown
      refine ⟨(ResizeBuffersIfNecessary W g.state C).1, body, ?_,
        fun c hc => (Resize_calls W g.state C c hc).1, hflags⟩
      rw [hl, (mixChildren_returns W _ _ _ _ _ _ _ hk).1, hbody]


theorem childEntry_own (c : Call) : Event.childEntry (Event.own c) = none := rfl

theorem childEntry_under_entry (i k : Nat) :
    Event.childEntry (Event.under i (Event.own (Call.MixAndFilter k))) = some (i, k) := rfl

theorem childEntry_under_own (i : Nat) (c : Call) (h : c.isMixAndFilter = false) :
    Event.childEntry (Event.under i (Event.own c)) = none := by
  cases c <;> first | rfl | cases h

theorem childEntry_under_deep (i : Nat) (e : Event) (h : e.path ≠ []) :
    Event.childEntry (Event.under i e) = none := by
  obtain ⟨path, call⟩ := e
  cases path with
  | nil => exact absurd rfl h
  | cons j rest => rfl

theorem childLogs_path (W : Collaborators σ) (cs : List (FilterGroup σ)) (C i : Nat) :
    ∀ e ∈ childLogs W cs C i, e.path ≠ [] := by
  induction cs generalizing i with
  | nil => intro e he; simp [childLogs] at he
  | cons g rest ih =>
    intro e he
    simp only [childLogs, List.mem_append, List.mem_map] at he
    rcases he with ⟨e', -, rfl⟩ | he
    · simp [Event.under]
    · exact ih _ e he

/-- The log of a returning call, seen from the parent, holds exactly one
entry of a `MixAndFilter` call of a child: that of the call itself. -/
theorem childEntry_log (W : Collaborators σ) (g : FilterGroup σ) (C i : Nat)
    (l : List Event) (g1 : FilterGroup σ) (r : ℚ)
    (hmix : MixAndFilter W g C = (l, some (g1, r))) :
    (l.map (Event.under i)).filterMap Event.childEntry = [(i, C)] := by
  obtain ⟨A, body, hl, hA, hbody⟩ := MixAndFilter_log W g C l g1 r hmix
  have h1 : ((A.map Event.own).map (Event.under i)).filterMap Event.childEntry = [] := by
    rw [List.filterMap_eq_nil_iff]
    intro e he
    simp only [List.mem_map] at he
    obtain ⟨e', ⟨c, hc, rfl⟩, rfl⟩ := he
    apply childEntry_under_own
    have := hA c hc
    cases c <;> first | rfl | cases this
  have h2 : ((childLogs W g.mixed_inputs_ C 0).map (Event.under i)).filterMap
      Event.childEntry = [] := by
    rw [List.filterMap_eq_nil_iff]
    intro e he
    simp only [List.mem_map] at he
    obtain ⟨e', he', rfl⟩ := he
    exact childEntry_under_deep i e' (childLogs_path W _ C 0 e' he')
  have h3 : (((body ++ [Call.Return r]).map Event.own).map (Event.under i)).filterMap
      Event.childEntry = [] := by
    rw [List.filterMap_eq_nil_iff]
    intro e he
    simp only [List.mem_map, List.mem_append, List.mem_singleton] at he
    obtain ⟨e', ⟨c, hc, rfl⟩, rfl⟩ := he
    apply childEntry_under_own
    rcases hc with hc | rfl
    · exact (hbody c hc).1
    · rfl
  obtain ⟨B, hB⟩ : ∃ B, B = (body ++ [Call.Return r]).map Event.own := ⟨_, rfl⟩
  rw [← hB] at hl h3
  rw [hl]
  simp only [List.map_cons, List.map_append, List.filterMap_cons, List.filterMap_append,
    childEntry_under_entry, h1, h2, h3, List.append_nil, List.nil_append]

theorem childLogs_entries (W : Collaborators σ) (cs cs1 : List (FilterGroup σ)) (C i : Nat)
    (h : List.Forall₂
      (fun child child1 => ∃ lg r, MixAndFilter W child C = (lg, some (child1, r))) cs cs1) :
    (childLogs W cs C i).filterMap Event.childEntry =
      (List.range' i cs.length).map (fun k => (k, C)) := by
  induction h generalizing i with
  | nil => rfl
  | @cons child child1 rest rest1 hhead _ ih =>
    obtain ⟨lg, r, hcall⟩ := hhead
    have h1 := childEntry_log W child C i lg child1 r hcall
    simp only [hcall] at h1
    simp only [childLogs, List.filterMap_append, hcall, h1, ih (i + 1), List.length_cons,
      List.range'_succ, List.map_cons, List.singleton_append]

theorem returns_mk (W : Collaborators σ) (s : FilterGroupState σ)
    (cs : List (FilterGroup σ)) (C : Nat) (hrate : s.output_samples_per_second_ ≠ 0)
    (hcs : ∃ log cs1 vc, mixChildren W cs C 0 0 = (log, some (cs1, vc))) :
    ∃ l g1 r, MixAndFilter W (FilterGroup.mk s cs) C = (l, some (g1, r)) := by
  have hrate := DCHECK_NE_of_ne W.DCHECK_IS_ON _ hrate
  obtain ⟨log, cs1, vc, hk⟩ := hcs
  by_cases hs : isSilent W (FilterGroup.mk s cs).state vc = true
  · obtain ⟨l, m, t, A, -, -, hMF, -, -⟩ :=
      MixAndFilter_silent W (FilterGroup.mk s cs) C hrate log cs1 vc hk hs
    exact ⟨_, _, _, hMF⟩
  · have hns : isSilent W (FilterGroup.mk s cs).state vc = false := by simpa using hs
    obtain ⟨l, m2, t1, A, calls, s1, hMF, -⟩ :=
      MixAndFilter_mix W (FilterGroup.mk s cs) C hrate log cs1 vc hk hns
    exact ⟨_, _, _, hMF⟩

theorem returns_cons (W : Collaborators σ) (g : FilterGroup σ) (rest : List (FilterGroup σ))
    (C : Nat) (hg : ∃ l g1 r, MixAndFilter W g C = (l, some (g1, r)))
    (hrest : ∀ i v, ∃ log cs1 v1, mixChildren W rest C i v = (log, some (cs1, v1))) :
    ∀ i v, ∃ log cs1 v1, mixChildren W (g :: rest) C i v = (log, some (cs1, v1)) := by
  intro i v
  obtain ⟨l, g1, r, hcall⟩ := hg
  obtain ⟨log, cs1, v1, hk⟩ := hrest (i + 1) (max v r)
  exact ⟨l.map (Event.under i) ++ log, g1 :: cs1, v1, by simp only [mixChildren, hcall, hk]⟩

mutual

/-- On a tree in which every group has a bound sample rate `MixAndFilter`
returns. -/
theorem returns_of_initialized (W : Collaborators σ) (C : Nat) :
    ∀ g : FilterGroup σ, Initialized g = true →
      ∃ l g1 r, MixAndFilter W g C = (l, some (g1, r))
  | .mk s cs, h => by
    simp only [Initialized, Bool.and_eq_true, decide_eq_true_eq] at h
    obtain ⟨log, cs1, v1, hk⟩ := all_return_of_initialized W C cs h.2 0 0
    exact returns_mk W s cs C h.1 ⟨log, cs1, v1, hk⟩

/-- On trees in which every group has a bound sample rate the loop over the
children completes. -/
theorem all_return_of_initialized (W : Collaborators σ) (C : Nat) :
    ∀ cs : List (FilterGroup σ), AllInitialized cs = true →
      ∀ i v, ∃ log cs1 v1, mixChildren W cs C i v = (log, some (cs1, v1))
  | [], _ => fun i v => ⟨[], [], v, rfl⟩
  | g :: rest, h => by
    simp only [AllInitialized, Bool.and_eq_true] at h
    exact returns_cons W g rest C (returns_of_initialized W C g h.1)
      (all_return_of_initialized W C rest h.2)

end

/-- The log of a returning call starts with the entry and ends with the
return. -/
theorem MixAndFilter_log_ends (W : Collaborators σ) (g : FilterGroup σ) (C : Nat)
    (l : List Event) (g1 : FilterGroup σ) (r : ℚ)
    (hmix : MixAndFilter W g C = (l, some (g1, r))) :
    l.head? = some (Event.own (Call.MixAndFilter C)) ∧
    l.getLast? = some (Event.own (Call.Return r)) := by
  obtain ⟨A, body, hl, -, -⟩ := MixAndFilter_log W g C l g1 r hmix
  rw [hl]
  refine ⟨rfl, ?_⟩
  rw [List.map_append, ← List.append_assoc, List.map_singleton, List.getLast?_append]
  rfl

theorem childrenSum_insert (xs ys : List (FilterGroup σ)) (x : FilterGroup σ) (c f : Nat) :
    childrenSum (xs ++ x :: ys) c f =
      childrenSum (xs ++ ys) c f + (if x.last_volume > 0 then outputSample x c f else 0) := by
  unfold childrenSum
  by_cases hv : x.last_volume > 0
  · simp only [List.filter_append, List.filter_cons, hv, decide_True, if_true, List.map_append,
      List.map_cons, List.sum_append, List.sum_cons]
    ring
  · simp only [List.filter_append, List.filter_cons, hv, decide_False, if_false,
      List.map_append, List.sum_append, add_zero, Bool.false_eq_true]

theorem foldl_max_insert_zero (a b : List ℚ) :
    (a ++ 0 :: b).foldl max 0 = (a ++ b).foldl max 0 := by
  rw [List.foldl_append, List.foldl_append, List.foldl_cons,
    max_eq_left (le_foldl_max_rat a 0).1]

theorem OutputZero.outputSample (g : FilterGroup σ) (C n : Nat) (h : OutputZero g C)
    (hch : ∀ d, g.data = some d → n ≤ d.channels) (c f : Nat) (hc : c < n) (hf : f < C) :
    outputSample g c f = 0 := by
  obtain ⟨m, hm, -, hz⟩ := h
  simp only [FilterGroup.outputSample, hm]
  exact hz c f (lt_of_lt_of_le hc (hch m hm)) hf

theorem volumesIn_mk (P : ℚ → Prop) (s : FilterGroupState σ) (cs : List (FilterGroup σ)) :
    VolumesIn P (FilterGroup.mk s cs) ↔
      (s.last_volume_ = 0 ∨ P s.last_volume_) ∧
      (∀ q ∈ s.active_inputs_, P q.EffectiveVolume) ∧ AllVolumesIn P cs := by
  rw [VolumesIn]

theorem volumesIn_iff (P : ℚ → Prop) (g : FilterGroup σ) :
    VolumesIn P g ↔
      (g.state.last_volume_ = 0 ∨ P g.state.last_volume_) ∧
      (∀ q ∈ g.state.active_inputs_, P q.EffectiveVolume) ∧ AllVolumesIn P g.mixed_inputs_ := by
  cases g with
  | mk s cs => exact volumesIn_mk P s cs

theorem allVolumesIn_iff (P : ℚ → Prop) (cs : List (FilterGroup σ)) :
    AllVolumesIn P cs ↔ ∀ c ∈ cs, VolumesIn P c := by
  induction cs with
  | nil => simp [AllVolumesIn]
  | cons g rest ih => simp [AllVolumesIn, ih]

theorem maxVolume_mem (v : ℚ) (qs : List InputQueue) :
    maxVolume v qs = v ∨ ∃ q ∈ qs, maxVolume v qs = q.EffectiveVolume := by
  induction qs generalizing v with
  | nil => exact Or.inl rfl
  | cons q qs ih =>
    have hstep : maxVolume v (q :: qs) = maxVolume (max v q.EffectiveVolume) qs := rfl
    rw [hstep]
    rcases ih (max v q.EffectiveVolume) with h | ⟨q', hq', h⟩
    · rw [h]
      rcases max_choice v q.EffectiveVolume with hm | hm
      · exact Or.inl hm
      · exact Or.inr ⟨q, List.mem_cons_self _ _, hm⟩
    · exact Or.inr ⟨q', List.mem_cons_of_mem _ hq', h⟩

/-- One group: if the loop over its children keeps volumes within `P`, so
does its `MixAndFilter`. -/
theorem volumes_mk (W : Collaborators σ) (P : ℚ → Prop) (s : FilterGroupState σ)
    (cs : List (FilterGroup σ))
    (hcs : ∀ (C i : Nat) (v : ℚ) (log : List Event) (cs1 : List (FilterGroup σ)) (v1 : ℚ),
      AllVolumesIn P cs → (v = 0 ∨ P v) → mixChildren W cs C i v = (log, some (cs1, v1)) →
      (v1 = 0 ∨ P v1) ∧ AllVolumesIn P cs1 ∧
      ∀ e ∈ log, ∀ x, e.call = Call.Return x → x = 0 ∨ P x) :
    ∀ (C : Nat) (l : List Event) (g1 : FilterGroup σ) (r : ℚ),
      VolumesIn P (FilterGroup.mk s cs) →
      MixAndFilter W (FilterGroup.mk s cs) C = (l, some (g1, r)) →
      (r = 0 ∨ P r) ∧ VolumesIn P g1 ∧ ∀ e ∈ l, ∀ x, e.call = Call.Return x → x = 0 ∨ P x := by
  intro C l g1 r hV hmix
  obtain ⟨hlast, hin, hkids⟩ := (volumesIn_mk P s cs).1 hV
  obtain ⟨A, body, hl, hA, hbody⟩ := MixAndFilter_log W _ C l g1 r hmix
  obtain ⟨-, -, hin1, -, log, vc, hk, -, hcase⟩ := MixAndFilter_cases W _ C l g1 r hmix
  obtain ⟨hvc, hcs1, hlog⟩ := hcs C 0 0 log _ vc hkids (Or.inl rfl) hk
  have hlogeq := (mixChildren_returns W _ _ _ _ _ _ _ hk).1
  have hr : (r = 0 ∨ P r) ∧ (g1.state.last_volume_ = 0 ∨ P g1.state.last_volume_) := by
    rcases hcase with h | h
    · obtain ⟨-, hr0, -, hl1, -⟩ := h
      exact ⟨Or.inl hr0, by rw [hl1]; exact hlast⟩
    · obtain ⟨-, m2, -, hr, hl1, -⟩ := h
      have : r = 0 ∨ P r := by
        rw [hr]
        split
        · exact hlast
        · rcases maxVolume_mem vc s.active_inputs_ with hm | ⟨q, hq, hm⟩
          · rw [show maxVolume vc (FilterGroup.mk s cs).state.active_inputs_ = vc from hm]
            exact hvc
          · rw [show maxVolume vc (FilterGroup.mk s cs).state.active_inputs_ =
              q.EffectiveVolume from hm]
            exact Or.inr (hin q hq)
      exact ⟨this, by rw [hl1]; exact this⟩
  refine ⟨hr.1, ?_, ?_⟩
  · rw [volumesIn_iff]
    refine ⟨hr.2, ?_, hcs1⟩
    rw [hin1]
    exact hin
  · intro e he x hx
    rw [hl] at he
    rcases List.mem_append.1 he with he | he
    · rcases List.mem_append.1 he with he | he
      · rcases List.mem_cons.1 he with rfl | he
        · exact Call.noConfusion hx
        · obtain ⟨c, hc, rfl⟩ := List.mem_map.1 he
          have hcx : c = Call.Return x := hx
          have := hA c hc
          rw [hcx] at this
          cases this
      · rw [← hlogeq] at he
        exact hlog e he x hx
    · obtain ⟨c, hc, rfl⟩ := List.mem_map.1 he
      have hcx : c = Call.Return x := hx
      rcases List.mem_append.1 hc with hc | hc
      · have := (hbody c hc).2.2
        rw [hcx] at this
        cases this
      · rw [List.mem_singleton.1 hc] at hcx
        cases hcx
        exact hr.1

/-- One more child: if the child's `MixAndFilter` and the loop over the
remaining children keep volumes within `P`, so does the loop. -/
theorem volumes_cons (W : Collaborators σ) (P : ℚ → Prop) (g : FilterGroup σ)
    (rest : List (FilterGroup σ))
    (hg : ∀ (C : Nat) (l : List Event) (g1 : FilterGroup σ) (r : ℚ),
      VolumesIn P g → MixAndFilter W g C = (l, some (g1, r)) →
      (r = 0 ∨ P r) ∧ VolumesIn P g1 ∧ ∀ e ∈ l, ∀ x, e.call = Call.Return x → x = 0 ∨ P x)
    (hrest : ∀ (C i : Nat) (v : ℚ) (log : List Event) (cs1 : List (FilterGroup σ)) (v1 : ℚ),
      AllVolumesIn P rest → (v = 0 ∨ P v) → mixChildren W rest C i v = (log, some (cs1, v1)) →
      (v1 = 0 ∨ P v1) ∧ AllVolumesIn P cs1 ∧
      ∀ e ∈ log, ∀ x, e.call = Call.Return x → x = 0 ∨ P x) :
    ∀ (C i : Nat) (v : ℚ) (log : List Event) (cs1 : List (FilterGroup σ)) (v1 : ℚ),
      AllVolumesIn P (g :: rest) → (v = 0 ∨ P v) →
      mixChildren W (g :: rest) C i v = (log, some (cs1, v1)) →
      (v1 = 0 ∨ P v1) ∧ AllVolumesIn P cs1 ∧
      ∀ e ∈ log, ∀ x, e.call = Call.Return x → x = 0 ∨ P x := by
  intro C i v log cs1 v1 hV hv h
  simp only [AllVolumesIn] at hV
  simp only [mixChildren] at h
  split at h
  · simp at h
  · rename_i lg g1 r hcall
    split at h
    · simp at h
    · rename_i lrest rest1 v2 hk
      simp only [Prod.mk.injEq, Option.some.injEq] at h
      obtain ⟨rfl, rfl, rfl⟩ := h
      obtain ⟨hr, hg1, hlg⟩ := hg C lg g1 r hV.1 hcall
      have hmax : max v r = 0 ∨ P (max v r) := by
        rcases max_choice v r with hm | hm <;> rw [hm]
        · exact hv
        · exact hr
      obtain ⟨hv2, hrest1, hlrest⟩ := hrest C (i + 1) _ lrest rest1 v2 hV.2 hmax hk
      refine ⟨hv2, ⟨hg1, hrest1⟩, ?_⟩
      intro e he x hx
      simp only [List.mem_append, List.mem_map] at he
      rcases he with ⟨e', he', rfl⟩ | he
      · exact hlg e' he' x hx
      · exact hlrest e he x hx

mutual

/-- On every tree `MixAndFilter` keeps the volumes within `P`. -/
theorem volumes_tree (W : Collaborators σ) (P : ℚ → Prop) :
    ∀ (g : FilterGroup σ) (C : Nat) (l : List Event) (g1 : FilterGroup σ) (r : ℚ),
      VolumesIn P g → MixAndFilter W g C = (l, some (g1, r)) →
      (r = 0 ∨ P r) ∧ VolumesIn P g1 ∧ ∀ e ∈ l, ∀ x, e.call = Call.Return x → x = 0 ∨ P x
  | .mk s cs => volumes_mk W P s cs (volumes_list W P cs)

/-- On every list of trees the loop over the children keeps the volumes
within `P`. -/
theorem volumes_list (W : Collaborators σ) (P : ℚ → Prop) :
    ∀ (cs : List (FilterGroup σ)) (C i : Nat) (v : ℚ) (log : List Event)
      (cs1 : List (FilterGroup σ)) (v1 : ℚ),
      AllVolumesIn P cs → (v = 0 ∨ P v) → mixChildren W cs C i v = (log, some (cs1, v1)) →
      (v1 = 0 ∨ P v1) ∧ AllVolumesIn P cs1 ∧
      ∀ e ∈ log, ∀ x, e.call = Call.Return x → x = 0 ∨ P x
  | [] => fun C i v log cs1 v1 _ hv h => by
    simp only [mixChildren, Prod.mk.injEq, Option.some.injEq] at h
    obtain ⟨rfl, rfl, rfl⟩ := h
    exact ⟨hv, trivial, fun e he => absurd he (List.not_mem_nil e)⟩
  | g :: rest => volumes_cons W P g rest (volumes_tree W P g) (volumes_list W P rest)

end

theorem InputsWithin.volumesIn (W : Collaborators σ) (P : ℚ → Prop) (g : FilterGroup σ)
    (h : InputsWithin W P g) : VolumesIn P g := by
  induction h with
  | new n name p ids cs _ ih =>
    rw [volumesIn_iff]
    exact ⟨Or.inl rfl, fun q hq => absurd hq (List.not_mem_nil q), (allVolumesIn_iff P cs).2 ih⟩
  | Initialize g rate _ ih =>
    rw [volumesIn_iff] at ih ⊢
    exact ih
  | CanProcessInput g input _ ih => exact ih
  | AddActiveInput g input _ hP ih =>
    rw [volumesIn_iff] at ih ⊢
    refine ⟨ih.1, ?_, ih.2.2⟩
    intro q hq
    have hq' : q ∈ g.state.active_inputs_ ++ [input] := hq
    rcases List.mem_append.1 hq' with h | h
    · exact ih.2.1 q h
    · rw [List.mem_singleton.1 h]; exact hP
  | ClearActiveInputs g _ ih =>
    rw [volumesIn_iff] at ih ⊢
    exact ⟨ih.1, fun q hq => absurd hq (List.not_mem_nil q), ih.2.2⟩
  | children g cs _ _ ih ihcs =>
    rw [volumesIn_iff] at ih
    rw [volumesIn_mk]
    exact ⟨ih.1, ih.2.1, (allVolumesIn_iff P cs).2 ihcs⟩
  | MixAndFilter g g1 C l r _ hmix ih => exact (volumes_tree W P g C l g1 r ih hmix).2.1

/-! ## Claims -/

/-- C1: for a chunk size `C > 0`, a group in a reachable state with a bound
sample rate, no active inputs, a pipeline that is not ringing, last volume 0
and children that all return 0, two consecutive `MixAndFilter(C)` calls both
return 0, after each call the first `C` frames of every channel of the output
buffer are zero, and the last volume is still 0. -/
theorem C1_silence_twice (W : Collaborators σ) (g : FilterGroup σ) (C : Nat) (hC : 0 < C)
    (hreach : Reachable W g)
    (hrate : g.state.output_samples_per_second_ ≠ 0)
    (hin : g.state.active_inputs_ = [])
    (hring : W.IsRinging g.state.post_processing_pipeline_ = false)
    (hlast : g.state.last_volume_ = 0)
    (cs1 : List (FilterGroup σ))
    (hkids : List.Forall₂
      (fun child child1 => ∃ lg, MixAndFilter W child C = (lg, some (child1, 0)))
      g.mixed_inputs_ cs1) :
    ∃ l1 g1 l2 g2,
      MixAndFilter W g C = (l1, some (g1, 0)) ∧ OutputZero g1 C ∧
      MixAndFilter W g1 C = (l2, some (g2, 0)) ∧ OutputZero g2 C ∧
      g2.state.last_volume_ = 0 := by
  obtain ⟨log1, hk1⟩ := mixChildren_of_silent W C g.mixed_inputs_ cs1 hkids 0
  obtain ⟨log2, cs2, hk2⟩ := staySilent W g.mixed_inputs_ C 0 log1 cs1 hk1 0
  obtain ⟨l1, g1, h1, hz1, hcs1, hr1, hi1, hp1, hl1, -, hs1⟩ :=
    silent_call W g C hC hrate hin hring (Reachable.zeroCacheSound W g hreach) log1 cs1 hk1
  obtain ⟨l2, g2, h2, hz2, -, -, -, -, hl2, -, -⟩ :=
    silent_call W g1 C hC (hr1 ▸ hrate) (hi1.trans hin) (hp1 ▸ hring) hs1 log2 cs2
      (hcs1 ▸ hk2)
  exact ⟨l1, g1, l2, g2, h1, hz1, h2, hz2, by rw [hl2, hl1, hlast]⟩

/-- Witness of C1 on the example parent with one silent leaf, chunk size 3. -/
theorem C1_silence_twice_witness :
    ∃ l1 g1 l2 g2,
      MixAndFilter exampleWorld (exampleParent [exampleLeaf 0]) 3 = (l1, some (g1, 0)) ∧
      OutputZero g1 3 ∧
      MixAndFilter exampleWorld g1 3 = (l2, some (g2, 0)) ∧ OutputZero g2 3 ∧
      g2.state.last_volume_ = 0 :=
  C1_silence_twice exampleWorld (exampleParent [exampleLeaf 0]) 3 (by decide)
    (Reachable.Initialize _ _ (Reachable.new 2 "mix" 0 ∅ [exampleLeaf 0])) (by decide) rfl rfl
    rfl _ (List.Forall₂.cons ⟨_, rfl⟩ List.Forall₂.nil)

/-- C2 (ring-out): a group whose last volume is `v > 0`, with no active
inputs, children that all return 0 and a pipeline that reports ringing, does
not return early: `MixAndFilter` calls the pipeline's `ProcessFrames` exactly
once, with volume `v` and `is_silence = true`, returns `v`, and keeps `v` as
its last volume. -/
theorem C2_ring_out (W : Collaborators σ) (g : FilterGroup σ) (C : Nat) (v : ℚ)
    (hrate : g.state.output_samples_per_second_ ≠ 0)
    (hlast : g.state.last_volume_ = v) (hv : 0 < v)
    (hin : g.state.active_inputs_ = [])
    (hring : W.IsRinging g.state.post_processing_pipeline_ = true)
    (cs1 : List (FilterGroup σ))
    (hkids : List.Forall₂
      (fun child child1 => ∃ lg, MixAndFilter W child C = (lg, some (child1, 0)))
      g.mixed_inputs_ cs1) :
    ∃ l g1 buf, MixAndFilter W g C = (l, some (g1, v)) ∧ v ≠ 0 ∧
      (ownCalls l).filter Call.isProcessFrames = [Call.ProcessFrames buf C v true] ∧
      g1.state.last_volume_ = v := by
  have hrate := DCHECK_NE_of_ne W.DCHECK_IS_ON _ hrate
  obtain ⟨log, hk⟩ := mixChildren_of_silent W C g.mixed_inputs_ cs1 hkids 0
  have hns : isSilent W g.state 0 = false := by simp [isSilent, hring]
  obtain ⟨l, m2, t1, A, calls, s1, hMF, hOC, hA, hcalls, hs1, -, -⟩ :=
    MixAndFilter_mix W g C hrate log cs1 0 hk hns
  have hmax : maxVolume 0 g.state.active_inputs_ = 0 := by simp [hin, maxVolume]
  simp only [hmax, if_true, hlast, decide_True] at hMF hOC
  refine ⟨l, _, m2.data, hMF, ne_of_gt hv, ?_, ?_⟩
  · rw [hOC]
    exact filter_isProcessFrames_mix C A calls _ _ hA hcalls rfl rfl
  · show s1.last_volume_ = v
    rw [hs1]
    simp only [runPipeline, hmax, decide_True, if_true]
    exact hlast

/-- Witness of C2 on the example group that has been active. -/
theorem C2_ring_out_witness :
    ∃ l g1 buf, MixAndFilter exampleWorld exampleRinging 3 = (l, some (g1, 1)) ∧
      (1 : ℚ) ≠ 0 ∧
      (ownCalls l).filter Call.isProcessFrames = [Call.ProcessFrames buf 3 1 true] ∧
      g1.state.last_volume_ = 1 :=
  C2_ring_out exampleWorld exampleRinging 3 1 (by decide) rfl (by decide) rfl rfl
    [] List.Forall₂.nil

/-- C4 (tree composition): a parent with no active inputs and exactly two
children `x`, `y`, one of them silent (it returns 0 and its last volume is 0)
and the other active (it returns `v > 0`), hands to its pipeline a buffer that
equals the active child's output buffer on the first `C` frames of every
channel, and returns `v`. -/
theorem C4_tree_composition (W : Collaborators σ) (g x y : FilterGroup σ) (C : Nat)
    (silent active silent1 active1 : FilterGroup σ) (ls la : List Event) (v : ℚ)
    (hrate : g.state.output_samples_per_second_ ≠ 0)
    (hin : g.state.active_inputs_ = [])
    (hcs : g.mixed_inputs_ = [x, y])
    (horder : (x = silent ∧ y = active) ∨ (x = active ∧ y = silent))
    (hsilent : MixAndFilter W silent C = (ls, some (silent1, 0)))
    (hlast : silent.last_volume = 0)
    (hactive : MixAndFilter W active C = (la, some (active1, v)))
    (hv : 0 < v) :
    ∃ l g1 buf d, MixAndFilter W g C = (l, some (g1, v)) ∧
      (ownCalls l).filter Call.isProcessFrames = [Call.ProcessFrames buf C v false] ∧
      active1.data = some d ∧
      ∀ c f, c < g.state.num_channels_ → f < C → buf c f = d.data c f := by
  have hrate := DCHECK_NE_of_ne W.DCHECK_IS_ON _ hrate
  have hs1 : silent1.last_volume = 0 := by
    rcases MixAndFilter_last_volume W silent C ls silent1 0 hsilent with ⟨-, h⟩ | h
    · rw [h, hlast]
    · exact h
  have ha1 : active1.last_volume = v := by
    rcases MixAndFilter_last_volume W active C la active1 v hactive with ⟨h, -⟩ | h
    · exact absurd h (ne_of_gt hv)
    · exact h
  obtain ⟨d, hd⟩ := MixAndFilter_data W active C la active1 v hactive
  have hvne : v ≠ 0 := ne_of_gt hv
  have hmaxv : max (0 : ℚ) v = v := max_eq_right (le_of_lt hv)
  rcases horder with ⟨rfl, rfl⟩ | ⟨rfl, rfl⟩
  · have hk : mixChildren W g.mixed_inputs_ C 0 0 =
        (ls.map (Event.under 0) ++ (la.map (Event.under 1) ++ []),
         some ([silent1, active1], v)) := by
      rw [hcs, mixChildren_pair W x y silent1 active1 C ls la 0 v hsilent hactive]
      simp [hmaxv]
    have hns : isSilent W g.state v = false := by simp [isSilent, hvne]
    obtain ⟨l, m2, t1, A, calls, s1, hMF, hOC, hA, hcalls, -, -, hdata⟩ :=
      MixAndFilter_mix W g C hrate _ _ v hk hns
    have hmax : maxVolume v g.state.active_inputs_ = v := by simp [hin, maxVolume]
    simp only [hmax, hvne, if_false, decide_False] at hMF hOC
    refine ⟨l, _, m2.data, d, hMF, ?_, hd, ?_⟩
    · rw [hOC]
      exact filter_isProcessFrames_mix C A calls _ _ hA hcalls rfl rfl
    · intro c f hc hf
      rw [hdata c f hc hf]
      simp [preFilterSample, hin, scaledSum, childrenSum, List.filter_cons, hs1, ha1, hv,
        outputSample, hd]
  · have hk : mixChildren W g.mixed_inputs_ C 0 0 =
        (la.map (Event.under 0) ++ (ls.map (Event.under 1) ++ []),
         some ([active1, silent1], v)) := by
      rw [hcs, mixChildren_pair W x y active1 silent1 C la ls v 0 hactive hsilent]
      simp [hmaxv, le_of_lt hv]
    have hns : isSilent W g.state v = false := by simp [isSilent, hvne]
    obtain ⟨l, m2, t1, A, calls, s1, hMF, hOC, hA, hcalls, -, -, hdata⟩ :=
      MixAndFilter_mix W g C hrate _ _ v hk hns
    have hmax : maxVolume v g.state.active_inputs_ = v := by simp [hin, maxVolume]
    simp only [hmax, hvne, if_false, decide_False] at hMF hOC
    refine ⟨l, _, m2.data, d, hMF, ?_, hd, ?_⟩
    · rw [hOC]
      exact filter_isProcessFrames_mix C A calls _ _ hA hcalls rfl rfl
    · intro c f hc hf
      rw [hdata c f hc hf]
      simp [preFilterSample, hin, scaledSum, childrenSum, List.filter_cons, hs1, ha1, hv,
        outputSample, hd]

/-- Witness of C4 on the example parent over a silent and an active leaf. -/
theorem C4_tree_composition_witness :
    ∃ active1, (MixAndFilter exampleWorld exampleActive 3).2 = some (active1, 1) ∧
      ∃ l g1 buf d,
        MixAndFilter exampleWorld (exampleParent [exampleLeaf 0, exampleActive]) 3 =
          (l, some (g1, 1)) ∧
        (ownCalls l).filter Call.isProcessFrames = [Call.ProcessFrames buf 3 (1) false] ∧
        active1.data = some d ∧
        ∀ c f, c < (exampleParent [exampleLeaf 0, exampleActive]).state.num_channels_ → f < 3 →
          buf c f = d.data c f :=
  ⟨_, rfl, C4_tree_composition exampleWorld (exampleParent [exampleLeaf 0, exampleActive])
    (exampleLeaf 0) exampleActive 3 (exampleLeaf 0) exampleActive _ _ _ _ (1)
    (by decide) rfl rfl (Or.inl ⟨rfl, rfl⟩) rfl rfl rfl (by decide)⟩

/-- C5: when `r ≠ 0` is the sample rate most recently bound by `Initialize`
and `d` the delay the pipeline returned in the group's last `MixAndFilter`
call that ran it, `GetRenderingDelayMicroseconds()` is `d * 1000000 / r` in
64-bit arithmetic with truncating division, which is the exact truncated
quotient when the product fits in 64 bits; after a further `Initialize(r')`
the same `d` is converted with `r'`. -/
theorem C5_rendering_delay (W : Collaborators σ) (g : FilterGroup σ) (d r : Int)
    (h : DelayRate W g d r) (hr : r ≠ 0) :
    GetRenderingDelayMicroseconds g =
      some (wrapInt64 (Int.tdiv (wrapInt64 (d * 1000000)) r)) ∧
    (∀ r' : Int, r' ≠ 0 → GetRenderingDelayMicroseconds (Initialize W g r') =
      some (wrapInt64 (Int.tdiv (wrapInt64 (d * 1000000)) r'))) ∧
    (-2 ^ 63 < d * 1000000 → d * 1000000 < 2 ^ 63 →
      GetRenderingDelayMicroseconds g = some (Int.tdiv (d * 1000000) r) ∧
      ∀ r' : Int, r' ≠ 0 → GetRenderingDelayMicroseconds (Initialize W g r') =
        some (Int.tdiv (d * 1000000) r')) := by
  obtain ⟨hd, hrate⟩ := DelayRate.members W g d r h
  have h1 := GetRenderingDelayMicroseconds_eq g (by rw [hrate]; exact hr)
  rw [hd, hrate] at h1
  have h2 : ∀ r' : Int, r' ≠ 0 → _ := fun r' hr' =>
    GetRenderingDelayMicroseconds_eq (Initialize W g r') hr'
  have hd2 : ∀ r', (Initialize W g r').state.delay_frames_ = d := fun _ => hd
  have hr2 : ∀ r', (Initialize W g r').state.output_samples_per_second_ = r' := fun _ => rfl
  refine ⟨h1.1, fun r' hr' => ?_, fun a b => ⟨h1.2 a b, fun r' hr' => ?_⟩⟩
  · have := (h2 r' hr').1
    rwa [hd2, hr2] at this
  · have := (h2 r' hr').2
    rw [hd2, hr2] at this
    exact this a b

/-- Witness of C5: the example leaf is constructed, initialised at 48000 Hz,
given the example input A, initialised again at 44100 Hz and mixed, the example
pipeline reporting a delay of 480 frames; the delay is 10884 microseconds, and
10000 microseconds after `Initialize(48000)`. -/
theorem C5_rendering_delay_witness :
    ∃ l g1 ret,
      MixAndFilter exampleWorld (Initialize exampleWorld exampleActive 44100) 3 =
        (l, some (g1, ret)) ∧
      (GetRenderingDelayMicroseconds g1 =
        some (wrapInt64 (Int.tdiv (wrapInt64 (480 * 1000000)) 44100)) ∧
      (∀ r' : Int, r' ≠ 0 → GetRenderingDelayMicroseconds (Initialize exampleWorld g1 r') =
        some (wrapInt64 (Int.tdiv (wrapInt64 (480 * 1000000)) r'))) ∧
      (-2 ^ 63 < (480 : Int) * 1000000 → (480 : Int) * 1000000 < 2 ^ 63 →
        GetRenderingDelayMicroseconds g1 = some (Int.tdiv (480 * 1000000) 44100) ∧
        ∀ r' : Int, r' ≠ 0 → GetRenderingDelayMicroseconds (Initialize exampleWorld g1 r') =
          some (Int.tdiv (480 * 1000000) r'))) ∧
      Int.tdiv (480 * 1000000) 44100 = 10884 ∧ Int.tdiv (480 * 1000000) 48000 = 10000 :=
  ⟨_, _, _, rfl,
    C5_rendering_delay exampleWorld _ 480 44100
      (DelayRate.processed (Initialize exampleWorld exampleActive 44100) _ 0 44100 3 _ _ _ _ _ _
        (DelayRate.Initialize _ 0 48000 44100
          (DelayRate.AddActiveInput _ 0 48000 exampleInputA
            (DelayRate.Initialize _ 0 0 48000 (DelayRate.new 2 "leaf" 0 {"a"} []))))
        rfl rfl)
      (by decide),
    by decide, by decide⟩

/-- C6 (first mix, then silence): for a group without children and any chunk
size `C`, (1) `MixAndFilter(C)` with one active input of positive effective
volume returns a positive value; (2) after `ClearActiveInputs()`, the pipeline
reporting not ringing, `MixAndFilter(C)` returns 0, leaves the first `C` frames
of the output buffer zero and the zero counter at `C`; (3) a third
`MixAndFilter(C)` returns 0 again without any `ZeroFramesPartial` call, the
buffer and the counter staying as they were. -/
theorem C6_first_mix_then_silence (W : Collaborators σ) (g : FilterGroup σ) (C : Nat)
    (q : InputQueue)
    (hrate : g.state.output_samples_per_second_ ≠ 0)
    (hleaf : g.mixed_inputs_ = [])
    (hin : g.state.active_inputs_ = [q])
    (hq : 0 < q.EffectiveVolume)
    (hquiet : ∀ l g1 r, MixAndFilter W g C = (l, some (g1, r)) →
      W.IsRinging g1.state.post_processing_pipeline_ = false) :
    ∃ l1 g1 r1 l2 g2 l3 g3,
      MixAndFilter W g C = (l1, some (g1, r1)) ∧ 0 < r1 ∧
      MixAndFilter W (ClearActiveInputs g1) C = (l2, some (g2, 0)) ∧
      OutputZero g2 C ∧ g2.state.frames_zeroed_ = C ∧
      MixAndFilter W g2 C = (l3, some (g3, 0)) ∧
      (ownCalls l3).filter Call.isZeroFramesPartial = [] ∧
      OutputZero g3 C ∧ g3.state.frames_zeroed_ = C := by
  have hrate := DCHECK_NE_of_ne W.DCHECK_IS_ON _ hrate
  -- callback 1
  have hk : mixChildren W g.mixed_inputs_ C 0 0 = ([], some ([], 0)) := by
    rw [hleaf]; rfl
  have hns : isSilent W g.state 0 = false := by simp [isSilent, hin]
  obtain ⟨l1, m2, t1, A1, calls1, s1, hMF1, -, -, -, hs1, -, -⟩ :=
    MixAndFilter_mix W g C hrate [] [] 0 hk hns
  have hmax : maxVolume 0 g.state.active_inputs_ = q.EffectiveVolume := by
    simp [hin, maxVolume, le_of_lt hq]
  have hne : q.EffectiveVolume ≠ 0 := ne_of_gt hq
  simp only [hmax, hne, if_false] at hMF1
  have hring1 : W.IsRinging s1.post_processing_pipeline_ = false := hquiet _ _ _ hMF1
  have hrate1 : DCHECK_NE W.DCHECK_IS_ON s1.output_samples_per_second_ 0 = true := by rw [hs1]; exact hrate
  -- callback 2
  have hk2 : mixChildren W (ClearActiveInputs (FilterGroup.mk s1 [])).mixed_inputs_ C 0 0 =
      ([], some ([], 0)) := rfl
  have hsil2 : isSilent W (ClearActiveInputs (FilterGroup.mk s1 [])).state 0 = true := by
    rw [isSilent_iff]
    exact ⟨rfl, rfl, hring1⟩
  obtain ⟨l2, m, t, A2, -, hmC, hMF2, -, -⟩ :=
    MixAndFilter_silent W (ClearActiveInputs (FilterGroup.mk s1 [])) C hrate1 [] [] 0 hk2 hsil2
  have hfz1 : (ClearActiveInputs (FilterGroup.mk s1 [])).state.frames_zeroed_ = 0 := by
    show s1.frames_zeroed_ = 0
    rw [hs1]; rfl
  rw [hfz1] at hMF2
  -- the group after callback 2
  obtain ⟨s2, hs2, hm2, hz2, hfz2, hin2, hp2, hr2⟩ :
      ∃ s2 : FilterGroupState σ,
        MixAndFilter W (ClearActiveInputs (FilterGroup.mk s1 [])) C =
          (l2, some (FilterGroup.mk s2 [], 0)) ∧
        (∃ mz, s2.mixed_ = some mz ∧ C ≤ mz.frames ∧
          ∀ c f, c < mz.channels → f < C → mz.data c f = 0) ∧
        (∃ tz, s2.temp_ = some tz) ∧
        s2.frames_zeroed_ = C ∧ s2.active_inputs_ = [] ∧
        s2.post_processing_pipeline_ = s1.post_processing_pipeline_ ∧
        s2.output_samples_per_second_ = s1.output_samples_per_second_ := by
    by_cases hC : 0 < C
    · simp only [hC, if_true] at hMF2
      refine ⟨_, hMF2, ⟨_, rfl, hmC, ?_⟩, ⟨_, rfl⟩, rfl, rfl, rfl, rfl⟩
      intro c f _ hf
      simp [AudioBus.ZeroFramesPartial, hf]
    · have hC0 : C = 0 := by omega
      simp only [hC, if_false] at hMF2
      refine ⟨_, hMF2, ⟨_, rfl, hmC, ?_⟩, ⟨_, rfl⟩, ?_, rfl, rfl, rfl⟩
      · intro c f _ hf
        omega
      · show s1.frames_zeroed_ = C
        rw [hC0, hs1]; rfl
  obtain ⟨mz, hmz, hmzC, hzero⟩ := hm2
  -- callback 3
  have hk3 : mixChildren W (FilterGroup.mk s2 []).mixed_inputs_ C 0 0 = ([], some ([], 0)) := rfl
  have hsil3 : isSilent W (FilterGroup.mk s2 []).state 0 = true := by
    rw [isSilent_iff]
    exact ⟨hin2, rfl, by show W.IsRinging s2.post_processing_pipeline_ = false; rw [hp2]; exact hring1⟩
  have hrate2 : DCHECK_NE W.DCHECK_IS_ON (FilterGroup.mk s2 []).state.output_samples_per_second_ 0 =
      true := by
    show DCHECK_NE W.DCHECK_IS_ON s2.output_samples_per_second_ 0 = true
    rw [hr2]; exact hrate1
  obtain ⟨l3, m3, t3, A3, hres3, -, hMF3, hOC3, hA3⟩ :=
    MixAndFilter_silent W (FilterGroup.mk s2 []) C hrate2 [] [] 0 hk3 hsil3
  have hnlt : ¬ (FilterGroup.mk s2 []).state.frames_zeroed_ < C := by
    show ¬ s2.frames_zeroed_ < C
    omega
  simp only [hnlt, if_false] at hMF3 hOC3
  have hm3 : m3 = mz := by
    have h1 := Resize_mixed_keep W s2 C mz hmz hmzC
    have h2 : (ResizeBuffersIfNecessary W s2 C).2.mixed_ = some m3 := by
      have := congrArg FilterGroupState.mixed_ hres3
      exact this
    exact Option.some.inj (h2.symm.trans h1)
  subst hm3
  refine ⟨l1, _, _, l2, _, l3, _, hMF1, hq, hs2, ⟨m3, hmz, hmzC, hzero⟩, hfz2, hMF3, ?_,
    ⟨m3, rfl, hmzC, hzero⟩, hfz2⟩
  rw [hOC3]
  exact filter_isZeroFramesPartial_silent C A3 hA3

/-- Witness of C6 on the example leaf with the example input A, chunk size 3. -/
theorem C6_first_mix_then_silence_witness :
    ∃ l1 g1 r1 l2 g2 l3 g3,
      MixAndFilter exampleWorld exampleActive 3 = (l1, some (g1, r1)) ∧ 0 < r1 ∧
      MixAndFilter exampleWorld (ClearActiveInputs g1) 3 = (l2, some (g2, 0)) ∧
      OutputZero g2 3 ∧ g2.state.frames_zeroed_ = 3 ∧
      MixAndFilter exampleWorld g2 3 = (l3, some (g3, 0)) ∧
      (ownCalls l3).filter Call.isZeroFramesPartial = [] ∧
      OutputZero g3 3 ∧ g3.state.frames_zeroed_ = 3 :=
  C6_first_mix_then_silence exampleWorld exampleActive 3 exampleInputA (by decide) rfl rfl
    (by decide)
    (fun l g1 r h => by
      have e : MixAndFilter exampleWorld exampleActive 3 = (_, some (_, _)) := rfl
      rw [e] at h
      simp only [Prod.mk.injEq, Option.some.injEq] at h
      obtain ⟨-, rfl, -⟩ := h
      rfl)

/-- C7: in a `MixAndFilter` call that does not take the silence early return,
with `m` the maximum of 0, the volumes returned by the children in this call
and the effective volumes of the active inputs: if `m ≠ 0` the last volume
becomes `m` and the call returns `m`; if `m = 0` the last volume is unchanged
and the call returns it. -/
theorem C7_last_volume (W : Collaborators σ) (g : FilterGroup σ) (C : Nat)
    (results : List (FilterGroup σ × ℚ)) (m : ℚ)
    (hrate : g.state.output_samples_per_second_ ≠ 0)
    (hkids : List.Forall₂ (fun child res => ∃ lg, MixAndFilter W child C = (lg, some res))
      g.mixed_inputs_ results)
    (hm : m = (results.map Prod.snd ++
      g.state.active_inputs_.map InputQueue.EffectiveVolume).foldl max 0)
    (hns : isSilent W g.state ((results.map Prod.snd).foldl max 0) = false) :
    ∃ l g1 ret, MixAndFilter W g C = (l, some (g1, ret)) ∧
      (m ≠ 0 → g1.last_volume = m ∧ ret = m) ∧
      (m = 0 → g1.last_volume = g.last_volume ∧ ret = g.last_volume) := by
  have hrate := DCHECK_NE_of_ne W.DCHECK_IS_ON _ hrate
  obtain ⟨log, hk⟩ := mixChildren_of_results W C g.mixed_inputs_ results hkids 0 0
  obtain ⟨l, m2, t1, A, calls, s1, hMF, -, -, -, hs1, -, -⟩ :=
    MixAndFilter_mix W g C hrate log _ _ hk hns
  have hmv : maxVolume ((results.map Prod.snd).foldl max 0) g.state.active_inputs_ = m := by
    rw [hm, List.foldl_append]; rfl
  rw [hmv] at hMF hs1
  have hlv : s1.last_volume_ = if m = 0 then g.state.last_volume_ else m := by
    rw [hs1]
    exact (runPipeline_volume W _ _ _ _ _).2
  refine ⟨l, _, _, hMF, ?_, ?_⟩
  · intro h
    simp only [h, if_false] at hlv ⊢
    exact ⟨hlv, trivial⟩
  · intro h
    simp only [h, if_true] at hlv ⊢
    exact ⟨hlv, rfl⟩

/-- Witness of C7 on the example parent over a silent and an active leaf. -/
theorem C7_last_volume_witness :
    ∃ l g1 ret, MixAndFilter exampleWorld (exampleParent [exampleLeaf 0, exampleActive]) 3 =
        (l, some (g1, ret)) ∧
      ((1 : ℚ) ≠ 0 → g1.last_volume = 1 ∧ ret = 1) ∧
      ((1 : ℚ) = 0 → g1.last_volume = (exampleParent [exampleLeaf 0, exampleActive]).last_volume ∧
        ret = (exampleParent [exampleLeaf 0, exampleActive]).last_volume) :=
  C7_last_volume exampleWorld (exampleParent [exampleLeaf 0, exampleActive]) 3
    [(_, 0), (_, 1)] 1 (by decide)
    (List.Forall₂.cons ⟨_, rfl⟩ (List.Forall₂.cons ⟨_, rfl⟩ List.Forall₂.nil)) rfl rfl

/-- C8 (silence short-circuit): `MixAndFilter(C)` returns 0 without calling
the pipeline's `ProcessFrames` if and only if the active-input list is empty,
the maximum of 0 and the volumes the children returned in this call is exactly
0 and the pipeline reports that it is not ringing; in every other case
`ProcessFrames` is called exactly once. -/
theorem C8_silence_short_circuit (W : Collaborators σ) (g : FilterGroup σ) (C : Nat)
    (results : List (FilterGroup σ × ℚ))
    (hrate : g.state.output_samples_per_second_ ≠ 0)
    (hkids : List.Forall₂ (fun child res => ∃ lg, MixAndFilter W child C = (lg, some res))
      g.mixed_inputs_ results) :
    ∃ l g1 ret, MixAndFilter W g C = (l, some (g1, ret)) ∧
      ((ret = 0 ∧ (ownCalls l).filter Call.isProcessFrames = []) ↔
        (g.state.active_inputs_ = [] ∧ (results.map Prod.snd).foldl max 0 = 0 ∧
          W.IsRinging g.state.post_processing_pipeline_ = false)) ∧
      (¬ (g.state.active_inputs_ = [] ∧ (results.map Prod.snd).foldl max 0 = 0 ∧
          W.IsRinging g.state.post_processing_pipeline_ = false) →
        ((ownCalls l).filter Call.isProcessFrames).length = 1) := by
  have hrate := DCHECK_NE_of_ne W.DCHECK_IS_ON _ hrate
  obtain ⟨log, hk⟩ := mixChildren_of_results W C g.mixed_inputs_ results hkids 0 0
  generalize (results.map Prod.snd).foldl max 0 = vc at hk ⊢
  generalize results.map Prod.fst = cs1 at hk
  by_cases hs : isSilent W g.state vc = true
  · have hcond := (isSilent_iff W g.state vc).1 hs
    obtain ⟨l, m, t, A, -, -, hMF, hOC, hA⟩ := MixAndFilter_silent W g C hrate log cs1 vc hk hs
    refine ⟨l, _, _, hMF, ?_, fun h => absurd hcond h⟩
    rw [hOC, filter_isProcessFrames_silent C A _ hA]
    exact ⟨fun _ => hcond, fun _ => ⟨rfl, rfl⟩⟩
  · have hns : isSilent W g.state vc = false := by simpa using hs
    have hcond : ¬ (g.state.active_inputs_ = [] ∧ vc = 0 ∧
        W.IsRinging g.state.post_processing_pipeline_ = false) :=
      fun h => hs ((isSilent_iff W g.state vc).2 h)
    obtain ⟨l, m2, t1, A, calls, s1, hMF, hOC, hA, hcalls, -, -, -⟩ :=
      MixAndFilter_mix W g C hrate log cs1 vc hk hns
    have hpf := filter_isProcessFrames_mix C A calls (Call.ProcessFrames m2.data C
        (if maxVolume vc g.state.active_inputs_ = 0 then g.state.last_volume_
         else maxVolume vc g.state.active_inputs_)
        (decide (maxVolume vc g.state.active_inputs_ = 0)))
      (Call.Return (if maxVolume vc g.state.active_inputs_ = 0 then g.state.last_volume_
         else maxVolume vc g.state.active_inputs_)) hA hcalls rfl rfl
    refine ⟨l, _, _, hMF, ?_, fun _ => ?_⟩
    · rw [hOC, hpf]
      constructor
      · rintro ⟨-, h⟩
        simp at h
      · intro h
        exact absurd h hcond
    · rw [hOC, hpf]
      rfl

/-- Witness of C8 on the example parent over a silent and an active leaf. -/
theorem C8_silence_short_circuit_witness :
    ∃ l g1 ret,
      MixAndFilter exampleWorld (exampleParent [exampleLeaf 0, exampleActive]) 3 =
        (l, some (g1, ret)) ∧
      ((ret = 0 ∧ (ownCalls l).filter Call.isProcessFrames = []) ↔
        ((exampleParent [exampleLeaf 0, exampleActive]).state.active_inputs_ = [] ∧
          ([0, 1] : List ℚ).foldl max 0 = 0 ∧
          exampleWorld.IsRinging
            (exampleParent [exampleLeaf 0, exampleActive]).state.post_processing_pipeline_ =
              false)) ∧
      (¬ ((exampleParent [exampleLeaf 0, exampleActive]).state.active_inputs_ = [] ∧
          ([0, 1] : List ℚ).foldl max 0 = 0 ∧
          exampleWorld.IsRinging
            (exampleParent [exampleLeaf 0, exampleActive]).state.post_processing_pipeline_ =
              false) →
        ((ownCalls l).filter Call.isProcessFrames).length = 1) :=
  C8_silence_short_circuit exampleWorld (exampleParent [exampleLeaf 0, exampleActive]) 3
    [(_, 0), (_, 1)] (by decide)
    (List.Forall₂.cons ⟨_, rfl⟩ (List.Forall₂.cons ⟨_, rfl⟩ List.Forall₂.nil))

/-- C9: for a group constructed with the device-id set `ids`, whatever was
called on it since, `CanProcessInput(stream)` is true exactly when the stream's
device identifier is in `ids`, and the call leaves the group as it was; in
particular a group constructed with the empty set accepts no stream. -/
theorem C9_CanProcessInput (W : Collaborators σ) (ids : Finset String) (g : FilterGroup σ)
    (input : InputQueue) (h : ConstructedWith W ids g) :
    ((g.CanProcessInput input).1 = true ↔ input.device_id ∈ ids) ∧
    (g.CanProcessInput input).2 = g ∧
    (ids = ∅ → (g.CanProcessInput input).1 = false) := by
  have hids := ConstructedWith.device_ids W ids g h
  refine ⟨by simp [CanProcessInput, hids], rfl, fun he => ?_⟩
  simp [CanProcessInput, hids, he]

/-- Witness of C9 on the example leaf, constructed for device "a", after an
`Initialize`, an `AddActiveInput` and a `MixAndFilter`: it accepts the example
input A (device "a") and rejects the example input B (device "b"). -/
theorem C9_CanProcessInput_witness :
    ∃ l g1 r, MixAndFilter exampleWorld exampleActive 3 = (l, some (g1, r)) ∧
      (((g1.CanProcessInput exampleInputA).1 = true ↔
          exampleInputA.device_id ∈ ({"a"} : Finset String)) ∧
        (g1.CanProcessInput exampleInputA).2 = g1 ∧
        (({"a"} : Finset String) = ∅ → (g1.CanProcessInput exampleInputA).1 = false)) ∧
      (g1.CanProcessInput exampleInputA).1 = true ∧
      (g1.CanProcessInput exampleInputB).1 = false :=
  ⟨_, _, _, rfl,
    C9_CanProcessInput exampleWorld {"a"} _ exampleInputA
      (ConstructedWith.MixAndFilter exampleActive _ 3 _ _
        (ConstructedWith.AddActiveInput _ exampleInputA
          (ConstructedWith.Initialize _ 48000 (ConstructedWith.new 2 "leaf" 0 [])))
        rfl),
    by decide, by decide⟩

/-- C10, counterexample: in a build without `DCHECK`, `MixAndFilter(3)` on a
group that was never initialised (sample rate 0), with one child and one
active input, does not fail: it creates both buffers, calls `MixAndFilter(3)`
on its child, runs the pipeline once and returns the volume 1. -/
theorem C10_release_build_proceeds :
    exampleRelease.DCHECK_IS_ON = false ∧
    (exampleUninitialized.AddActiveInput exampleInputA).state.output_samples_per_second_ = 0 ∧
    ∃ l g1,
      MixAndFilter exampleRelease (exampleUninitialized.AddActiveInput exampleInputA) 3 =
        (l, some (g1, 1)) ∧
      (ownCalls l).filter Call.isCreate = [Call.Create true 2 3, Call.Create false 2 3] ∧
      l.filterMap Event.childEntry = [(0, 3)] ∧
      ((ownCalls l).filter Call.isProcessFrames).length = 1 :=
  ⟨rfl, rfl, _, _, rfl, rfl, rfl, rfl⟩

/-- C10, amended: in a build with `DCHECK` compiled in, `MixAndFilter` on a
group whose sample rate is 0 fails at its first statement: the call is entered
and aborted, nothing else happens (no buffer is created, no child is called,
the pipeline is not run) and no volume is returned. -/
theorem C10_fail_fast (W : Collaborators σ) (g : FilterGroup σ) (C : Nat)
    (hon : W.DCHECK_IS_ON = true)
    (h : g.state.output_samples_per_second_ = 0) :
    MixAndFilter W g C = ([Event.own (Call.MixAndFilter C)], none) := by
  cases g with
  | mk s cs =>
    simp only [state] at h
    simp [MixAndFilter, DCHECK_NE, h, hon]

/-- Witness of C10 on a constructed group that was never initialised, and on
the example leaf initialised with sample rate 0, in the build with `DCHECK`. -/
theorem C10_fail_fast_witness :
    exampleWorld.DCHECK_IS_ON = true ∧
    exampleUninitialized.state.output_samples_per_second_ = 0 ∧
    MixAndFilter exampleWorld exampleUninitialized 3 =
      ([Event.own (Call.MixAndFilter 3)], none) ∧
    MixAndFilter exampleWorld (Initialize exampleWorld (exampleLeaf 0) 0) 3 =
      ([Event.own (Call.MixAndFilter 3)], none) :=
  ⟨rfl, rfl, C10_fail_fast exampleWorld exampleUninitialized 3 rfl rfl,
    C10_fail_fast exampleWorld (Initialize exampleWorld (exampleLeaf 0) 0) 3 rfl rfl⟩

/-- C11 (buffer capacity): after any sequence of calls on a constructed
group in which the returning `MixAndFilter` calls had the chunk sizes `Cs`,
the output buffer and the scratch buffer both hold exactly `max Cs` frames (and
exist, once there was a call); so they hold at least every chunk size
requested so far, and a further `MixAndFilter(C)` call leaves them with
`max (max Cs) C` frames, never fewer than before. -/
theorem C11_buffer_capacity (W : Collaborators σ) (g : FilterGroup σ) (Cs : List Nat)
    (h : MixedWith W g Cs) :
    capacity g.state.mixed_ = Cs.foldl max 0 ∧ capacity g.state.temp_ = Cs.foldl max 0 ∧
    (Cs ≠ [] → ∃ m t, g.state.mixed_ = some m ∧ g.state.temp_ = some t ∧
      m.frames = Cs.foldl max 0 ∧ t.frames = Cs.foldl max 0) ∧
    (∀ C ∈ Cs, C ≤ capacity g.state.mixed_ ∧ C ≤ capacity g.state.temp_) ∧
    (∀ (C : Nat) (l : List Event) (g1 : FilterGroup σ) (r : ℚ),
      MixAndFilter W g C = (l, some (g1, r)) →
      capacity g1.state.mixed_ = max (Cs.foldl max 0) C ∧
      capacity g1.state.temp_ = max (Cs.foldl max 0) C ∧
      capacity g.state.mixed_ ≤ capacity g1.state.mixed_ ∧
      capacity g.state.temp_ ≤ capacity g1.state.temp_) := by
  obtain ⟨h1, h2⟩ := MixedWith.capacity_eq W g Cs h
  refine ⟨h1, h2, fun hne => ?_, fun C hC => ?_, fun C l g1 r hmix => ?_⟩
  · obtain ⟨m, t, hm, ht⟩ := MixedWith.buffers W g Cs h hne
    refine ⟨m, t, hm, ht, ?_, ?_⟩
    · rw [← h1, hm]; rfl
    · rw [← h2, ht]; rfl
  · rw [h1, h2]
    exact ⟨(le_foldl_max Cs 0).2 C hC, (le_foldl_max Cs 0).2 C hC⟩
  · obtain ⟨h3, h4⟩ := MixAndFilter_capacity W g C l g1 r hmix
    rw [h3, h4, h1, h2]
    exact ⟨rfl, rfl, le_max_left _ _, le_max_left _ _⟩

/-- Witness of C11: the example leaf mixed with the chunk sizes 3, 5 and 2
holds 5 frames in both buffers. -/
theorem C11_buffer_capacity_witness :
    ∃ l1 g1 r1 l2 g2 r2 l3 g3 r3,
      MixAndFilter exampleWorld (exampleLeaf 0) 3 = (l1, some (g1, r1)) ∧
      MixAndFilter exampleWorld g1 5 = (l2, some (g2, r2)) ∧
      MixAndFilter exampleWorld g2 2 = (l3, some (g3, r3)) ∧
      ([3, 5, 2] : List Nat).foldl max 0 = 5 ∧
      (capacity g3.state.mixed_ = ([3, 5, 2] : List Nat).foldl max 0 ∧
       capacity g3.state.temp_ = ([3, 5, 2] : List Nat).foldl max 0 ∧
       (([3, 5, 2] : List Nat) ≠ [] → ∃ m t, g3.state.mixed_ = some m ∧ g3.state.temp_ = some t ∧
         m.frames = ([3, 5, 2] : List Nat).foldl max 0 ∧
         t.frames = ([3, 5, 2] : List Nat).foldl max 0) ∧
       (∀ C ∈ ([3, 5, 2] : List Nat),
         C ≤ capacity g3.state.mixed_ ∧ C ≤ capacity g3.state.temp_) ∧
       (∀ (C : Nat) (l : List Event) (g4 : FilterGroup Nat) (r : ℚ),
         MixAndFilter exampleWorld g3 C = (l, some (g4, r)) →
         capacity g4.state.mixed_ = max (([3, 5, 2] : List Nat).foldl max 0) C ∧
         capacity g4.state.temp_ = max (([3, 5, 2] : List Nat).foldl max 0) C ∧
         capacity g3.state.mixed_ ≤ capacity g4.state.mixed_ ∧
         capacity g3.state.temp_ ≤ capacity g4.state.temp_)) :=
  ⟨_, _, _, _, _, _, _, _, _, rfl, rfl, rfl, by decide,
    C11_buffer_capacity exampleWorld _ [3, 5, 2]
      (MixedWith.MixAndFilter _ _ [3, 5] 2 _ _
        (MixedWith.MixAndFilter _ _ [3] 5 _ _
          (MixedWith.MixAndFilter (exampleLeaf 0) _ [] 3 _ _
            (MixedWith.Initialize _ [] 48000 (MixedWith.new 2 "leaf" 0 {"a"} []))
            rfl)
          rfl)
        rfl)⟩

/-- C12 (steady state): for a group whose output and scratch buffers already
hold at least `C` frames, `ResizeBuffersIfNecessary(C)` makes no call (it
creates no buffer) and leaves all data members, so both buffers, their
contents and the per-channel array, as they were, and a returning
`MixAndFilter(C)` makes no `AudioBus::Create` call of its own; whatever the
chunk size `C'`, `ResizeBuffersIfNecessary(C')` creates a buffer only if `C'`
exceeds the capacity of one of the two buffers. -/
theorem C12_steady_state (W : Collaborators σ) (s : FilterGroupState σ) (C : Nat)
    (m t : AudioBus) (hm : s.mixed_ = some m) (ht : s.temp_ = some t)
    (hmC : C ≤ m.frames) (htC : C ≤ t.frames) :
    ResizeBuffersIfNecessary W s C = ([], s) ∧
    (ResizeBuffersIfNecessary W s C).2.mixed_ = some m ∧
    (ResizeBuffersIfNecessary W s C).2.temp_ = some t ∧
    channels_ (ResizeBuffersIfNecessary W s C).2 = channels_ s ∧
    (∀ (cs : List (FilterGroup σ)) (l : List Event) (g1 : FilterGroup σ) (r : ℚ),
      MixAndFilter W (FilterGroup.mk s cs) C = (l, some (g1, r)) →
      (ownCalls l).filter Call.isCreate = []) ∧
    (∀ C' : Nat, (∃ c ∈ (ResizeBuffersIfNecessary W s C').1, c.isCreate = true) →
      m.frames < C' ∨ t.frames < C') := by
  have h1 : tooSmall s.mixed_ C = false := by simp [hm, tooSmall, hmC]
  have h2 : tooSmall s.temp_ C = false := by simp [ht, tooSmall, htC]
  have hres : ResizeBuffersIfNecessary W s C = ([], s) := by
    simp [ResizeBuffersIfNecessary, h1, h2]
  refine ⟨hres, by rw [hres]; exact hm, by rw [hres]; exact ht, by rw [hres], ?_, ?_⟩
  · intro cs l g1 r hmix
    obtain ⟨hrate, log, vc, hk⟩ := MixAndFilter_children W _ C l g1 r hmix
    have hOC := MixAndFilter_ownCalls W _ C hrate log _ vc hk
    rw [hmix, state_mk, hres] at hOC
    have hOC' : ownCalls l = Call.MixAndFilter C :: (mixOwn W s g1.mixed_inputs_ vc C).1 := hOC
    rw [hOC']
    refine List.filter_eq_nil_iff.2 (fun c hc => ?_)
    rcases List.mem_cons.1 hc with rfl | hc
    · simp [Call.isCreate]
    · simp [mixOwn_calls_no_create W s _ vc C c hc]
  · rintro C' ⟨c, hc, -⟩
    by_contra hnot
    have hm' : tooSmall s.mixed_ C' = false := by
      simp only [hm, tooSmall, decide_eq_false_iff_not]; omega
    have ht' : tooSmall s.temp_ C' = false := by
      simp only [ht, tooSmall, decide_eq_false_iff_not]; omega
    simp [ResizeBuffersIfNecessary, hm', ht'] at hc

/-- Witness of C12 on the example leaf after a first call with chunk size 5,
called again with chunk size 3. -/
theorem C12_steady_state_witness :
    ∃ l1 s1 cs1 r1 m t,
      MixAndFilter exampleWorld (exampleLeaf 0) 5 = (l1, some (FilterGroup.mk s1 cs1, r1)) ∧
      s1.mixed_ = some m ∧ s1.temp_ = some t ∧
      (ResizeBuffersIfNecessary exampleWorld s1 3 = ([], s1) ∧
       (ResizeBuffersIfNecessary exampleWorld s1 3).2.mixed_ = some m ∧
       (ResizeBuffersIfNecessary exampleWorld s1 3).2.temp_ = some t ∧
       channels_ (ResizeBuffersIfNecessary exampleWorld s1 3).2 = channels_ s1 ∧
       (∀ (cs : List (FilterGroup Nat)) (l : List Event) (g1 : FilterGroup Nat) (r : ℚ),
         MixAndFilter exampleWorld (FilterGroup.mk s1 cs) 3 = (l, some (g1, r)) →
         (ownCalls l).filter Call.isCreate = []) ∧
       (∀ C' : Nat,
         (∃ c ∈ (ResizeBuffersIfNecessary exampleWorld s1 C').1, c.isCreate = true) →
         m.frames < C' ∨ t.frames < C')) :=
  ⟨_, _, _, _, _, _, rfl, rfl, rfl,
    C12_steady_state exampleWorld _ 3 _ _ rfl rfl (by decide) (by decide)⟩

end FilterGroup

/-! ## Configuration parser: theorems -/

namespace PostProcessingPipelineParser

open base

theorem insertStreams_of_mem (s : String) :
    ∀ (streams : ListValue) (k : Nat) (set : Finset String),
      s ∈ set → streams[k]? = some (Value.string s) → insertStreams streams set = none
  | [], k, set, _, h => by simp at h
  | v :: rest, 0, set, hs, h => by
    simp at h
    subst h
    simp [insertStreams, Value.GetAsString, hs]
  | v :: rest, k + 1, set, hs, h => by
    simp at h
    cases v <;> simp [insertStreams, Value.GetAsString]
    intro _
    exact insertStreams_of_mem s rest k _ (Finset.mem_insert_of_mem hs) h

theorem insertStreams_duplicate (s : String) :
    ∀ (streams : ListValue) (i j : Nat) (set : Finset String),
      i < j → streams[i]? = some (Value.string s) → streams[j]? = some (Value.string s) →
      insertStreams streams set = none
  | [], i, j, set, _, h, _ => by simp at h
  | v :: rest, i, 0, set, hij, _, _ => by omega
  | v :: rest, 0, j + 1, set, _, hi, hj => by
    simp at hi hj
    subst hi
    simp [insertStreams, Value.GetAsString]
    intro _
    exact insertStreams_of_mem s rest j _ (Finset.mem_insert_self _ _) hj
  | v :: rest, i + 1, j + 1, set, hij, hi, hj => by
    simp at hi hj
    cases v <;> simp [insertStreams, Value.GetAsString]
    intro _
    exact insertStreams_duplicate s rest i j _ (by omega) hi hj

theorem insertStreams_distinct :
    ∀ (names : List String) (set : Finset String),
      names.Nodup → (∀ n ∈ names, n ∉ set) →
      insertStreams (names.map Value.string) set = some (set ∪ names.toFinset)
  | [], set, _, _ => by simp [insertStreams]
  | n :: rest, set, hnd, hset => by
    have hn : n ∉ set := hset n (List.mem_cons_self _ _)
    have hnd' := List.nodup_cons.1 hnd
    simp only [List.map_cons, insertStreams, Value.GetAsString, hn, if_false]
    rw [insertStreams_distinct rest (insert n set) hnd'.2]
    · congr 1
      ext x
      simp only [Finset.mem_union, Finset.mem_insert, List.toFinset_cons, List.mem_toFinset]
      tauto
    · intro m hm
      simp only [Finset.mem_insert, not_or]
      refine ⟨?_, hset m (List.mem_cons_of_mem _ hm)⟩
      rintro rfl
      exact hnd'.1 hm

theorem describePipeline_wellFormed (element : Value) (processors : ListValue)
    (names : List String) (h : WellFormedEntry element processors names) (hnd : names.Nodup) :
    describePipeline element = some ⟨processors, names.toFinset⟩ := by
  obtain ⟨dict, hd, hp, hs⟩ := h
  simp only [describePipeline, hd, hp, hs]
  rw [insertStreams_distinct names ∅ hnd (by simp)]
  simp

theorem describePipelines_of_fatal :
    ∀ (entries : ListValue) (acc : List StreamPipelineDescriptor),
      (∃ e ∈ entries, describePipeline e = none) → describePipelines entries acc = none
  | [], _, h => by simp at h
  | v :: rest, acc, h => by
    cases hv : describePipeline v with
    | none => simp [describePipelines, hv]
    | some ds =>
      simp only [describePipelines, hv]
      apply describePipelines_of_fatal
      obtain ⟨e, he, hf⟩ := h
      rcases List.mem_cons.1 he with rfl | he
      · rw [hv] at hf; cases hf
      · exact ⟨e, he, hf⟩

theorem describePipelines_wellFormed (entries : ListValue)
    (specs : List (ListValue × List String))
    (h : List.Forall₂ (fun e sp => WellFormedEntry e sp.1 sp.2 ∧ sp.2.Nodup) entries specs) :
    ∀ acc, describePipelines entries acc =
      some (acc ++ specs.map fun sp => ⟨sp.1, sp.2.toFinset⟩) := by
  induction h with
  | nil => intro acc; simp [describePipelines]
  | @cons e sp es sps hhead _ ih =>
    intro acc
    simp only [describePipelines, describePipeline_wellFormed e sp.1 sp.2 hhead.1 hhead.2, ih,
      List.map_cons, List.append_assoc, List.singleton_append]

theorem describePipeline_missing_list (element : Value) (dict : DictionaryValue)
    (hd : element.GetAsDictionary = some dict)
    (h : DictionaryValue.GetList dict kProcessorsKey = none ∨
      DictionaryValue.GetList dict kStreamsKey = none) :
    describePipeline element = none := by
  simp only [describePipeline, hd]
  rcases h with h | h
  · simp [h]
  · cases hp : DictionaryValue.GetList dict kProcessorsKey <;> simp [h]

theorem describePipeline_duplicate (element : Value) (dict : DictionaryValue)
    (streams : ListValue) (i j : Nat) (s : String)
    (hd : element.GetAsDictionary = some dict)
    (hs : DictionaryValue.GetList dict kStreamsKey = some streams) (hij : i < j)
    (hi : streams[i]? = some (Value.string s)) (hj : streams[j]? = some (Value.string s)) :
    describePipeline element = none := by
  simp only [describePipeline, hd, hs]
  cases hp : DictionaryValue.GetList dict kProcessorsKey with
  | none => rfl
  | some p => simp [insertStreams_duplicate s streams i j ∅ hij hi hj]

end PostProcessingPipelineParser

/-! ## Governor: theorems -/

namespace Governor

theorem slewToward_self (gain distance : ℚ) (h : 0 ≤ distance) :
    slewToward gain gain distance = gain := by
  simp [slewToward, h]

theorem slewStep_nonneg (g : Governor) : 0 ≤ g.slewStep := by
  unfold slewStep
  positivity

theorem gainAt_instant (g : Governor) (h : g.slew_time_ms_ = 0) (target : ℚ) (i : Nat) :
    g.gainAt target i = target := by
  simp [gainAt, h]

theorem gainAt_settled (g : Governor) (h : g.slew_time_ms_ = 0 ∨ g.gain_ = 1) (i : Nat) :
    g.gainAt 1 i = 1 := by
  rcases h with h | h
  · exact gainAt_instant g h 1 i
  · unfold gainAt
    split
    · rfl
    · rw [h]
      exact slewToward_self 1 _ (mul_nonneg (Nat.cast_nonneg i) (slewStep_nonneg g))

theorem ProcessFrames_instant (g : Governor) (h : g.slew_time_ms_ = 0)
    (data : Nat → Nat → ℚ) (frames : Nat) (volume : ℚ) :
    (g.ProcessFrames data frames volume).2.1 =
      ScaleData g.channels_ data frames (g.targetGain volume) := by
  funext c f
  simp [ProcessFrames, ScaleData, gainAt_instant g h]

theorem ScaleData_one (size : Nat) (data : Nat → Nat → ℚ) (frames : Nat) :
    ScaleData size data frames 1 = data := by
  funext c f
  simp [ScaleData]

end Governor

namespace GovernorTest

theorem CompareData_self (size : Nat) (data : Nat → Nat → ℚ) (frames : Nat) :
    CompareData size data data frames = true := by
  simp [CompareData]

theorem SetUp_ProcessFrames (param : ℚ) (sine : Nat → Nat → ℚ) (slew_time_ms : Nat)
    (volume : ℚ) :
    ((SetUp param sine slew_time_ms).ProcessFrames volume).data_ =
      ScaleData kNumChannels sine kNumFrames (if volume < param then 1 else kDefaultClamp) ∧
    ((SetUp param sine slew_time_ms).ProcessFrames volume).expected_ = sine ∧
    ((SetUp param sine slew_time_ms).ProcessFrames volume).passed = true ∧
    ((SetUp param sine slew_time_ms).ProcessFrames volume).onset_volume_ = param ∧
    ((SetUp param sine slew_time_ms).ProcessFrames volume).clamp_ = kDefaultClamp := by
  refine ⟨?_, rfl, ?_, rfl, rfl⟩
  · exact Governor.ProcessFrames_instant _ rfl sine kNumFrames volume
  · simp [ProcessFrames, SetUp, Governor.ProcessFrames]

/-- The four tests pass on the modelled governor for every test parameter. -/
theorem tests_pass (param : ℚ) (sine : Nat → Nat → ℚ) (slew_time_ms : Nat) :
    ZeroVolume (SetUp param sine slew_time_ms) = true ∧
    EpsilonBelowOnset (SetUp param sine slew_time_ms) = true ∧
    EpsilonAboveOnset (SetUp param sine slew_time_ms) = true ∧
    MaxVolume (SetUp param sine slew_time_ms) = true := by
  have heps : (0 : ℚ) < epsilon := by norm_num [epsilon]
  refine ⟨?_, ?_, ?_, ?_⟩
  · obtain ⟨hd, he, hp, ho, hc⟩ := SetUp_ProcessFrames param sine slew_time_ms 0
    unfold ZeroVolume
    simp only [ho]
    by_cases h : param ≤ 0
    · simp only [h, if_true, CompareBuffers, scaleExpected, hd, he, hp, hc, not_lt.2 h, if_false,
        CompareData_self, Bool.and_self]
    · simp only [h, if_false, CompareBuffers, hd, he, hp, not_le.1 h, if_true,
        Governor.ScaleData_one, CompareData_self, Bool.and_self]
  · obtain ⟨hd, he, hp, ho, hc⟩ :=
      SetUp_ProcessFrames param sine slew_time_ms (param - epsilon)
    have hlt : param - epsilon < param := by linarith
    have ho' : (SetUp param sine slew_time_ms).onset_volume_ = param := rfl
    unfold EpsilonBelowOnset
    simp only [ho', CompareBuffers, hd, he, hp, hlt, if_true, Governor.ScaleData_one,
      CompareData_self, Bool.and_self]
  · obtain ⟨hd, he, hp, ho, hc⟩ :=
      SetUp_ProcessFrames param sine slew_time_ms (param + epsilon)
    have hlt : ¬ param + epsilon < param := by linarith
    have ho' : (SetUp param sine slew_time_ms).onset_volume_ = param := rfl
    unfold EpsilonAboveOnset
    simp only [ho', CompareBuffers, scaleExpected, hd, he, hp, hc, hlt, if_false,
      CompareData_self, Bool.and_self]
  · obtain ⟨hd, he, hp, ho, hc⟩ := SetUp_ProcessFrames param sine slew_time_ms 1
    unfold MaxVolume
    simp only [ho]
    by_cases h : param ≤ 1
    · simp only [h, if_true, CompareBuffers, scaleExpected, hd, he, hp, hc, not_lt.2 h, if_false,
        CompareData_self, Bool.and_self]
    · simp only [h, if_false, CompareBuffers, hd, he, hp, not_le.1 h, if_true,
        Governor.ScaleData_one, CompareData_self, Bool.and_self]

end GovernorTest

/-! ## Configuration parser: claims -/

namespace PostProcessingPipelineParser

open base

/-- C14: when the parser is constructed with an empty JSON string and the
default configuration file does not exist, construction succeeds,
`GetStreamPipelines` returns an empty list, and `GetMixPipeline` and
`GetLinearizePipeline` both return null, none of them failing a check. -/
theorem C14_missing_configuration (src : ConfigSource)
    (h : src.PathExists kPostProcessingPipelineFilePath = false) :
    ∃ p, new src "" = some p ∧ p.config_dict_ = none ∧
      p.GetStreamPipelines = some [] ∧
      p.GetMixPipeline = some none ∧ p.GetLinearizePipeline = some none := by
  refine ⟨{ config_dict_ := none }, ?_, rfl, rfl, rfl, rfl⟩
  have he : ("" : String).isEmpty = true := by decide
  simp [new, he, h]

theorem C14_missing_configuration_witness :
    exampleNoFile.PathExists kPostProcessingPipelineFilePath = false ∧
    ∃ p, new exampleNoFile "" = some p ∧ p.config_dict_ = none ∧
      p.GetStreamPipelines = some [] ∧
      p.GetMixPipeline = some none ∧ p.GetLinearizePipeline = some none :=
  ⟨rfl, C14_missing_configuration exampleNoFile rfl⟩

/-- C15, counterexample: a parser is constructed from a JSON object whose
`"mix"` object has no `"processors"` key, and `GetMixPipeline` fails a fatal
check; another is constructed from a JSON object whose `"output_streams"`
entry has no `"streams"` key, and `GetStreamPipelines` fails a fatal check. -/
theorem C15_missing_inner_key_is_fatal :
    (∃ p, new (exampleSourceOf (Value.dictionary exampleMixWithoutProcessors)) "" = some p ∧
      DictionaryValue.GetDictionary exampleMixWithoutProcessors kMixPipelineKey = some [] ∧
      p.GetMixPipeline = none) ∧
    (∃ p, new (exampleSourceOf (Value.dictionary exampleEntryWithoutStreams)) "" = some p ∧
      p.GetStreamPipelines = none) :=
  ⟨⟨{ config_dict_ := some exampleMixWithoutProcessors }, rfl, rfl, rfl⟩,
   ⟨{ config_dict_ := some exampleEntryWithoutStreams }, rfl, rfl⟩⟩

/-- C15, amended: for every configuration object, when `"output_streams"` is
absent `GetStreamPipelines` returns an empty list, and when `"mix"` or
`"linearize"` is absent `GetMixPipeline` or `GetLinearizePipeline` returns
null, without a fatal check failure; but a `"mix"` or `"linearize"` object
without a `"processors"` list, and an `"output_streams"` entry without a
`"processors"` or a `"streams"` list, fail a fatal check. -/
theorem C15_missing_top_level_keys (d : DictionaryValue) :
    (d.lookup kOutputStreamsKey = none →
      GetStreamPipelines { config_dict_ := some d } = some []) ∧
    (d.lookup kMixPipelineKey = none →
      GetMixPipeline { config_dict_ := some d } = some none) ∧
    (d.lookup kLinearizePipelineKey = none →
      GetLinearizePipeline { config_dict_ := some d } = some none) ∧
    (∀ stream_dict, DictionaryValue.GetDictionary d kMixPipelineKey = some stream_dict →
      stream_dict.lookup kProcessorsKey = none →
      GetMixPipeline { config_dict_ := some d } = none) ∧
    (∀ stream_dict, DictionaryValue.GetDictionary d kLinearizePipelineKey = some stream_dict →
      stream_dict.lookup kProcessorsKey = none →
      GetLinearizePipeline { config_dict_ := some d } = none) ∧
    (∀ pipelines_list, DictionaryValue.GetList d kOutputStreamsKey = some pipelines_list →
      (∃ e ∈ pipelines_list, ∃ dict, e.GetAsDictionary = some dict ∧
        (dict.lookup kProcessorsKey = none ∨ dict.lookup kStreamsKey = none)) →
      GetStreamPipelines { config_dict_ := some d } = none) := by
  refine ⟨?_, ?_, ?_, ?_, ?_, ?_⟩
  · intro h
    simp [GetStreamPipelines, DictionaryValue.GetList, h]
  · intro h
    simp [GetMixPipeline, GetPipelineByKey, DictionaryValue.GetDictionary, h]
  · intro h
    simp [GetLinearizePipeline, GetPipelineByKey, DictionaryValue.GetDictionary, h]
  · intro sd hsd h
    simp [GetMixPipeline, GetPipelineByKey, hsd, DictionaryValue.GetList, h]
  · intro sd hsd h
    simp [GetLinearizePipeline, GetPipelineByKey, hsd, DictionaryValue.GetList, h]
  · rintro l hl ⟨e, he, dict, hd, h⟩
    simp only [GetStreamPipelines, hl]
    refine describePipelines_of_fatal l [] ⟨e, he, describePipeline_missing_list e dict hd ?_⟩
    rcases h with h | h
    · exact Or.inl (by simp [DictionaryValue.GetList, h])
    · exact Or.inr (by simp [DictionaryValue.GetList, h])

theorem C15_missing_top_level_keys_witness :
    GetStreamPipelines { config_dict_ := some exampleMixWithoutProcessors } = some [] ∧
    GetLinearizePipeline { config_dict_ := some exampleMixWithoutProcessors } = some none ∧
    GetMixPipeline { config_dict_ := some exampleMixWithoutProcessors } = none ∧
    GetStreamPipelines { config_dict_ := some exampleEntryWithoutStreams } = none :=
  ⟨(C15_missing_top_level_keys exampleMixWithoutProcessors).1 rfl,
   (C15_missing_top_level_keys exampleMixWithoutProcessors).2.2.1 rfl,
   (C15_missing_top_level_keys exampleMixWithoutProcessors).2.2.2.1 [] rfl rfl,
   (C15_missing_top_level_keys exampleEntryWithoutStreams).2.2.2.2.2 _ rfl
     ⟨_, List.mem_singleton_self _, _, rfl, Or.inr rfl⟩⟩

/-- C16: when some entry of `"output_streams"` holds the same stream-type
string at two positions of its `"streams"` list, `GetStreamPipelines` fails a
fatal check and returns no descriptors; when every entry is well formed and
the stream-type strings of each entry are pairwise distinct, it returns
descriptors. -/
theorem C16_duplicate_stream_type (d : DictionaryValue) (pipelines_list : ListValue)
    (hl : DictionaryValue.GetList d kOutputStreamsKey = some pipelines_list) :
    ((∃ e ∈ pipelines_list, ∃ (dict : DictionaryValue) (streams : ListValue) (i j : Nat) (s : String),
        e.GetAsDictionary = some dict ∧
        DictionaryValue.GetList dict kStreamsKey = some streams ∧ i < j ∧
        streams[i]? = some (Value.string s) ∧ streams[j]? = some (Value.string s)) →
      GetStreamPipelines { config_dict_ := some d } = none) ∧
    (∀ specs : List (ListValue × List String),
      List.Forall₂ (fun e sp => WellFormedEntry e sp.1 sp.2 ∧ sp.2.Nodup) pipelines_list specs →
      ∃ descriptors, GetStreamPipelines { config_dict_ := some d } = some descriptors) := by
  constructor
  · rintro ⟨e, he, dict, streams, i, j, s, hd, hs, hij, hi, hj⟩
    simp only [GetStreamPipelines, hl]
    exact describePipelines_of_fatal pipelines_list []
      ⟨e, he, describePipeline_duplicate e dict streams i j s hd hs hij hi hj⟩
  · intro specs h
    simp only [GetStreamPipelines, hl]
    exact ⟨_, describePipelines_wellFormed pipelines_list specs h []⟩

theorem C16_duplicate_stream_type_witness :
    GetStreamPipelines { config_dict_ := some exampleDuplicateStreams } = none ∧
    ∃ descriptors,
      GetStreamPipelines { config_dict_ := some exampleTwoEntries } = some descriptors :=
  ⟨(C16_duplicate_stream_type exampleDuplicateStreams _ rfl).1
     ⟨_, List.mem_singleton_self _, _, _, 0, 2, "a", rfl, rfl, by decide, rfl, rfl⟩,
   (C16_duplicate_stream_type exampleTwoEntries _ rfl).2
     [([Value.string "p", Value.string "q"], ["a", "b"]), ([], ["c"])]
     (List.Forall₂.cons ⟨⟨_, rfl, rfl, rfl⟩, by decide⟩
       (List.Forall₂.cons ⟨⟨_, rfl, rfl, rfl⟩, by decide⟩ List.Forall₂.nil))⟩

/-- C17: when the `"output_streams"` list has n well-formed entries, entry i
holding the `"processors"` list `specs[i].1` and the pairwise distinct
stream-type strings `specs[i].2`, `GetStreamPipelines` returns exactly n
descriptors, and descriptor i carries the list `specs[i].1` unchanged and the
set of the strings `specs[i].2`. -/
theorem C17_descriptors (d : DictionaryValue) (pipelines_list : ListValue)
    (specs : List (ListValue × List String))
    (hl : DictionaryValue.GetList d kOutputStreamsKey = some pipelines_list)
    (h : List.Forall₂ (fun e sp => WellFormedEntry e sp.1 sp.2 ∧ sp.2.Nodup)
      pipelines_list specs) :
    ∃ descriptors : List StreamPipelineDescriptor,
      GetStreamPipelines { config_dict_ := some d } = some descriptors ∧
      descriptors = specs.map (fun sp => ⟨sp.1, sp.2.toFinset⟩) ∧
      descriptors.length = pipelines_list.length ∧
      ∀ (i : Nat) (sp : ListValue × List String), specs[i]? = some sp →
        ∃ descriptor : StreamPipelineDescriptor, descriptors[i]? = some descriptor ∧
          descriptor.pipeline = sp.1 ∧ ∀ name, name ∈ descriptor.stream_types ↔ name ∈ sp.2 := by
  refine ⟨_, ?_, rfl, ?_, ?_⟩
  · simp only [GetStreamPipelines, hl]
    simpa using describePipelines_wellFormed pipelines_list specs h []
  · simp [h.length_eq]
  · intro i sp hi
    exact ⟨⟨sp.1, sp.2.toFinset⟩, by simp [hi], rfl, fun name => by simp⟩

theorem C17_descriptors_witness :
    ∃ descriptors,
      GetStreamPipelines { config_dict_ := some exampleTwoEntries } = some descriptors ∧
      descriptors =
        [([Value.string "p", Value.string "q"], ["a", "b"]), ([], ["c"])].map
          (fun sp => ⟨sp.1, sp.2.toFinset⟩) ∧
      descriptors.length = 2 ∧
      ∀ (i : Nat) (sp : ListValue × List String),
        [([Value.string "p", Value.string "q"], ["a", "b"]), ([], ["c"])][i]? = some sp →
        ∃ descriptor : StreamPipelineDescriptor, descriptors[i]? = some descriptor ∧
          descriptor.pipeline = sp.1 ∧ ∀ name, name ∈ descriptor.stream_types ↔ name ∈ sp.2 :=
  C17_descriptors exampleTwoEntries _ _ rfl
    (List.Forall₂.cons ⟨⟨_, rfl, rfl, rfl⟩, by decide⟩
      (List.Forall₂.cons ⟨⟨_, rfl, rfl, rfl⟩, by decide⟩ List.Forall₂.nil))

end PostProcessingPipelineParser

/-! ## Governor: claims -/

namespace Governor

/-- C18: for every onset volume and clamp multiplier, with slew time 0, and
for every input buffer and frame count, `ProcessFrames` with a volume strictly
below the onset volume leaves every sample of every channel unchanged. -/
theorem C18_below_onset (g : Governor) (hs : g.slew_time_ms_ = 0)
    (data : Nat → Nat → ℚ) (frames : Nat) (volume : ℚ) (hv : volume < g.onset_volume_) :
    (g.ProcessFrames data frames volume).2.1 = data ∧
    (∀ c f, (g.ProcessFrames data frames volume).2.1 c f = data c f) ∧
    (g.ProcessFrames data frames volume).1.gain_ = 1 := by
  have hout : (g.ProcessFrames data frames volume).2.1 = data := by
    rw [ProcessFrames_instant g hs, targetGain, if_pos hv, ScaleData_one]
  refine ⟨hout, fun c f => by rw [hout], ?_⟩
  show g.gainAt (g.targetGain volume) frames = 1
  rw [gainAt_instant g hs, targetGain, if_pos hv]

theorem C18_below_onset_witness :
    exampleGovernor.slew_time_ms_ = 0 ∧ (1 / 2 : ℚ) < exampleGovernor.onset_volume_ ∧
    (exampleGovernor.ProcessFrames exampleBuffer 3 (1 / 2)).2.1 = exampleBuffer ∧
    (∀ c f, (exampleGovernor.ProcessFrames exampleBuffer 3 (1 / 2)).2.1 c f =
      exampleBuffer c f) ∧
    (exampleGovernor.ProcessFrames exampleBuffer 3 (1 / 2)).1.gain_ = 1 :=
  ⟨rfl, by norm_num [exampleGovernor, new, SetSampleRate],
   C18_below_onset exampleGovernor rfl exampleBuffer 3 (1 / 2)
     (by norm_num [exampleGovernor, new, SetSampleRate])⟩

/-- C19: for every onset volume V and clamp multiplier M, with slew time 0,
and for every input buffer, `ProcessFrames` with a volume greater than or
equal to V multiplies every sample of every channel by M; volume 0 is clamped
when V ≤ 0 and left unchanged when 0 < V, volume 1 is clamped when V ≤ 1 and
left unchanged when 1 < V; and when M is not 1, a non-zero sample is multiplied
by M exactly when the volume is greater than or equal to V. -/
theorem C19_at_or_above_onset (g : Governor) (hs : g.slew_time_ms_ = 0)
    (data : Nat → Nat → ℚ) (frames : Nat) :
    (∀ volume, g.onset_volume_ ≤ volume →
      (g.ProcessFrames data frames volume).2.1 =
        ScaleData g.channels_ data frames g.clamp_multiplier_ ∧
      (∀ c f, c < g.channels_ → f < frames →
        (g.ProcessFrames data frames volume).2.1 c f = data c f * g.clamp_multiplier_) ∧
      (g.ProcessFrames data frames volume).1.gain_ = g.clamp_multiplier_) ∧
    (g.onset_volume_ ≤ 0 →
      (g.ProcessFrames data frames 0).2.1 =
        ScaleData g.channels_ data frames g.clamp_multiplier_) ∧
    (0 < g.onset_volume_ → (g.ProcessFrames data frames 0).2.1 = data) ∧
    (g.onset_volume_ ≤ 1 →
      (g.ProcessFrames data frames 1).2.1 =
        ScaleData g.channels_ data frames g.clamp_multiplier_) ∧
    (1 < g.onset_volume_ → (g.ProcessFrames data frames 1).2.1 = data) ∧
    (g.clamp_multiplier_ ≠ 1 → ∀ volume c f, c < g.channels_ → f < frames → data c f ≠ 0 →
      ((g.ProcessFrames data frames volume).2.1 c f = data c f * g.clamp_multiplier_ ↔
        g.onset_volume_ ≤ volume)) := by
  have hge : ∀ volume, g.onset_volume_ ≤ volume →
      (g.ProcessFrames data frames volume).2.1 =
        ScaleData g.channels_ data frames g.clamp_multiplier_ := by
    intro volume hv
    rw [ProcessFrames_instant g hs, targetGain, if_neg (not_lt.2 hv)]
  have hlt : ∀ volume, volume < g.onset_volume_ →
      (g.ProcessFrames data frames volume).2.1 = data := by
    intro volume hv
    rw [ProcessFrames_instant g hs, targetGain, if_pos hv, ScaleData_one]
  refine ⟨?_, hge 0, hlt 0, hge 1, hlt 1, ?_⟩
  · intro volume hv
    refine ⟨hge volume hv, ?_, ?_⟩
    · intro c f hc hf
      rw [hge volume hv]
      simp [ScaleData, hc, hf]
    · show g.gainAt (g.targetGain volume) frames = g.clamp_multiplier_
      rw [gainAt_instant g hs, targetGain, if_neg (not_lt.2 hv)]
  · intro hM volume c f hc hf hne
    constructor
    · intro h
      by_contra hv
      rw [hlt volume (not_le.1 hv)] at h
      exact hM (mul_left_cancel₀ hne (by rw [← h, mul_one]))
    · intro hv
      rw [hge volume hv]
      simp [ScaleData, hc, hf]

theorem C19_at_or_above_onset_witness :
    exampleGovernor.slew_time_ms_ = 0 ∧ exampleGovernor.onset_volume_ ≤ 1 ∧
    (exampleGovernor.ProcessFrames exampleBuffer 3 1).2.1 =
      ScaleData 2 exampleBuffer 3 (3 / 5) ∧
    (0 < exampleGovernor.onset_volume_ ∧
      (exampleGovernor.ProcessFrames exampleBuffer 3 0).2.1 = exampleBuffer) :=
  ⟨rfl, le_of_eq rfl,
   (C19_at_or_above_onset exampleGovernor rfl exampleBuffer 3).2.2.2.1 (le_of_eq rfl),
   by norm_num [exampleGovernor, new, SetSampleRate],
   (C19_at_or_above_onset exampleGovernor rfl exampleBuffer 3).2.2.1
     (by norm_num [exampleGovernor, new, SetSampleRate])⟩

/-- C20, counterexample: a governor with onset volume exactly 1, clamp
multiplier 3/5 and slew time 0 processes a buffer at volume 1, and the sample
1 at channel 0, frame 0 comes out as 3/5 (the unit test `MaxVolume`, which
expects scaled samples for the parameter 1, passes); and a governor with
onset volume 11/10, a slew time of 150 ms and a gain that an earlier call
brought down to 1/2 processes the buffer at volume 1, and the same sample
comes out as 1/2. -/
theorem C20_onset_one_is_clamped :
    (exampleGovernor.onset_volume_ = 1 ∧ exampleGovernor.slew_time_ms_ = 0 ∧
      exampleBuffer 0 0 = 1 ∧
      (exampleGovernor.ProcessFrames exampleBuffer 3 1).2.1 0 0 = 3 / 5 ∧
      (exampleGovernor.ProcessFrames exampleBuffer 3 1).2.1 ≠ exampleBuffer ∧
      GovernorTest.MaxVolume (GovernorTest.SetUp 1 exampleBuffer 0) = true) ∧
    (1 < exampleClamped.onset_volume_ ∧ exampleClamped.slew_time_ms_ = 150 ∧
      exampleClamped.gain_ = 1 / 2 ∧
      (exampleClamped.ProcessFrames exampleBuffer 3 1).2.1 0 0 = 1 / 2 ∧
      (exampleClamped.ProcessFrames exampleBuffer 3 1).2.1 ≠ exampleBuffer) := by
  have h0 : exampleBuffer 0 0 = 1 := by norm_num [exampleBuffer]
  have hout : (exampleGovernor.ProcessFrames exampleBuffer 3 1).2.1 0 0 = 3 / 5 := by
    rw [ProcessFrames_instant exampleGovernor rfl]
    have ht : exampleGovernor.targetGain 1 = 3 / 5 := by
      norm_num [targetGain, exampleGovernor, new, SetSampleRate]
    have hc : exampleGovernor.channels_ = 2 := rfl
    rw [ht, hc]
    norm_num [ScaleData, exampleBuffer]
  have hgain : exampleClamped.gain_ = 1 / 2 := by
    norm_num [exampleClamped, ProcessFrames, gainAt, targetGain, slewToward, slewStep, new,
      SetSampleRate]
  have hV : exampleClamped.onset_volume_ = 11 / 10 := rfl
  have hslew : exampleClamped.slew_time_ms_ = 150 := rfl
  have hch : exampleClamped.channels_ = 2 := rfl
  have hout2 : (exampleClamped.ProcessFrames exampleBuffer 3 1).2.1 0 0 = 1 / 2 := by
    simp only [ProcessFrames, gainAt, targetGain, hV, hslew, hch, hgain, h0]
    norm_num [slewToward]
  refine ⟨⟨rfl, rfl, h0, hout, ?_, (GovernorTest.tests_pass 1 exampleBuffer 0).2.2.2⟩,
    ⟨by rw [hV]; norm_num, hslew, hgain, hout2, ?_⟩⟩
  · intro h
    rw [h, h0] at hout
    norm_num at hout
  · intro h
    rw [h, h0] at hout2
    norm_num at hout2

/-- C20, amended: for every governor whose onset volume is strictly above 1,
and whose slew time is 0 or whose gain is 1, `ProcessFrames` with volume 1
leaves every sample unchanged (and leaves the gain at 1). -/
theorem C20_onset_above_one (g : Governor) (h : g.slew_time_ms_ = 0 ∨ g.gain_ = 1)
    (hV : 1 < g.onset_volume_) (data : Nat → Nat → ℚ) (frames : Nat) :
    (g.ProcessFrames data frames 1).2.1 = data ∧
    (g.ProcessFrames data frames 1).1.gain_ = 1 := by
  have ht : g.targetGain 1 = 1 := by rw [targetGain, if_pos hV]
  constructor
  · funext c f
    simp [ProcessFrames, ht, gainAt_settled g h]
  · show g.gainAt (g.targetGain 1) frames = 1
    rw [ht, gainAt_settled g h]

/-- Witness of C20 on a freshly constructed governor with onset volume 11/10
and a slew time of 150 ms. -/
theorem C20_onset_above_one_witness :
    1 < (new (11 / 10) (3 / 5) 2 150).onset_volume_ ∧
    ((new (11 / 10) (3 / 5) 2 150).ProcessFrames exampleBuffer 3 1).2.1 = exampleBuffer ∧
    ((new (11 / 10) (3 / 5) 2 150).ProcessFrames exampleBuffer 3 1).1.gain_ = 1 :=
  ⟨by norm_num [new],
   C20_onset_above_one (new (11 / 10) (3 / 5) 2 150) (Or.inr rfl) (by norm_num [new])
     exampleBuffer 3⟩

end Governor

/-! ## FilterGroup: further claims -/

namespace FilterGroup

variable {σ : Type}

/-- C22 (strict post-order): on a tree in which every group has a bound
sample rate, a call `MixAndFilter(C)` on a group returns, and its log is: the
entry and the allocations of the group; then, for each child in child-list
order, the complete log of that child's `MixAndFilter(C)` call, from its entry
to its return; and only then the calls of the group's own work (zero-fill,
input pulls, accumulation of child buffers, pipeline run), ending with the
return. The log holds exactly one entry of a child's call per child, with
chunk size `C`, in child-list order, whether or not the group then takes the
silence early return. -/
theorem C22_post_order (W : Collaborators σ) (g : FilterGroup σ) (C : Nat)
    (hinit : Initialized g = true) :
    ∃ (l : List Event) (g1 : FilterGroup σ) (ret : ℚ) (A body : List Call),
      MixAndFilter W g C = (l, some (g1, ret)) ∧
      l = Event.own (Call.MixAndFilter C) :: A.map Event.own ++
        childLogs W g.mixed_inputs_ C 0 ++ (body ++ [Call.Return ret]).map Event.own ∧
      (∀ c ∈ A, c.isCreate = true) ∧
      (∀ c ∈ body, c.isMixAndFilter = false ∧ c.isCreate = false ∧ c.isReturn = false) ∧
      (∀ e ∈ childLogs W g.mixed_inputs_ C 0, e.path ≠ []) ∧
      l.filterMap Event.childEntry =
        (List.range g.mixed_inputs_.length).map (fun i => (i, C)) ∧
      List.Forall₂
        (fun child child1 => ∃ lg r, MixAndFilter W child C = (lg, some (child1, r)) ∧
          lg.head? = some (Event.own (Call.MixAndFilter C)) ∧
          lg.getLast? = some (Event.own (Call.Return r)))
        g.mixed_inputs_ g1.mixed_inputs_ := by
  obtain ⟨l, g1, ret, hmix⟩ := returns_of_initialized W C g hinit
  obtain ⟨A, body, hl, hA, hbody⟩ := MixAndFilter_log W g C l g1 ret hmix
  obtain ⟨-, log, vc, hk⟩ := MixAndFilter_children W g C l g1 ret hmix
  obtain ⟨-, hkids⟩ := mixChildren_returns W _ _ _ _ _ _ _ hk
  refine ⟨l, g1, ret, A, body, hmix, hl, hA, hbody, childLogs_path W _ C 0, ?_, ?_⟩
  · have h1 : (A.map Event.own).filterMap Event.childEntry = [] := by
      rw [List.filterMap_eq_nil_iff]
      intro e he
      simp only [List.mem_map] at he
      obtain ⟨c, -, rfl⟩ := he
      rfl
    have h3 : ((body ++ [Call.Return ret]).map Event.own).filterMap Event.childEntry = [] := by
      rw [List.filterMap_eq_nil_iff]
      intro e he
      simp only [List.mem_map] at he
      obtain ⟨c, -, rfl⟩ := he
      rfl
    obtain ⟨B, hB⟩ : ∃ B, B = (body ++ [Call.Return ret]).map Event.own := ⟨_, rfl⟩
    rw [← hB] at h3
    rw [hl, ← hB]
    simp only [List.filterMap_cons, List.filterMap_append, childEntry_own, h1, h3,
      childLogs_entries W _ _ C 0 hkids, List.append_nil, List.nil_append,
      List.range_eq_range']
  · refine hkids.imp ?_
    rintro child child1 ⟨lg, r, hcall⟩
    exact ⟨lg, r, hcall, MixAndFilter_log_ends W child C lg child1 r hcall⟩

/-- Witness of C22 on the example parent over a silent and an active leaf. -/
theorem C22_post_order_witness :
    Initialized (exampleParent [exampleLeaf 0, exampleActive]) = true ∧
    ∃ (l : List Event) (g1 : FilterGroup Nat) (ret : ℚ) (A body : List Call),
      MixAndFilter exampleWorld (exampleParent [exampleLeaf 0, exampleActive]) 3 =
        (l, some (g1, ret)) ∧
      l = Event.own (Call.MixAndFilter 3) :: A.map Event.own ++
        childLogs exampleWorld (exampleParent [exampleLeaf 0, exampleActive]).mixed_inputs_ 3 0
        ++ (body ++ [Call.Return ret]).map Event.own ∧
      (∀ c ∈ A, c.isCreate = true) ∧
      (∀ c ∈ body, c.isMixAndFilter = false ∧ c.isCreate = false ∧ c.isReturn = false) ∧
      (∀ e ∈ childLogs exampleWorld
        (exampleParent [exampleLeaf 0, exampleActive]).mixed_inputs_ 3 0, e.path ≠ []) ∧
      l.filterMap Event.childEntry =
        (List.range (exampleParent [exampleLeaf 0, exampleActive]).mixed_inputs_.length).map
          (fun i => (i, 3)) ∧
      List.Forall₂
        (fun child child1 => ∃ lg r,
          MixAndFilter exampleWorld child 3 = (lg, some (child1, r)) ∧
          lg.head? = some (Event.own (Call.MixAndFilter 3)) ∧
          lg.getLast? = some (Event.own (Call.Return r)))
        (exampleParent [exampleLeaf 0, exampleActive]).mixed_inputs_ g1.mixed_inputs_ :=
  ⟨rfl, C22_post_order exampleWorld (exampleParent [exampleLeaf 0, exampleActive]) 3 rfl⟩

/-- C23: in every returning `MixAndFilter(C)` call that does not take the
silence early return, the pipeline's `ProcessFrames` is called once, with
frame count `C`, with the last volume the group has after the call as volume,
and with `is_silence` true if and only if the maximum of 0, the volumes the
children returned in this call and the effective volumes of the active inputs
is exactly 0 (when none of these volumes is negative: iff all of them are 0);
the delay in frames of the group becomes what that `ProcessFrames` call
returns, and the call returns the last volume. -/
theorem C23_pipeline_arguments (W : Collaborators σ) (g : FilterGroup σ) (C : Nat)
    (results : List (FilterGroup σ × ℚ)) (l : List Event) (g1 : FilterGroup σ) (ret : ℚ)
    (hkids : List.Forall₂ (fun child res => ∃ lg, MixAndFilter W child C = (lg, some res))
      g.mixed_inputs_ results)
    (hmix : MixAndFilter W g C = (l, some (g1, ret)))
    (hpf : (ownCalls l).filter Call.isProcessFrames ≠ []) :
    ∃ buf sil,
      (ownCalls l).filter Call.isProcessFrames =
        [Call.ProcessFrames buf C g1.last_volume sil] ∧
      (sil = true ↔ (results.map Prod.snd ++
        g.state.active_inputs_.map InputQueue.EffectiveVolume).foldl max 0 = 0) ∧
      ((∀ v ∈ results.map Prod.snd ++ g.state.active_inputs_.map InputQueue.EffectiveVolume,
          0 ≤ v) →
        (sil = true ↔ ∀ v ∈ results.map Prod.snd ++
          g.state.active_inputs_.map InputQueue.EffectiveVolume, v = 0)) ∧
      g1.state.delay_frames_ = (W.ProcessFrames g.state.post_processing_pipeline_ buf
        g.state.num_channels_ C g1.last_volume sil).2.2 ∧
      ret = g1.last_volume := by
  obtain ⟨-, -, -, -, log, vc, hk, -, h | h⟩ := MixAndFilter_cases W g C l g1 ret hmix
  · exact absurd h.2.2.1 hpf
  · obtain ⟨-, m2, hcall, -, hlast, hdelay, -⟩ := h
    obtain ⟨log', hk'⟩ := mixChildren_of_results W C _ results hkids 0 0
    rw [hk] at hk'
    simp only [Prod.mk.injEq, Option.some.injEq] at hk'
    obtain ⟨-, -, hvc⟩ := hk'
    have hm : maxVolume vc g.state.active_inputs_ = (results.map Prod.snd ++
        g.state.active_inputs_.map InputQueue.EffectiveVolume).foldl max 0 := by
      rw [hvc, maxVolume, List.foldl_append]
    have hlast' : g1.last_volume = ret := hlast
    refine ⟨m2.data, decide (maxVolume vc g.state.active_inputs_ = 0), ?_, ?_, ?_, ?_,
      hlast'.symm⟩
    · rw [hlast']; exact hcall
    · rw [decide_eq_true_eq, hm]
    · intro hnn
      rw [decide_eq_true_eq, hm]
      exact foldl_max_eq_zero_iff _ hnn
    · rw [hlast']; exact hdelay

/-- Witness of C23 on the example leaf with the example input A active. -/
theorem C23_pipeline_arguments_witness :
    ∃ l g1 ret, MixAndFilter exampleWorld exampleActive 3 = (l, some (g1, ret)) ∧
      (ownCalls l).filter Call.isProcessFrames ≠ [] ∧
      ∃ buf sil, (ownCalls l).filter Call.isProcessFrames =
        [Call.ProcessFrames buf 3 g1.last_volume sil] ∧
      (sil = true ↔ (([] : List (FilterGroup Nat × ℚ)).map Prod.snd ++
        exampleActive.state.active_inputs_.map InputQueue.EffectiveVolume).foldl max 0 = 0) ∧
      ((∀ v ∈ ([] : List (FilterGroup Nat × ℚ)).map Prod.snd ++
          exampleActive.state.active_inputs_.map InputQueue.EffectiveVolume, 0 ≤ v) →
        (sil = true ↔ ∀ v ∈ ([] : List (FilterGroup Nat × ℚ)).map Prod.snd ++
          exampleActive.state.active_inputs_.map InputQueue.EffectiveVolume, v = 0)) ∧
      g1.state.delay_frames_ = (exampleWorld.ProcessFrames
        exampleActive.state.post_processing_pipeline_ buf
        exampleActive.state.num_channels_ 3 g1.last_volume sil).2.2 ∧
      ret = g1.last_volume :=
  ⟨_, _, _, rfl, fun h => List.noConfusion h,
    C23_pipeline_arguments exampleWorld exampleActive 3 [] _ _ _ List.Forall₂.nil rfl
      (fun h => List.noConfusion h)⟩

/-- C24: in every state a group reaches from its constructor the last volume
is at least 0, and it is non-zero exactly when some earlier `MixAndFilter`
call made it so; a returning `MixAndFilter` call returns a value that is at
least 0, it returns 0 only if it took the silence early return or the last
volume has never been non-zero (and still is 0), and once the last volume has
been non-zero every call that runs the pipeline returns a value above 0. -/
theorem C24_zero_return (W : Collaborators σ) (g : FilterGroup σ) (b : Bool)
    (h : VolumeHistory W g b) :
    0 ≤ g.last_volume ∧ (b = true ↔ g.last_volume ≠ 0) ∧
    ∀ (C : Nat) (l : List Event) (g1 : FilterGroup σ) (r : ℚ),
      MixAndFilter W g C = (l, some (g1, r)) →
      0 ≤ r ∧ 0 ≤ g1.last_volume ∧
      (r = 0 → (ownCalls l).filter Call.isProcessFrames = [] ∨
        (b = false ∧ g1.last_volume = 0)) ∧
      (b = true → (ownCalls l).filter Call.isProcessFrames ≠ [] → 0 < r) ∧
      (b = true → 0 < g1.last_volume) := by
  obtain ⟨h0, hb⟩ := VolumeHistory.sound W g b h
  refine ⟨h0, ?_, ?_⟩
  · rw [hb]
    exact ⟨fun hp => ne_of_gt hp, fun hne => lt_of_le_of_ne h0 (Ne.symm hne)⟩
  · intro C l g1 r hmix
    obtain ⟨h1, hr, hpos, hret⟩ := MixAndFilter_last_volume_sign W g C l g1 r hmix h0
    refine ⟨hr, h1, ?_, ?_, fun hbt => hpos (hb.1 hbt)⟩
    · intro hr0
      by_cases hpf : (ownCalls l).filter Call.isProcessFrames = []
      · exact Or.inl hpf
      · right
        have hl : g1.last_volume = 0 := by rw [← hret hpf, hr0]
        refine ⟨?_, hl⟩
        cases hbb : b with
        | false => rfl
        | true =>
          have := hpos (hb.1 hbb)
          rw [hl] at this
          exact absurd this (lt_irrefl _)
    · intro hbt hpf
      rw [hret hpf]
      exact hpos (hb.1 hbt)

/-- Witness of C24 on the example leaf after a first call with the example
input A active. -/
theorem C24_zero_return_witness :
    ∃ l g1 r, MixAndFilter exampleWorld exampleActive 3 = (l, some (g1, r)) ∧
      (0 ≤ g1.last_volume ∧ ((false || decide (g1.last_volume ≠ 0)) = true ↔
        g1.last_volume ≠ 0) ∧
      ∀ (C : Nat) (l2 : List Event) (g2 : FilterGroup Nat) (r2 : ℚ),
        MixAndFilter exampleWorld g1 C = (l2, some (g2, r2)) →
        0 ≤ r2 ∧ 0 ≤ g2.last_volume ∧
        (r2 = 0 → (ownCalls l2).filter Call.isProcessFrames = [] ∨
          ((false || decide (g1.last_volume ≠ 0)) = false ∧ g2.last_volume = 0)) ∧
        ((false || decide (g1.last_volume ≠ 0)) = true →
          (ownCalls l2).filter Call.isProcessFrames ≠ [] → 0 < r2) ∧
        ((false || decide (g1.last_volume ≠ 0)) = true → 0 < g2.last_volume)) :=
  ⟨_, _, _, rfl,
    C24_zero_return exampleWorld _ _
      (VolumeHistory.MixAndFilter exampleActive _ false 3 _ _
        (VolumeHistory.AddActiveInput _ false exampleInputA
          (VolumeHistory.Initialize _ false 48000 (VolumeHistory.new 2 "leaf" 0 {"a"} [])))
        rfl)⟩

/-- C25: when a `MixAndFilter` call of a parent returns, its children are
exactly the groups that the children's own `MixAndFilter` calls returned: the
output buffer, the last volume and the delay of each child (and everything
else of the child) are as that child's own call left them. -/
theorem C25_children_untouched (W : Collaborators σ) (g : FilterGroup σ) (C : Nat)
    (results : List (FilterGroup σ × ℚ)) (l : List Event) (g1 : FilterGroup σ) (r : ℚ)
    (hkids : List.Forall₂ (fun child res => ∃ lg, MixAndFilter W child C = (lg, some res))
      g.mixed_inputs_ results)
    (hmix : MixAndFilter W g C = (l, some (g1, r))) :
    g1.mixed_inputs_ = results.map Prod.fst ∧
    g1.mixed_inputs_.length = g.mixed_inputs_.length ∧
    ∀ (i : Nat) (res : FilterGroup σ × ℚ), results[i]? = some res →
      ∃ child1 : FilterGroup σ, g1.mixed_inputs_[i]? = some child1 ∧
        child1.data = res.1.data ∧ child1.last_volume = res.1.last_volume ∧
        child1.state.delay_frames_ = res.1.state.delay_frames_ := by
  obtain ⟨-, log, vc, hk⟩ := MixAndFilter_children W g C l g1 r hmix
  obtain ⟨log', hk'⟩ := mixChildren_of_results W C _ results hkids 0 0
  rw [hk] at hk'
  simp only [Prod.mk.injEq, Option.some.injEq] at hk'
  obtain ⟨-, hcs, -⟩ := hk'
  refine ⟨hcs, ?_, ?_⟩
  · rw [hcs, List.length_map, hkids.length_eq]
  · intro i res hi
    exact ⟨res.1, by rw [hcs, List.getElem?_map, hi]; rfl, rfl, rfl, rfl⟩

/-- Witness of C25 on the example parent over a silent and an active leaf. -/
theorem C25_children_untouched_witness :
    ∃ l g1 r lx x1 rx ly y1 ry,
      MixAndFilter exampleWorld (exampleParent [exampleLeaf 0, exampleActive]) 3 =
        (l, some (g1, r)) ∧
      MixAndFilter exampleWorld (exampleLeaf 0) 3 = (lx, some (x1, rx)) ∧
      MixAndFilter exampleWorld exampleActive 3 = (ly, some (y1, ry)) ∧
      (g1.mixed_inputs_ = [(x1, rx), (y1, ry)].map Prod.fst ∧
       g1.mixed_inputs_.length =
        (exampleParent [exampleLeaf 0, exampleActive]).mixed_inputs_.length ∧
       ∀ (i : Nat) (res : FilterGroup Nat × ℚ), [(x1, rx), (y1, ry)][i]? = some res →
        ∃ child1 : FilterGroup Nat, g1.mixed_inputs_[i]? = some child1 ∧
          child1.data = res.1.data ∧ child1.last_volume = res.1.last_volume ∧
          child1.state.delay_frames_ = res.1.state.delay_frames_) :=
  ⟨_, _, _, _, _, _, _, _, _, rfl, rfl, rfl,
    C25_children_untouched exampleWorld (exampleParent [exampleLeaf 0, exampleActive]) 3
      _ _ _ _
      (List.Forall₂.cons ⟨_, rfl⟩ (List.Forall₂.cons ⟨_, rfl⟩ List.Forall₂.nil)) rfl⟩

/-- C26: in every state a group reaches from its constructor by `Initialize`,
`AddActiveInput`, `ClearActiveInputs` and `MixAndFilter` calls, the counter
`frames_zeroed_` is at most the frame capacity of the output buffer and the
frames it counts are zero in every channel; a `MixAndFilter(C)` call with `C`
above that capacity has `frames_zeroed_ < C`, and if it takes the silence
early return it creates the buffer, zero-fills its first `C` frames and only
then returns, leaving the first `C` frames of every channel zero. -/
theorem C26_zero_cache (W : Collaborators σ) (g : FilterGroup σ) (h : Reachable W g) :
    g.state.frames_zeroed_ ≤ capacity g.state.mixed_ ∧
    (∀ m, g.state.mixed_ = some m →
      ∀ c f, c < m.channels → f < g.state.frames_zeroed_ → m.data c f = 0) ∧
    ∀ (C : Nat), capacity g.state.mixed_ < C →
      g.state.frames_zeroed_ < C ∧
      ∀ (l : List Event) (g1 : FilterGroup σ) (r : ℚ),
        MixAndFilter W g C = (l, some (g1, r)) →
        (ownCalls l).filter Call.isProcessFrames = [] →
        (∃ A : List Call, A ≠ [] ∧ (∀ c ∈ A, c.isCreate = true) ∧
          ownCalls l = Call.MixAndFilter C :: A ++
            [Call.ZeroFramesPartial 0 C, Call.Return 0]) ∧
        OutputZero g1 C ∧ g1.state.frames_zeroed_ = C := by
  have hz := Reachable.zeroCacheSound W g h
  have hcap : g.state.frames_zeroed_ ≤ capacity g.state.mixed_ := by
    cases hb : g.state.mixed_ with
    | none => simp only [ZeroCacheSound, hb] at hz; simp [capacity, hz]
    | some b => simp only [ZeroCacheSound, hb] at hz; exact hz.1
  refine ⟨hcap, ?_, ?_⟩
  · intro m hm
    simp only [ZeroCacheSound, hm] at hz
    exact hz.2
  · intro C hC
    have hlt : g.state.frames_zeroed_ < C := lt_of_le_of_lt hcap hC
    refine ⟨hlt, ?_⟩
    intro l g1 r hmix hpf
    obtain ⟨A, hA, hnil, hOC⟩ := shortCircuit_ownCalls W g C l g1 r hmix hpf
    rw [if_pos hlt] at hOC
    have hsmall : tooSmall g.state.mixed_ C = true := by
      cases hb : g.state.mixed_ with
      | none => rfl
      | some b =>
        rw [hb] at hC
        simpa [tooSmall, capacity] using hC
    refine ⟨⟨A, ?_, hA, hOC⟩, shortCircuit_OutputZero W g C l g1 r hmix hz hpf, ?_⟩
    · intro hAnil
      have := (hnil.1 hAnil).1
      rw [hsmall] at this
      cases this
    · obtain ⟨-, -, -, -, log, vc, hk, -, h' | h'⟩ := MixAndFilter_cases W g C l g1 r hmix
      · obtain ⟨hs, -⟩ := h'
        obtain ⟨hrate, -⟩ := MixAndFilter_children W g C l g1 r hmix
        obtain ⟨l', m, t, A', -, -, hMF, -, -⟩ :=
          MixAndFilter_silent W g C hrate log _ vc hk hs
        rw [hmix, if_pos hlt] at hMF
        simp only [Prod.mk.injEq, Option.some.injEq] at hMF
        rw [hMF.2.1]
        rfl
      · obtain ⟨-, m2, hcall, -⟩ := h'
        rw [hcall] at hpf
        cases hpf

/-- Witness of C26 on the example leaf after a silent call with chunk size 3
(3 frames allocated and zeroed, counter 3), called again with chunk size 5:
the call creates new buffers, zero-fills 5 frames and returns 0. -/
theorem C26_zero_cache_witness :
    exampleZeroed.state.frames_zeroed_ = 3 ∧ capacity exampleZeroed.state.mixed_ = 3 ∧
    (exampleZeroed.state.frames_zeroed_ ≤ capacity exampleZeroed.state.mixed_ ∧
     (∀ m, exampleZeroed.state.mixed_ = some m →
       ∀ c f, c < m.channels → f < exampleZeroed.state.frames_zeroed_ → m.data c f = 0) ∧
     ∀ (C : Nat), capacity exampleZeroed.state.mixed_ < C →
       exampleZeroed.state.frames_zeroed_ < C ∧
       ∀ (l : List Event) (g1 : FilterGroup Nat) (r : ℚ),
         MixAndFilter exampleWorld exampleZeroed C = (l, some (g1, r)) →
         (ownCalls l).filter Call.isProcessFrames = [] →
         (∃ A : List Call, A ≠ [] ∧ (∀ c ∈ A, c.isCreate = true) ∧
           ownCalls l = Call.MixAndFilter C :: A ++
             [Call.ZeroFramesPartial 0 C, Call.Return 0]) ∧
         OutputZero g1 C ∧ g1.state.frames_zeroed_ = C) ∧
    ∃ l g1, MixAndFilter exampleWorld exampleZeroed 5 = (l, some (g1, 0)) ∧
      (ownCalls l).filter Call.isProcessFrames = [] ∧
      ownCalls l = [Call.MixAndFilter 5, Call.Create true 2 5, Call.Create false 2 5,
        Call.ZeroFramesPartial 0 5, Call.Return 0] ∧
      OutputZero g1 5 ∧ g1.state.frames_zeroed_ = 5 :=
  ⟨rfl, rfl,
    C26_zero_cache exampleWorld exampleZeroed
      (Reachable.MixAndFilter (exampleLeaf 0) _ 3 _ _
        (Reachable.Initialize _ 48000 (Reachable.new 2 "leaf" 0 {"a"} [])) rfl),
    _, _, rfl, rfl, rfl,
    (((C26_zero_cache exampleWorld exampleZeroed
      (Reachable.MixAndFilter (exampleLeaf 0) _ 3 _ _
        (Reachable.Initialize _ 48000 (Reachable.new 2 "leaf" 0 {"a"} [])) rfl)).2.2 5
      (by decide)).2 _ _ _ rfl rfl).2⟩

/-- C27: in a returning `MixAndFilter` call of a group in a reachable state
that does not take the silence early return, the returned value is at least
the value each child returned in this call and at least the effective volume
of each active input; every child that returned a value above 0 has a last
volume above 0 and is accumulated into the parent's buffer, by an `FMAC` call
on every channel. -/
theorem C27_volume_dominance (W : Collaborators σ) (g : FilterGroup σ) (C : Nat)
    (results : List (FilterGroup σ × ℚ)) (l : List Event) (g1 : FilterGroup σ) (ret : ℚ)
    (hreach : Reachable W g)
    (hkids : List.Forall₂ (fun child res => ∃ lg, MixAndFilter W child C = (lg, some res))
      g.mixed_inputs_ results)
    (hmix : MixAndFilter W g C = (l, some (g1, ret)))
    (hpf : (ownCalls l).filter Call.isProcessFrames ≠ []) :
    (∀ res ∈ results, res.2 ≤ ret) ∧
    (∀ q ∈ g.state.active_inputs_, q.EffectiveVolume ≤ ret) ∧
    ∀ (i : Nat) (res : FilterGroup σ × ℚ), results[i]? = some res → 0 < res.2 →
      0 < res.1.last_volume ∧ g1.mixed_inputs_[i]? = some res.1 ∧
      ∀ c, c < g.state.num_channels_ → Call.FMAC i c ∈ ownCalls l := by
  have h0 := Reachable.last_volume_nonneg W g hreach
  obtain ⟨-, -, -, -, log, vc, hk, hvc0, h | h⟩ := MixAndFilter_cases W g C l g1 ret hmix
  · exact absurd h.2.2.1 hpf
  · obtain ⟨-, m2, -, hr, -⟩ := h
    obtain ⟨log', hk'⟩ := mixChildren_of_results W C _ results hkids 0 0
    rw [hk] at hk'
    simp only [Prod.mk.injEq, Option.some.injEq] at hk'
    obtain ⟨-, hcs, hvc⟩ := hk'
    have hm : vc ≤ maxVolume vc g.state.active_inputs_ := maxVolume_ge vc _
    have hret : maxVolume vc g.state.active_inputs_ ≤ ret := by
      rw [hr]
      split
      · rename_i h0m
        rw [h0m]; exact h0
      · exact le_refl _
    refine ⟨?_, ?_, ?_⟩
    · intro res hres
      have : res.2 ≤ vc := by
        rw [hvc]
        exact (le_foldl_max_rat _ 0).2 _ (List.mem_map_of_mem Prod.snd hres)
      exact le_trans this (le_trans hm hret)
    · intro q hq
      have : q.EffectiveVolume ≤ maxVolume vc g.state.active_inputs_ :=
        (le_foldl_max_rat _ vc).2 _ (List.mem_map_of_mem InputQueue.EffectiveVolume hq)
      exact le_trans this hret
    · intro i res hi hpos
      obtain ⟨child, lg, hcall⟩ : ∃ child lg, MixAndFilter W child C = (lg, some res) := by
        obtain ⟨hi', hieq⟩ := List.getElem?_eq_some.1 hi
        have hfa := List.forall₂_iff_get.1 hkids
        have hj' : i < g.mixed_inputs_.length := by rw [hfa.1]; exact hi'
        obtain ⟨lg, hcall⟩ := hfa.2 i hj' hi'
        have hget : results.get ⟨i, hi'⟩ = res := hieq
        rw [hget] at hcall
        exact ⟨_, lg, hcall⟩
      have hlv : 0 < res.1.last_volume := by
        rcases MixAndFilter_last_volume W child C lg res.1 res.2 hcall with ⟨h0', -⟩ | h1
        · rw [h0'] at hpos; exact absurd hpos (lt_irrefl _)
        · rw [h1]; exact hpos
      have hi1 : g1.mixed_inputs_[i]? = some res.1 := by
        rw [hcs, List.getElem?_map, hi]; rfl
      exact ⟨hlv, hi1, fun c hc => MixAndFilter_FMAC W g C l g1 ret hmix hpf i res.1 hi1 hlv c hc⟩

/-- Witness of C27 on the example parent over a silent and an active leaf. -/
theorem C27_volume_dominance_witness :
    ∃ l g1 ret lx x1 rx ly y1 ry,
      MixAndFilter exampleWorld (exampleParent [exampleLeaf 0, exampleActive]) 3 =
        (l, some (g1, ret)) ∧
      MixAndFilter exampleWorld (exampleLeaf 0) 3 = (lx, some (x1, rx)) ∧
      MixAndFilter exampleWorld exampleActive 3 = (ly, some (y1, ry)) ∧
      (ownCalls l).filter Call.isProcessFrames ≠ [] ∧
      ((∀ res ∈ [(x1, rx), (y1, ry)], res.2 ≤ ret) ∧
       (∀ q ∈ (exampleParent [exampleLeaf 0, exampleActive]).state.active_inputs_,
         q.EffectiveVolume ≤ ret) ∧
       ∀ (i : Nat) (res : FilterGroup Nat × ℚ), [(x1, rx), (y1, ry)][i]? = some res →
        0 < res.2 →
        0 < res.1.last_volume ∧ g1.mixed_inputs_[i]? = some res.1 ∧
        ∀ c, c < (exampleParent [exampleLeaf 0, exampleActive]).state.num_channels_ →
          Call.FMAC i c ∈ ownCalls l) :=
  ⟨_, _, _, _, _, _, _, _, _, rfl, rfl, rfl, fun h => List.noConfusion h,
    C27_volume_dominance exampleWorld (exampleParent [exampleLeaf 0, exampleActive]) 3
      _ _ _ _
      (Reachable.Initialize _ 48000 (Reachable.new 2 "mix" 0 ∅ _))
      (List.Forall₂.cons ⟨_, rfl⟩ (List.Forall₂.cons ⟨_, rfl⟩ List.Forall₂.nil)) rfl
      (fun h => List.noConfusion h)⟩

/-- C28: a parent that does not take the silence early return, over children
one of which (in a reachable state, with an output buffer of at least the
parent's channel count) took the silence early return in this callback while
its last volume is above 0: the parent accumulates that child's buffer, by an
`FMAC` call on every channel, and hands to its pipeline a buffer that equals,
on the first `C` frames of every channel, the one it hands over when that
child is absent; the returned volume and the `is_silence` flag are the same
too. This holds for every chunk size `C`. -/
theorem C28_paused_child_adds_zero (W : Collaborators σ) (s : FilterGroupState σ)
    (xs ys : List (FilterGroup σ)) (child child1 : FilterGroup σ)
    (rxs rys : List (FilterGroup σ × ℚ)) (C : Nat) (lc : List Event)
    (hrate : s.output_samples_per_second_ ≠ 0)
    (hxs : List.Forall₂ (fun x res => ∃ lg, MixAndFilter W x C = (lg, some res)) xs rxs)
    (hys : List.Forall₂ (fun y res => ∃ lg, MixAndFilter W y C = (lg, some res)) ys rys)
    (hreach : Reachable W child)
    (hchild : MixAndFilter W child C = (lc, some (child1, 0)))
    (hshort : (ownCalls lc).filter Call.isProcessFrames = [])
    (hlast : 0 < child1.last_volume)
    (hch : ∀ d, child1.data = some d → s.num_channels_ ≤ d.channels)
    (hns : isSilent W s (((rxs ++ rys).map Prod.snd).foldl max 0) = false) :
    ∃ l g1 l' g1' ret buf buf' sil,
      MixAndFilter W (FilterGroup.mk s (xs ++ child :: ys)) C = (l, some (g1, ret)) ∧
      MixAndFilter W (FilterGroup.mk s (xs ++ ys)) C = (l', some (g1', ret)) ∧
      (∀ c, c < s.num_channels_ → Call.FMAC xs.length c ∈ ownCalls l) ∧
      (ownCalls l).filter Call.isProcessFrames = [Call.ProcessFrames buf C ret sil] ∧
      (ownCalls l').filter Call.isProcessFrames = [Call.ProcessFrames buf' C ret sil] ∧
      ∀ c f, c < s.num_channels_ → f < C → buf c f = buf' c f := by
  have hrate := DCHECK_NE_of_ne W.DCHECK_IS_ON _ hrate
  have hkids : List.Forall₂ (fun x res => ∃ lg, MixAndFilter W x C = (lg, some res))
      (xs ++ child :: ys) (rxs ++ (child1, (0 : ℚ)) :: rys) :=
    List.rel_append hxs (List.Forall₂.cons ⟨lc, hchild⟩ hys)
  have hkids' : List.Forall₂ (fun x res => ∃ lg, MixAndFilter W x C = (lg, some res))
      (xs ++ ys) (rxs ++ rys) := List.rel_append hxs hys
  obtain ⟨log, hk⟩ := mixChildren_of_results W C _ _ hkids 0 0
  obtain ⟨log', hk'⟩ := mixChildren_of_results W C _ _ hkids' 0 0
  have hv : ((rxs ++ (child1, (0 : ℚ)) :: rys).map Prod.snd).foldl max 0 =
      ((rxs ++ rys).map Prod.snd).foldl max 0 := by
    rw [List.map_append, List.map_cons, List.map_append]
    exact foldl_max_insert_zero _ _
  rw [hv] at hk
  obtain ⟨l, m2, t1, A, calls, s1, hMF, hOC, hA, hcalls, -, -, hdata⟩ :=
    MixAndFilter_mix W (FilterGroup.mk s (xs ++ child :: ys)) C hrate log _ _ hk hns
  obtain ⟨l', m2', t1', A', calls', s1', hMF', hOC', hA', hcalls', -, -, hdata'⟩ :=
    MixAndFilter_mix W (FilterGroup.mk s (xs ++ ys)) C hrate log' _ _ hk' hns
  rw [state_mk] at hMF hOC
  rw [state_mk] at hMF' hOC'
  have hpf : (ownCalls l).filter Call.isProcessFrames = [Call.ProcessFrames m2.data C
      (if maxVolume (((rxs ++ rys).map Prod.snd).foldl max 0) s.active_inputs_ = 0
        then s.last_volume_
        else maxVolume (((rxs ++ rys).map Prod.snd).foldl max 0) s.active_inputs_)
      (decide (maxVolume (((rxs ++ rys).map Prod.snd).foldl max 0) s.active_inputs_ = 0))] := by
    rw [hOC]
    exact filter_isProcessFrames_mix C A calls _ _ hA hcalls rfl rfl
  have hpf' : (ownCalls l').filter Call.isProcessFrames = [Call.ProcessFrames m2'.data C
      (if maxVolume (((rxs ++ rys).map Prod.snd).foldl max 0) s.active_inputs_ = 0
        then s.last_volume_
        else maxVolume (((rxs ++ rys).map Prod.snd).foldl max 0) s.active_inputs_)
      (decide (maxVolume (((rxs ++ rys).map Prod.snd).foldl max 0) s.active_inputs_ = 0))] := by
    rw [hOC']
    exact filter_isProcessFrames_mix C A' calls' _ _ hA' hcalls' rfl rfl
  have hz : OutputZero child1 C :=
    shortCircuit_OutputZero W child C lc child1 0 hchild
      (Reachable.zeroCacheSound W child hreach) hshort
  refine ⟨l, _, l', _, _, m2.data, m2'.data, _, hMF, hMF', ?_, hpf, hpf', ?_⟩
  · intro c hc
    refine MixAndFilter_FMAC W _ C l _ _ hMF (by rw [hpf]; exact List.cons_ne_nil _ _)
      xs.length child1 ?_ hlast c hc
    show ((rxs ++ (child1, (0 : ℚ)) :: rys).map Prod.fst)[xs.length]? = some child1
    rw [List.map_append, List.map_cons, hxs.length_eq,
      List.getElem?_append_right (by simp), List.length_map, Nat.sub_self]
    simp
  · intro c f hc hf
    rw [hdata c f hc hf, hdata' c f hc hf]
    simp only [preFilterSample, state_mk, List.map_append, List.map_cons, childrenSum_insert,
      hlast, gt_iff_lt, if_true, OutputZero.outputSample child1 C s.num_channels_ hz hch c f hc hf,
      add_zero]

/-- Witness of C28: the example parent with the example input A active, over
the paused example group alone, with a chunk size above the child's previous
one. -/
theorem C28_paused_child_adds_zero_witness :
    ∃ lc child1,
      MixAndFilter exampleWorld examplePaused 5 = (lc, some (child1, 0)) ∧
      (ownCalls lc).filter Call.isProcessFrames = [] ∧ 0 < child1.last_volume ∧
      ∃ l g1 l' g1' ret buf buf' sil,
        MixAndFilter exampleWorld
          (FilterGroup.mk (exampleMixer []).state ([] ++ examplePaused :: [])) 5 =
            (l, some (g1, ret)) ∧
        MixAndFilter exampleWorld (FilterGroup.mk (exampleMixer []).state ([] ++ [])) 5 =
          (l', some (g1', ret)) ∧
        (∀ c, c < (exampleMixer []).state.num_channels_ →
          Call.FMAC ([] : List (FilterGroup Nat)).length c ∈ ownCalls l) ∧
        (ownCalls l).filter Call.isProcessFrames = [Call.ProcessFrames buf 5 ret sil] ∧
        (ownCalls l').filter Call.isProcessFrames = [Call.ProcessFrames buf' 5 ret sil] ∧
        ∀ c f, c < (exampleMixer []).state.num_channels_ → f < 5 → buf c f = buf' c f :=
  ⟨_, _, rfl, rfl, by decide,
    C28_paused_child_adds_zero exampleWorld (exampleMixer []).state [] [] examplePaused _ [] [] 5 _
      (by decide) List.Forall₂.nil List.Forall₂.nil
      (Reachable.ClearActiveInputs _
        (Reachable.MixAndFilter exampleActive _ 3 _ _
          (Reachable.AddActiveInput _ exampleInputA
            (Reachable.Initialize _ 48000 (Reachable.new 2 "leaf" 0 {"a"} [])))
          rfl))
      rfl rfl (by decide)
      (fun d hd => by
        have h2 : some _ = some d := hd
        cases h2
        exact le_refl 2)
      rfl⟩

/-- C29: a returning `MixAndFilter` call never changes the active-input list;
one that takes the silence early return (it returns 0 without running the
pipeline) also leaves the last volume, the delay in frames and the sample rate
as they were, so that `GetRenderingDelayMicroseconds` reports what it reported
before; `Initialize` and `CanProcessInput` leave the active-input list alone,
`AddActiveInput` appends its argument and `ClearActiveInputs` empties it. -/
theorem C29_early_return_frame (W : Collaborators σ) (g : FilterGroup σ) (C : Nat)
    (l : List Event) (g1 : FilterGroup σ) (r : ℚ)
    (hmix : MixAndFilter W g C = (l, some (g1, r))) :
    g1.state.active_inputs_ = g.state.active_inputs_ ∧
    ((ownCalls l).filter Call.isProcessFrames = [] →
      r = 0 ∧ g1.last_volume = g.last_volume ∧
      g1.state.delay_frames_ = g.state.delay_frames_ ∧
      g1.state.output_samples_per_second_ = g.state.output_samples_per_second_ ∧
      GetRenderingDelayMicroseconds g1 = GetRenderingDelayMicroseconds g) ∧
    (∀ rate, (Initialize W g rate).state.active_inputs_ = g.state.active_inputs_) ∧
    (∀ input, (CanProcessInput g input).2.state.active_inputs_ = g.state.active_inputs_) ∧
    (∀ input, (AddActiveInput g input).state.active_inputs_ =
      g.state.active_inputs_ ++ [input]) ∧
    (ClearActiveInputs g).state.active_inputs_ = [] := by
  obtain ⟨-, hrate, hin, -, log, vc, hk, -, h | h⟩ := MixAndFilter_cases W g C l g1 r hmix
  · obtain ⟨-, hr, -, hlast, hdelay, -⟩ := h
    refine ⟨hin, fun _ => ⟨hr, hlast, hdelay, hrate, ?_⟩, fun _ => rfl, fun _ => rfl,
      fun _ => rfl, rfl⟩
    simp only [GetRenderingDelayMicroseconds, hrate, hdelay]
  · obtain ⟨-, m2, hcall, -⟩ := h
    refine ⟨hin, fun hpf => ?_, fun _ => rfl, fun _ => rfl, fun _ => rfl, rfl⟩
    rw [hcall] at hpf
    cases hpf

/-- Witness of C29 on the paused example group: its call takes the silence
early return and keeps last volume 1 and delay 480. -/
theorem C29_early_return_frame_witness :
    ∃ l g1 r, MixAndFilter exampleWorld examplePaused 3 = (l, some (g1, r)) ∧
      (ownCalls l).filter Call.isProcessFrames = [] ∧
      examplePaused.last_volume = 1 ∧ examplePaused.state.delay_frames_ = 480 ∧
      g1.state.active_inputs_ = examplePaused.state.active_inputs_ ∧
      (r = 0 ∧ g1.last_volume = examplePaused.last_volume ∧
        g1.state.delay_frames_ = examplePaused.state.delay_frames_ ∧
        g1.state.output_samples_per_second_ =
          examplePaused.state.output_samples_per_second_ ∧
        GetRenderingDelayMicroseconds g1 = GetRenderingDelayMicroseconds examplePaused) :=
  ⟨_, _, _, rfl, rfl, rfl, rfl,
    (C29_early_return_frame exampleWorld examplePaused 3 _ _ _ rfl).1,
    (C29_early_return_frame exampleWorld examplePaused 3 _ _ _ rfl).2.1 rfl⟩


/-- C30: for a tree in whose history every input that was active, in any
group of the tree and in any callback so far, had an effective volume
satisfying `P`: a returning `MixAndFilter` call returns 0 or a value
satisfying `P`, every `MixAndFilter` call made during it, on whatever group of
the tree, returns 0 or a value satisfying `P`, and afterwards every group of
the tree has a last volume that is 0 or satisfies `P`. With `P` the effective
volumes seen so far, every non-zero return is one of them; when `P` implies
the range [0,1], all these values lie in [0,1]. -/
theorem C30_volume_range (W : Collaborators σ) (P : ℚ → Prop) (g : FilterGroup σ)
    (h : InputsWithin W P g) (C : Nat) (l : List Event) (g1 : FilterGroup σ) (r : ℚ)
    (hmix : MixAndFilter W g C = (l, some (g1, r))) :
    (r = 0 ∨ P r) ∧ (g1.last_volume = 0 ∨ P g1.last_volume) ∧
    (∀ e ∈ l, ∀ x, e.call = Call.Return x → x = 0 ∨ P x) ∧
    VolumesIn P g1 ∧
    ((∀ x, P x → 0 ≤ x ∧ x ≤ 1) →
      (0 ≤ r ∧ r ≤ 1) ∧ (0 ≤ g1.last_volume ∧ g1.last_volume ≤ 1) ∧
      (∀ e ∈ l, ∀ x, e.call = Call.Return x → 0 ≤ x ∧ x ≤ 1) ∧
      VolumesIn (fun x => 0 ≤ x ∧ x ≤ 1) g1) := by
  obtain ⟨hr, hV1, hlog⟩ := volumes_tree W P g C l g1 r (InputsWithin.volumesIn W P g h) hmix
  have hlast : g1.last_volume = 0 ∨ P g1.last_volume := ((volumesIn_iff P g1).1 hV1).1
  refine ⟨hr, hlast, hlog, hV1, ?_⟩
  intro hP
  have hrange : ∀ x : ℚ, x = 0 ∨ P x → 0 ≤ x ∧ x ≤ 1 := by
    rintro x (rfl | hx)
    · exact ⟨le_refl _, zero_le_one⟩
    · exact hP x hx
  refine ⟨hrange r hr, hrange _ hlast, fun e he x hx => hrange x (hlog e he x hx), ?_⟩
  have hmono : ∀ g' : FilterGroup σ, InputsWithin W P g' →
      InputsWithin W (fun x => 0 ≤ x ∧ x ≤ 1) g' := by
    intro g' hg'
    induction hg' with
    | new n name p ids cs _ ih => exact InputsWithin.new n name p ids cs ih
    | Initialize g rate _ ih => exact InputsWithin.Initialize g rate ih
    | CanProcessInput g input _ ih => exact InputsWithin.CanProcessInput g input ih
    | AddActiveInput g input _ hq ih => exact InputsWithin.AddActiveInput g input ih (hP _ hq)
    | ClearActiveInputs g _ ih => exact InputsWithin.ClearActiveInputs g ih
    | children g cs _ _ ih ihcs => exact InputsWithin.children g cs ih ihcs
    | MixAndFilter g g1 C l r _ hm ih => exact InputsWithin.MixAndFilter g g1 C l r ih hm
  exact InputsWithin.volumesIn W _ g1
    (InputsWithin.MixAndFilter g g1 C l r (hmono g h) hmix)

/-- Witness of C30 on the example parent over the active example leaf, whose
only input has effective volume 1. -/
theorem C30_volume_range_witness :
    ∃ l g1 r, MixAndFilter exampleWorld (exampleParent [exampleActive]) 3 = (l, some (g1, r)) ∧
      ((r = 0 ∨ r = 1) ∧ (g1.last_volume = 0 ∨ g1.last_volume = 1) ∧
       (∀ e ∈ l, ∀ x, e.call = Call.Return x → x = 0 ∨ x = 1) ∧
       VolumesIn (fun x => x = 1) g1 ∧
       ((∀ x : ℚ, x = 1 → 0 ≤ x ∧ x ≤ 1) →
        (0 ≤ r ∧ r ≤ 1) ∧ (0 ≤ g1.last_volume ∧ g1.last_volume ≤ 1) ∧
        (∀ e ∈ l, ∀ x, e.call = Call.Return x → 0 ≤ x ∧ x ≤ 1) ∧
        VolumesIn (fun x => 0 ≤ x ∧ x ≤ 1) g1)) :=
  ⟨_, _, _, rfl,
    C30_volume_range exampleWorld (fun x => x = 1) (exampleParent [exampleActive])
      (InputsWithin.Initialize _ 48000
        (InputsWithin.new 2 "mix" 0 ∅ [exampleActive]
          (fun c hc => by
            rw [List.mem_singleton.1 hc]
            exact InputsWithin.AddActiveInput _ exampleInputA
              (InputsWithin.Initialize _ 48000
                (InputsWithin.new 2 "leaf" 0 {"a"} []
                  (fun c' hc' => absurd hc' (List.not_mem_nil c'))))
              rfl)))
      3 _ _ _ rfl⟩

end FilterGroup

end media
end chromecast
